import Mathlib

set_option maxRecDepth 100000

/-!
Shallow embedding of the A* search code of the `PAI-lab` repository
(`robopath.py`: grid pathfinding; `week3.py`: 8-puzzle solver), together
with theorems settling the specification claims about it.

Conventions of the embedding:
* Python machine integers are modelled by `Int` (they are unbounded in
  Python); list indices and counters by `Nat`.
* `heapq` is modelled by a plain list of entries together with a
  pop-minimum operation.  Python's heap pops the least tuple in
  lexicographic order; since no two live entries of either program are
  ever equal as tuples, "pop the least element" determines the popped
  value uniquely, so a list plus pop-min is an exact value-level model.
* Python dicts keyed by points are modelled by association lists.
* The `while` loops are modelled by fuel-indexed recursion: the outer
  `Option` is `none` exactly when the fuel is exhausted, so a result
  `some r` means the Python loop would have returned `r`.
* A `KeyError` that Python could raise on a dict access is modelled by
  an `Except Unit` layer: `some (Except.error ())` means the run raises.
-/

namespace Robopath

/-- A grid cell, as in `robopath.py`: a pair of (unbounded) integers. -/
abbrev Point := Int × Int

/-- Function `manhattan(a, b)` from `robopath.py` line 9. -/
def manhattan (a b : Point) : Int :=
  |a.1 - b.1| + |a.2 - b.2|

/-- Function `neighbors(pt, width, height)` from `robopath.py` lines 13-24:
the candidate 4-neighbours, each guarded by the corresponding bound
check, appended in the order left, right, down, up of the source. -/
def neighbors (pt : Point) (width height : Int) : List Point :=
  (if pt.1 > 0 then [(pt.1 - 1, pt.2)] else []) ++
  (if pt.1 < width - 1 then [(pt.1 + 1, pt.2)] else []) ++
  (if pt.2 > 0 then [(pt.1, pt.2 - 1)] else []) ++
  (if pt.2 < height - 1 then [(pt.1, pt.2 + 1)] else [])

/-- A frontier entry `(priority, g, point)` as pushed on `open_heap`. -/
abbrev Entry := Int × Int × Point

/-- Python's lexicographic order on the tuples pushed on the heap
(the third component, itself a tuple of ints, compares element-wise). -/
def entryLt (a b : Entry) : Bool :=
  decide (a.1 < b.1 ∨ (a.1 = b.1 ∧ (a.2.1 < b.2.1 ∨ (a.2.1 = b.2.1 ∧
    (a.2.2.1 < b.2.2.1 ∨ (a.2.2.1 = b.2.2.1 ∧ a.2.2.2 < b.2.2.2))))))

/-- Find the least entry of a non-empty list (first of the equal-least
entries, which for this program are always identical tuples). -/
def minEntry (e : Entry) : List Entry → Entry
  | [] => e
  | f :: rest => if entryLt f (minEntry e rest) then f else minEntry e rest

/-- Remove the first occurrence of an entry from a list. -/
def removeEntry (e : Entry) : List Entry → List Entry
  | [] => []
  | f :: rest => if f = e then rest else f :: removeEntry e rest

/-- Model of `heapq.heappop`: pop a least element of the heap. -/
def popMin (l : List Entry) : Option (Entry × List Entry) :=
  match l with
  | [] => none
  | e :: rest =>
      let m := minEntry e rest
      some (m, removeEntry m (e :: rest))

/-- Overwrite the binding of `k` in an association list (Python dict
assignment `d[k] = v`), keeping the keys duplicate-free. -/
def setKey {α : Type} (m : List (Point × α)) (k : Point) (v : α) :
    List (Point × α) :=
  (k, v) :: m.filter (fun p => p.1 ≠ k)

/-- The mutable state of one `astar` call: the heap `open_heap`, the
dicts `came_from` and `gscore`, plus two instrumentation fields that the
Python code does not return but whose history is determined by the run:
the chronological list of all entries ever pushed on the heap, and the
number of states whose successor list was generated (states expanded). -/
structure AState where
  openHeap : List Entry
  cameFrom : List (Point × Option Point)
  gscore : List (Point × Int)
  pushLog : List Entry
  expanded : Nat

/-- The path-reconstruction loop of `astar` (lines 36-42): follow
`came_from` links from `node`, then the collected list reversed — here
built directly in start-to-goal order.  `none` models a `KeyError` or
running out of the fuel bound supplied by the caller. -/
def reconstruct : Nat → List (Point × Option Point) → Point →
    Option (List Point)
  | 0, _, _ => none
  | fuel + 1, cf, node =>
      match cf.lookup node with
      | none => none
      | some none => some [node]
      | some (some p) => (reconstruct fuel cf p).map (· ++ [node])

/-- The body of the successor loop of `astar` (lines 44-52), processing
the neighbour list in order.  `Except.error ()` models the `KeyError`
Python would raise on `gscore[current]` were `current` unscored. -/
def relaxNbrs (goal : Point) (blocked : List Point) (current : Point) :
    List Point → AState → Except Unit AState
  | [], st => .ok st
  | nbr :: rest, st =>
      if nbr ∈ blocked then
        relaxNbrs goal blocked current rest st
      else
        match st.gscore.lookup current with
        | none => .error ()
        | some gcur =>
            let tg := gcur + 1
            let improves :=
              match st.gscore.lookup nbr with
              | none => true
              | some gn => decide (tg < gn)
            if improves then
              let e : Entry := (tg + manhattan nbr goal, tg, nbr)
              relaxNbrs goal blocked current rest
                { st with
                  gscore := setKey st.gscore nbr tg
                  openHeap := e :: st.openHeap
                  pushLog := st.pushLog ++ [e]
                  cameFrom := setKey st.cameFrom nbr (some current) }
            else
              relaxNbrs goal blocked current rest st

/-- The outcome of a terminating `astar` call: the Python return value
(`some path` or `None`), plus the final internal state. -/
abbrev AResult := Option (List Point) × AState

/-- The `while open_heap` loop of `astar` (lines 33-54), fuel-indexed.
The reconstruction walk is given fuel `gscore.length + 1`, an upper
bound on the length of any acyclic predecessor chain. -/
def astarLoop (goal : Point) (width height : Int) (blocked : List Point) :
    Nat → AState → Option (Except Unit AResult)
  | 0, _ => none
  | fuel + 1, st =>
      match popMin st.openHeap with
      | none => some (.ok (none, st))
      | some (e, rest) =>
          let current := e.2.2
          let st1 := { st with openHeap := rest }
          if current = goal then
            match reconstruct (st1.gscore.length + 1) st1.cameFrom current with
            | none => some (.error ())
            | some path => some (.ok (some path, st1))
          else
            match relaxNbrs goal blocked current
                (neighbors current width height)
                { st1 with expanded := st1.expanded + 1 } with
            | .error e => some (.error e)
            | .ok st2 => astarLoop goal width height blocked fuel st2

/-- The initial state built by `astar` lines 28-31. -/
def astarInit (start goal : Point) : AState :=
  { openHeap := [(manhattan start goal, 0, start)]
    cameFrom := [(start, none)]
    gscore := [(start, 0)]
    pushLog := [(manhattan start goal, 0, start)]
    expanded := 0 }

/-- Function `astar(start, goal, width, height, blocked)` from `robopath.py`,
fuel-indexed. -/
def astar (fuel : Nat) (start goal : Point) (width height : Int)
    (blocked : List Point) : Option (Except Unit AResult) :=
  astarLoop goal width height blocked fuel (astarInit start goal)

/-- Just the Python return value of a terminating, non-raising run. -/
def astarResult (fuel : Nat) (start goal : Point) (width height : Int)
    (blocked : List Point) : Option (Option (List Point)) :=
  match astar fuel start goal width height blocked with
  | some (.ok (r, _)) => some r
  | _ => none

end Robopath


namespace Week3

/-- Class `PuzzleState` from `week3.py`: tile arrangement, move count, parent
back-reference and a direction label.  Equality and hashing in Python are
overridden to compare `tiles` only; the embedding keeps the full record
and compares `tiles` explicitly where the code does. -/
inductive PuzzleState where
  | mk (tiles : List Int) (moves : Nat) (parent : Option PuzzleState)
      (moveDescription : String)

/-- The `tiles` field. -/
def PuzzleState.tiles : PuzzleState → List Int
  | .mk t _ _ _ => t

/-- The `moves` field. -/
def PuzzleState.moves : PuzzleState → Nat
  | .mk _ m _ _ => m

/-- The `parent` field. -/
def PuzzleState.parent : PuzzleState → Option PuzzleState
  | .mk _ _ p _ => p

/-- The `move_description` field. -/
def PuzzleState.moveDescription : PuzzleState → String
  | .mk _ _ _ d => d

/-- The goal arrangement `(1, 2, 3, 4, 5, 6, 7, 8, 0)` of `week3.py`. -/
def goalTiles : List Int := [1, 2, 3, 4, 5, 6, 7, 8, 0]

/-- One summand of the heuristic: the Manhattan distance between board
position `i` and board position `gp` of the 3×3 layout (`i // 3`,
`i % 3` row/column coordinates). -/
def posDist (i gp : Nat) : Int :=
  |(i / 3 : Int) - (gp / 3 : Int)| + |(i % 3 : Int) - (gp % 3 : Int)|

/-- The contribution of board position `i` holding tile value `t` to the
heuristic: skipped for the blank, otherwise the distance from `i` to the
goal position `goal.index(t)` of the tile. -/
def tileTerm (t : Int) (i : Nat) : Int :=
  if t ≠ 0 then posDist i (goalTiles.indexOf t) else 0

/-- The `for i in range(n)` accumulation of `PuzzleState.heuristic`. -/
def heurAux (tiles : List Int) : Nat → Int
  | 0 => 0
  | n + 1 => heurAux tiles n + tileTerm (tiles.getD n 0) n

/-- Method `PuzzleState.heuristic` from `week3.py` lines 25-40, as a function
of the tile list: the summed Manhattan distance of every non-blank tile
from its goal position. -/
def heuristicT (tiles : List Int) : Int :=
  heurAux tiles 9

/-- Value of `self.heuristic()` on a state. -/
def PuzzleState.heuristic (s : PuzzleState) : Int :=
  heuristicT s.tiles

/-- Method `PuzzleState.is_goal`: the heuristic is zero. -/
def PuzzleState.isGoal (s : PuzzleState) : Bool :=
  s.heuristic == 0

/-- The `directions` dict of `get_moves`, in Python's (insertion)
iteration order: up, down, left, right, with `(dr, dc)` deltas. -/
def directions : List (String × Int × Int) :=
  [("up", (-1, 0)), ("down", (1, 0)), ("left", (0, -1)), ("right", (0, 1))]

/-- The simultaneous swap
`tiles[i], tiles[j] = tiles[j], tiles[i]` of two positions. -/
def swapAt (l : List Int) (i j : Nat) : List Int :=
  (l.set i (l.getD j 0)).set j (l.getD i 0)

/-- Method `PuzzleState.get_moves` from `week3.py` lines 46-79: for each of the
four directions whose target stays on the 3×3 board, the state obtained
by swapping the blank with the neighbouring tile, with `moves + 1`,
parent `self` and the direction label. -/
def PuzzleState.getMoves (s : PuzzleState) : List PuzzleState :=
  let blankPos := s.tiles.indexOf 0
  let blankRow : Int := (blankPos / 3 : Nat)
  let blankCol : Int := (blankPos % 3 : Nat)
  directions.filterMap (fun d =>
    let newRow := blankRow + d.2.1
    let newCol := blankCol + d.2.2
    if 0 ≤ newRow ∧ newRow < 3 ∧ 0 ≤ newCol ∧ newCol < 3 then
      some (.mk (swapAt s.tiles blankPos (newRow * 3 + newCol).toNat)
        (s.moves + 1) (some s) d.1)
    else none)

/-- The successor relation on tile lists induced by `get_moves`. -/
def succTiles (t : List Int) : List (List Int) :=
  (PuzzleState.getMoves (.mk t 0 none "")).map PuzzleState.tiles

/-- Class `EightPuzzleSolver` instance data fixed at construction:
`initial_state` and `goal_state` (lines 101-106). -/
structure EightPuzzleSolver where
  initialState : PuzzleState
  goalState : PuzzleState

/-- Constructor `EightPuzzleSolver.__init__` (lines 96-108): `none` models the
`ValueError` raised when the input is not a length-9 permutation of
0..8; `sorted(initial_tiles)` is the ascending rearrangement. -/
def mkSolver (initialTiles : List Int) : Option EightPuzzleSolver :=
  if initialTiles.length = 9 ∧
      List.insertionSort (· ≤ ·) initialTiles = [0, 1, 2, 3, 4, 5, 6, 7, 8]
  then
    some { initialState := .mk initialTiles 0 none ""
           goalState := .mk goalTiles 0 none "" }
  else none

/-- The path reconstruction of `solve` (lines 136-141): collect the
parent chain of the goal node, reversed into start-to-goal order. -/
def pathOf : PuzzleState → List PuzzleState
  | .mk t m none d => [.mk t m none d]
  | .mk t m (some q) d => pathOf q ++ [.mk t m (some q) d]

/-- A frontier entry `(f_score, counter, state)` of `solve`. -/
abbrev SEntry := Int × Nat × PuzzleState

/-- Python's order on `(f_score, counter, state)` heap tuples, resolved
at the counter: counters are pairwise distinct, so the state comparison
is never reached. -/
def sentryLt (a b : SEntry) : Bool :=
  decide (a.1 < b.1 ∨ (a.1 = b.1 ∧ a.2.1 < b.2.1))

/-- Least entry of the puzzle frontier (first of the equal-least). -/
def minSEntry (e : SEntry) : List SEntry → SEntry
  | [] => e
  | f :: rest => if sentryLt f (minSEntry e rest) then f else minSEntry e rest

/-- Remove the entry with the given counter (counters are unique). -/
def removeSEntry (c : Nat) : List SEntry → List SEntry
  | [] => []
  | f :: rest => if f.2.1 = c then rest else f :: removeSEntry c rest

/-- Model of `heapq.heappop` on the puzzle frontier. -/
def popMinS (l : List SEntry) : Option (SEntry × List SEntry) :=
  match l with
  | [] => none
  | e :: rest =>
      let m := minSEntry e rest
      some (m, removeSEntry m.2.1 (e :: rest))

/-- The mutable state of one `solve` call: the frontier `open_set`, the
push `counter`, the `visited` set (of tile lists — Python hashes states
by tiles), and `nodes_expanded`; plus the chronological `(f, counter)`
log of all heap pushes, instrumentation determined by the run. -/
structure SState where
  openSet : List SEntry
  counter : Nat
  visited : List (List Int)
  nodesExpanded : Nat
  pushLog : List (Int × Nat)

/-- The successor loop of `solve` (lines 145-150), in `get_moves`
order: skip visited states, otherwise mark visited and push with
`f_score = moves + heuristic` and the next counter value. -/
def enqueueMoves : List PuzzleState → SState → SState
  | [], st => st
  | nxt :: rest, st =>
      if nxt.tiles ∈ st.visited then
        enqueueMoves rest st
      else
        let f := (nxt.moves : Int) + nxt.heuristic
        enqueueMoves rest
          { st with
            visited := nxt.tiles :: st.visited
            openSet := (f, st.counter, nxt) :: st.openSet
            counter := st.counter + 1
            pushLog := st.pushLog ++ [(f, st.counter)] }

/-- The Python return value of `solve`:
`(success, path_to_goal, nodes_expanded)`. -/
abbrev SResult := Bool × List PuzzleState × Nat

/-- The `while open_set` loop of `solve` (lines 129-152), fuel-indexed;
a terminating run also returns the final internal state. -/
def solveLoop : Nat → SState → Option (SResult × SState)
  | 0, _ => none
  | fuel + 1, st =>
      match popMinS st.openSet with
      | none => some ((false, [], st.nodesExpanded), st)
      | some (e, rest) =>
          let current := e.2.2
          let st1 := { st with
            openSet := rest
            nodesExpanded := st.nodesExpanded + 1 }
          if current.isGoal then
            some ((true, pathOf current, st1.nodesExpanded), st1)
          else
            solveLoop fuel (enqueueMoves current.getMoves st1)

/-- The frontier/visited initialisation of `solve` (lines 122-127). -/
def solveInit (sv : EightPuzzleSolver) : SState :=
  { openSet := [(sv.initialState.heuristic, 0, sv.initialState)]
    counter := 1
    visited := [sv.initialState.tiles]
    nodesExpanded := 0
    pushLog := [(sv.initialState.heuristic, 0)] }

/-- Method `EightPuzzleSolver.solve` (lines 110-152), fuel-indexed: the early
return on `initial_state.is_goal()` and otherwise the search loop. -/
def solve (fuel : Nat) (sv : EightPuzzleSolver) :
    Option (SResult × SState) :=
  if sv.initialState.isGoal then
    some ((true, [sv.initialState], 0), solveInit sv)
  else
    solveLoop fuel (solveInit sv)

/-- Just the `(success, edge count of path, nodes_expanded)` summary of
a terminating run. -/
def solveSummary (fuel : Nat) (sv : EightPuzzleSolver) :
    Option (Bool × Nat × Nat) :=
  (solve fuel sv).map (fun r => (r.1.1, r.1.2.1.length - 1, r.1.2.2))

end Week3


namespace Robopath

/-- One legal move of the grid search, as `astar` effectively uses it:
a generated neighbour that is not in the blocked set. -/
def GridStep (width height : Int) (blocked : List Point) (a b : Point) : Prop :=
  b ∈ neighbors a width height ∧ b ∉ blocked

/-- Decidability of a single grid step. -/
instance instDecidableGridStep (width height : Int) (blocked : List Point)
    (a b : Point) : Decidable (GridStep width height blocked a b) :=
  inferInstanceAs (Decidable (b ∈ neighbors a width height ∧ b ∉ blocked))

/-- A chain of grid moves through the given cells: each cell of the
list is one `GridStep` from the one before it. -/
def GridChain (width height : Int) (blocked : List Point) :
    Point → List Point → Prop
  | _, [] => True
  | a, b :: rest =>
      GridStep width height blocked a b ∧ GridChain width height blocked b rest

/-- Decidability of `GridChain`, by structural recursion. -/
instance instDecidableGridChain (width height : Int) (blocked : List Point) :
    (a : Point) → (l : List Point) → Decidable (GridChain width height blocked a l)
  | _, [] => .isTrue trivial
  | a, b :: rest =>
      haveI : Decidable (GridChain width height blocked b rest) :=
        instDecidableGridChain width height blocked b rest
      inferInstanceAs (Decidable (GridStep width height blocked a b ∧
        GridChain width height blocked b rest))

/-- Membership of a cell in the rectangle `[0,width) x [0,height)`. -/
def inBounds (width height : Int) (p : Point) : Prop :=
  0 <= p.1 ∧ p.1 < width ∧ 0 <= p.2 ∧ p.2 < height

/-- Decidability of `inBounds`. -/
instance instDecidableInBounds (width height : Int) (p : Point) :
    Decidable (inBounds width height p) :=
  inferInstanceAs (Decidable (0 <= p.1 ∧ p.1 < width ∧ 0 <= p.2 ∧ p.2 < height))

/-- No blocked cell anywhere in the search state: not as a g-score or
predecessor key, not in the push log, not on the frontier. -/
def BlockedFree (blocked : List Point) (st : AState) : Prop :=
  (∀ p ∈ st.gscore, p.1 ∉ blocked) ∧
  (∀ p ∈ st.cameFrom, p.1 ∉ blocked) ∧
  (∀ e ∈ st.pushLog, e.2.2 ∉ blocked) ∧
  (∀ e ∈ st.openHeap, e.2.2 ∉ blocked)

/-- Soundness of the predecessor table: an entry with no predecessor is
the start, and an entry with predecessor `q` is an unblocked generated
neighbour of `q`. -/
def CameFromOK (width height : Int) (blocked : List Point) (start : Point)
    (cf : List (Point × Option Point)) : Prop :=
  ∀ p ∈ cf, (p.2 = none → p.1 = start) ∧
    ∀ q, p.2 = some q → p.1 ∈ neighbors q width height ∧ p.1 ∉ blocked

/-- Sum of the recorded g-scores. -/
def gsum (st : AState) : Int :=
  (st.gscore.map (fun p => p.2)).sum

/-- The number of cells of the grid, as a natural number. -/
def cellCount (width height : Int) : Nat :=
  width.toNat * height.toNat

/-- Termination potential of a grid search state: the recorded g-scores
plus a large charge for every cell not yet scored.  Every heap push
strictly decreases it, and it is non-negative under the invariants. -/
def phi (width height : Int) (st : AState) : Int :=
  gsum st + ((cellCount width height : Int) + 1) *
    ((cellCount width height : Int) - st.gscore.length)

/-- Termination measure of the grid loop: potential plus frontier size. -/
def mu (width height : Int) (st : AState) : Int :=
  phi width height st + st.openHeap.length

/-- The loop invariants of `astar` needed for termination and absence of
`KeyError`: duplicate-free in-bounds g-score keys with values between 0
and the table size; every frontier cell scored; predecessor entries
linked to strictly smaller g-scores; and every scored cell present in
the predecessor table. -/
def GInv (width height : Int) (st : AState) : Prop :=
  (st.gscore.map Prod.fst).Nodup ∧
  (∀ p ∈ st.gscore, inBounds width height p.1) ∧
  (∀ p ∈ st.gscore, 0 ≤ p.2 ∧ p.2 ≤ (st.gscore.length : Int)) ∧
  (∀ e ∈ st.openHeap, (List.lookup e.2.2 st.gscore).isSome = true) ∧
  (∀ p ∈ st.cameFrom, ∀ q, p.2 = some q →
    ∃ vq vp, List.lookup q st.gscore = some vq ∧
      List.lookup p.1 st.gscore = some vp ∧ vq < vp) ∧
  (∀ k : Point, (List.lookup k st.gscore).isSome = true →
    (List.lookup k st.cameFrom).isSome = true)

/-- Projection: the second tuple components (the tie-break slots) of
every entry pushed on the heap during a terminating, non-raising run. -/
def astarPushSecond (fuel : Nat) (start goal : Point) (width height : Int)
    (blocked : List Point) : Option (List Int) :=
  match astar fuel start goal width height blocked with
  | some (.ok (_, st)) => some (st.pushLog.map (fun e => e.2.1))
  | _ => none

end Robopath

namespace Week3

/-- A state whose parent chain consists of `get_moves` steps rooted at
`init`: the state either is `init` itself (no parent), or is one of the
moves generated from its parent, which is in turn so rooted. -/
def goodChain (init : PuzzleState) : PuzzleState → Prop
  | .mk t m none d => PuzzleState.mk t m none d = init
  | .mk t m (some q) d =>
      PuzzleState.mk t m (some q) d ∈ q.getMoves ∧ goodChain init q

/-- Every frontier state has a well-formed parent chain. -/
def SChainInv (init : PuzzleState) (st : SState) : Prop :=
  ∀ e ∈ st.openSet, goodChain init e.2.2

/-- The loop invariants of `solve` needed for termination: the visited
tile lists are distinct, each is a permutation of the initial
arrangement, and so is the tile list of every frontier state. -/
def PInv (l : List Int) (st : SState) : Prop :=
  st.visited.Nodup ∧
  (∀ t ∈ st.visited, t.Perm l) ∧
  (∀ e ∈ st.openSet, e.2.2.tiles.Perm l)

/-- Termination measure of the puzzle loop: twice the number of not yet
visited permutations plus the frontier size. -/
def nuP (l : List Int) (st : SState) : Int :=
  2 * ((l.permutations.length : Int) - st.visited.length) + st.openSet.length

/-- The tile lists along a list of states. -/
def tilesPath (l : List PuzzleState) : List (List Int) :=
  l.map PuzzleState.tiles

/-- An 11-move solution of the instance `[1, 2, 3, 8, 6, 7, 4, 0, 5]`
(each list is one `get_moves` step from its predecessor). -/
def shorterSolution : List (List Int) :=
  [[1, 2, 3, 8, 0, 7, 4, 6, 5],
   [1, 2, 3, 8, 7, 0, 4, 6, 5],
   [1, 2, 3, 8, 7, 5, 4, 6, 0],
   [1, 2, 3, 8, 7, 5, 4, 0, 6],
   [1, 2, 3, 8, 0, 5, 4, 7, 6],
   [1, 2, 3, 0, 8, 5, 4, 7, 6],
   [1, 2, 3, 4, 8, 5, 0, 7, 6],
   [1, 2, 3, 4, 8, 5, 7, 0, 6],
   [1, 2, 3, 4, 0, 5, 7, 8, 6],
   [1, 2, 3, 4, 5, 0, 7, 8, 6],
   [1, 2, 3, 4, 5, 6, 7, 8, 0]]

/-- A chain of `get_moves` steps through the given tile lists: each
element of the list is a successor of the one before it. -/
def MoveChain : List Int → List (List Int) → Prop
  | _, [] => True
  | a, b :: rest => b ∈ succTiles a ∧ MoveChain b rest

/-- Decidability of `MoveChain`, by structural recursion. -/
instance instDecidableMoveChain :
    (a : List Int) → (l : List (List Int)) → Decidable (MoveChain a l)
  | _, [] => .isTrue trivial
  | a, b :: rest =>
      haveI : Decidable (MoveChain b rest) := instDecidableMoveChain b rest
      inferInstanceAs (Decidable (b ∈ succTiles a ∧ MoveChain b rest))

end Week3

namespace Week3

/-- Sort key for inversion counting: the blank counts as the largest tile. -/
def keyV (v : Int) : Int := if v = 0 then 9 else v

/-- Indicator of an inversion between an earlier element and a later one. -/
def invPair (x y : Int) : Nat := if keyV y < keyV x then 1 else 0

/-- Inversion count of a tile list under the blank-last key. -/
def inv9 : List Int → Nat
  | [] => 0
  | x :: rest => (rest.map (invPair x)).sum + inv9 rest

/-- The classical 8-puzzle solvability parity: inversion count plus the
blank's row and column, modulo 2. -/
def parity (t : List Int) : Nat :=
  (inv9 t + List.indexOf 0 t / 3 + List.indexOf 0 t % 3) % 2

end Week3

/-- **C2** (corrected, counterexample): on the instance
`[1, 2, 3, 4, 5, 6, 7, 0, 8]` the solver does not report
`nodes_expanded = 1`; the claimed summary `(true, 1 move, 1 expansion)`
is not the returned one. -/
theorem C2_counterexample :
    ¬ ((Week3.mkSolver [1, 2, 3, 4, 5, 6, 7, 0, 8]).map
        (fun sv => Week3.solveSummary 10 sv) = some (some (true, 1, 1))) := by
  decide

/-- **C2** (amended): on `[1, 2, 3, 4, 5, 6, 7, 0, 8]` the solver
returns `found = true` with the one-move path that swaps the blank with
tile 8, and reports `nodes_expanded = 2` — the pop of the initial state
and the pop of the goal state are both counted, because `solve`
increments `nodes_expanded` on every pop before testing the goal. -/
theorem C2_one_move_two_expansions :
    (Week3.mkSolver [1, 2, 3, 4, 5, 6, 7, 0, 8]).map
        (fun sv => (Week3.solve 10 sv).map
          (fun r => (r.1.1, Week3.tilesPath r.1.2.1, r.1.2.2))) =
      some (some (true, [[1, 2, 3, 4, 5, 6, 7, 0, 8],
        [1, 2, 3, 4, 5, 6, 7, 8, 0]], 2)) := by
  decide

/-- **C3** (corrected, counterexample): in the grid instantiation the
second tuple component of a pushed frontier entry is not a strictly
increasing counter: searching the unblocked 2×2 grid from `(0,0)` to
`(1,1)` pushes four entries whose second components are `0, 1, 1, 2` —
the two successors of the start are pushed with the same tie-break key. -/
theorem C3_counterexample :
    Robopath.astarPushSecond 10 (0, 0) (1, 1) 2 2 [] = some [0, 1, 1, 2] ∧
    ¬ List.Pairwise (· < ·) ([0, 1, 1, 2] : List Int) := by
  constructor <;> decide

/-- **C1** (code bug): the puzzle solver is not optimal.  On the
solvable instance `[1, 2, 3, 8, 6, 7, 4, 0, 5]` the returned path has
13 edges (14 states, 70 nodes expanded), yet an 11-move solution exists:
`shorterSolution` is a valid `get_moves` chain of length 11 from the
instance to the goal.  The cause is that `solve` adds successors to
`visited` when they are first generated rather than when they are
expanded, freezing a suboptimal route to a state that is later reached
more cheaply. -/
theorem C1_puzzle_solve_suboptimal :
    (Week3.mkSolver [1, 2, 3, 8, 6, 7, 4, 0, 5]).map
        (fun sv => Week3.solveSummary 100 sv) = some (some (true, 13, 70)) ∧
    Week3.MoveChain [1, 2, 3, 8, 6, 7, 4, 0, 5] Week3.shorterSolution ∧
    Week3.shorterSolution.length = 11 ∧
    Week3.shorterSolution.getLast? = some Week3.goalTiles := by
  refine ⟨by decide, by decide, by decide, by decide⟩

/-- Helper: the constructor's check `len(initial_tiles) == 9 and
sorted(initial_tiles) == list(range(9))` holds exactly for the
permutations of `0..8`. -/
theorem sortCheck_iff_perm (l : List Int) :
    (l.length = 9 ∧ List.insertionSort (· ≤ ·) l = [0, 1, 2, 3, 4, 5, 6, 7, 8]) ↔
      l.Perm [0, 1, 2, 3, 4, 5, 6, 7, 8] := by
  constructor
  · rintro ⟨-, hs⟩
    exact hs ▸ (List.perm_insertionSort _ l).symm
  · intro hp
    refine ⟨hp.length_eq.trans (by decide), ?_⟩
    refine List.eq_of_perm_of_sorted ((List.perm_insertionSort _ l).trans hp)
      (List.sorted_insertionSort _ l) ?_
    decide

/-- Helper: `mkSolver` succeeds exactly on permutations of `0..8`. -/
theorem mkSolver_isSome_iff (l : List Int) :
    (Week3.mkSolver l).isSome ↔ l.Perm [0, 1, 2, 3, 4, 5, 6, 7, 8] := by
  rw [Week3.mkSolver]
  by_cases h : (l.length = 9 ∧
      List.insertionSort (· ≤ ·) l = [0, 1, 2, 3, 4, 5, 6, 7, 8])
  · simp [h, (sortCheck_iff_perm l).mp h]
  · simp only [if_neg h, Option.isSome_none, Bool.false_eq_true, false_iff]
    exact fun hp => h ((sortCheck_iff_perm l).mpr hp)

/-- Helper: a successfully constructed solver holds exactly the initial
arrangement (with zero moves and no parent) and the goal arrangement. -/
theorem mkSolver_eq_some (l : List Int) (sv : Week3.EightPuzzleSolver)
    (hsv : Week3.mkSolver l = some sv) :
    sv.initialState = .mk l 0 none "" ∧
      sv.goalState = .mk Week3.goalTiles 0 none "" := by
  rw [Week3.mkSolver] at hsv
  by_cases h : (l.length = 9 ∧
      List.insertionSort (· ≤ ·) l = [0, 1, 2, 3, 4, 5, 6, 7, 8])
  · rw [if_pos h] at hsv
    cases hsv
    exact ⟨rfl, rfl⟩
  · rw [if_neg h] at hsv
    cases hsv

/-- **C9** (confirmed): constructing the puzzle solver succeeds exactly
when the input is a length-9 permutation of `0..8` (`none` models the
`ValueError` raised otherwise, surfaced before any search state exists),
and on success the solver holds the untouched initial arrangement and
the fixed goal arrangement — no search has run. -/
theorem C9_mkSolver_validates :
    ∀ l : List Int,
      ((Week3.mkSolver l).isSome ↔ l.Perm [0, 1, 2, 3, 4, 5, 6, 7, 8]) ∧
      ∀ sv, Week3.mkSolver l = some sv →
        sv.initialState = .mk l 0 none "" ∧
        sv.goalState = .mk Week3.goalTiles 0 none "" := by
  intro l
  exact ⟨mkSolver_isSome_iff l, fun sv h => mkSolver_eq_some l sv h⟩

/-- Witness for C9 at the concrete inputs `[1,2,3,4,5,6,7,0,8]` (a valid
permutation, accepted) and `[1,1,2,3,4,5,6,7,8]` (not a permutation,
rejected). -/
theorem C9_mkSolver_validates_witness :
    (Week3.mkSolver [1, 2, 3, 4, 5, 6, 7, 0, 8]).isSome ∧
      (Week3.mkSolver [1, 1, 2, 3, 4, 5, 6, 7, 8]).isSome = false ∧
      ∀ sv, Week3.mkSolver [1, 2, 3, 4, 5, 6, 7, 0, 8] = some sv →
        sv.initialState = .mk [1, 2, 3, 4, 5, 6, 7, 0, 8] 0 none "" := by
  refine ⟨(C9_mkSolver_validates [1, 2, 3, 4, 5, 6, 7, 0, 8]).1.mpr (by decide),
    ?_, fun sv h => ((C9_mkSolver_validates [1, 2, 3, 4, 5, 6, 7, 0, 8]).2 sv h).1⟩
  have h2 := (C9_mkSolver_validates [1, 1, 2, 3, 4, 5, 6, 7, 8]).1
  by_cases hb : (Week3.mkSolver [1, 1, 2, 3, 4, 5, 6, 7, 8]).isSome
  · exact absurd (h2.mp hb) (by decide)
  · simpa using hb

/-- **C4** (confirmed): searching with start equal to goal.  Grid: for
every cell `s`, any bounds, any blocked set and any positive fuel,
`astar` pops `s` once, immediately passes the goal test, and returns the
singleton path `[s]`; its final state records zero expanded states (no
successor list was ever generated).  Puzzle: on a solver whose initial
arrangement is the goal arrangement, `solve` returns
`(True, [initial_state], 0)` through its early-return branch, with zero
nodes expanded. -/
theorem C4_start_equals_goal :
    (∀ (s : Robopath.Point) (width height : Int)
        (blocked : List Robopath.Point) (fuel : Nat), 0 < fuel →
      Robopath.astar fuel s s width height blocked =
        some (.ok (some [s],
          { openHeap := [], cameFrom := [(s, none)], gscore := [(s, 0)],
            pushLog := [(0, 0, s)], expanded := 0 }))) ∧
    (∀ (sv : Week3.EightPuzzleSolver) (fuel : Nat),
      Week3.mkSolver Week3.goalTiles = some sv →
      Week3.solve fuel sv = some ((true, [sv.initialState], 0),
        Week3.solveInit sv)) := by
  constructor
  · intro s width height blocked fuel hf
    obtain ⟨n, rfl⟩ : ∃ n, fuel = n + 1 := ⟨fuel - 1, by omega⟩
    have hm : Robopath.manhattan s s = 0 := by
      simp [Robopath.manhattan]
    simp [Robopath.astar, Robopath.astarLoop, Robopath.astarInit, hm,
      Robopath.popMin, Robopath.minEntry, Robopath.removeEntry,
      Robopath.reconstruct, List.lookup]
  · intro sv fuel hsv
    have h9 := mkSolver_eq_some Week3.goalTiles sv hsv
    have hg : sv.initialState.isGoal = true := by
      rw [h9.1]; decide
    unfold Week3.solve
    rw [if_pos hg]

/-- Witness for C4: the 1×1 grid with its only cell as start and goal,
and the solver built from the goal arrangement itself. -/
theorem C4_start_equals_goal_witness :
    Robopath.astar 1 (0, 0) (0, 0) 1 1 [] =
      some (.ok (some [(0, 0)],
        { openHeap := [], cameFrom := [((0, 0), none)],
          gscore := [((0, 0), 0)], pushLog := [(0, 0, (0, 0))],
          expanded := 0 })) ∧
    Week3.solve 5 { initialState := .mk Week3.goalTiles 0 none ""
                    goalState := .mk Week3.goalTiles 0 none "" } =
      some ((true, [Week3.PuzzleState.mk Week3.goalTiles 0 none ""], 0),
        Week3.solveInit { initialState := .mk Week3.goalTiles 0 none ""
                          goalState := .mk Week3.goalTiles 0 none "" }) := by
  exact ⟨C4_start_equals_goal.1 (0, 0) 1 1 [] 1 (by decide),
    C4_start_equals_goal.2 _ 5 rfl⟩

/-- Helper: the puzzle enqueue loop keeps every logged counter below the
current counter and the logged counters strictly increasing. -/
theorem enqueueMoves_counterInv (l : List Week3.PuzzleState) :
    ∀ st : Week3.SState,
      (∀ e ∈ st.pushLog, e.2 < st.counter) →
      st.pushLog.Pairwise (fun a b => a.2 < b.2) →
      (∀ e ∈ (Week3.enqueueMoves l st).pushLog,
          e.2 < (Week3.enqueueMoves l st).counter) ∧
        (Week3.enqueueMoves l st).pushLog.Pairwise (fun a b => a.2 < b.2) := by
  induction l with
  | nil => intro st h1 h2; exact ⟨h1, h2⟩
  | cons nxt rest ih =>
      intro st h1 h2
      rw [Week3.enqueueMoves]
      by_cases hv : nxt.tiles ∈ st.visited
      · rw [if_pos hv]
        exact ih st h1 h2
      · rw [if_neg hv]
        apply ih
        · intro e he
          rcases List.mem_append.mp he with hold | hnew
          · exact Nat.lt_succ_of_lt (h1 e hold)
          · rcases List.mem_singleton.mp hnew with rfl
            exact Nat.lt_succ_self _
        · rw [List.pairwise_append]
          refine ⟨h2, List.pairwise_singleton _ _, ?_⟩
          intro a ha b hb
          rcases List.mem_singleton.mp hb with rfl
          exact h1 a ha

/-- Helper: a terminating puzzle search loop keeps the logged counters
strictly increasing. -/
theorem solveLoop_counterInv (fuel : Nat) :
    ∀ (st : Week3.SState) r st',
      Week3.solveLoop fuel st = some (r, st') →
      (∀ e ∈ st.pushLog, e.2 < st.counter) →
      st.pushLog.Pairwise (fun a b => a.2 < b.2) →
      st'.pushLog.Pairwise (fun a b => a.2 < b.2) := by
  induction fuel with
  | zero => intro st r st' h; exact absurd h (by simp [Week3.solveLoop])
  | succ n ih =>
      intro st r st' h h1 h2
      rw [Week3.solveLoop] at h
      cases hp : Week3.popMinS st.openSet with
      | none =>
          rw [hp] at h
          cases h
          exact h2
      | some e =>
          rw [hp] at h
          dsimp only at h
          by_cases hg : e.1.2.2.isGoal
          · rw [if_pos hg] at h
            cases h
            exact h2
          · rw [if_neg hg] at h
            have hinv := enqueueMoves_counterInv e.1.2.2.getMoves
              { st with openSet := e.2,
                        nodesExpanded := st.nodesExpanded + 1 } h1 h2
            exact ih _ r st' h hinv.1 hinv.2

/-- Helper: the grid relaxation loop only pushes entries whose first
component is the second component (its g-score) plus the heuristic. -/
theorem relaxNbrs_logInv (goal : Robopath.Point) (blocked : List Robopath.Point)
    (current : Robopath.Point) (l : List Robopath.Point) :
    ∀ st st', Robopath.relaxNbrs goal blocked current l st = .ok st' →
      (∀ e ∈ st.pushLog, e.1 = e.2.1 + Robopath.manhattan e.2.2 goal) →
      ∀ e ∈ st'.pushLog, e.1 = e.2.1 + Robopath.manhattan e.2.2 goal := by
  induction l with
  | nil =>
      intro st st' h hlog
      rw [Robopath.relaxNbrs] at h
      cases h
      exact hlog
  | cons nbr rest ih =>
      intro st st' h hlog
      rw [Robopath.relaxNbrs] at h
      by_cases hb : nbr ∈ blocked
      · rw [if_pos hb] at h
        exact ih st st' h hlog
      · rw [if_neg hb] at h
        cases hcur : st.gscore.lookup current with
        | none => rw [hcur] at h; cases h
        | some gcur =>
            rw [hcur] at h
            dsimp only at h
            by_cases himp : (match st.gscore.lookup nbr with
              | none => true
              | some gn => decide (gcur + 1 < gn)) = true
            · rw [if_pos himp] at h
              refine ih _ st' h ?_
              intro e he
              rcases List.mem_append.mp he with hold | hnew
              · exact hlog e hold
              · rcases List.mem_singleton.mp hnew with rfl
                rfl
            · rw [if_neg himp] at h
              exact ih st st' h hlog

/-- Helper: a terminating, non-raising grid search loop only ever logs
entries whose first component is its second plus the heuristic. -/
theorem astarLoop_logInv (goal : Robopath.Point) (width height : Int)
    (blocked : List Robopath.Point) (fuel : Nat) :
    ∀ st r st',
      Robopath.astarLoop goal width height blocked fuel st =
        some (.ok (r, st')) →
      (∀ e ∈ st.pushLog, e.1 = e.2.1 + Robopath.manhattan e.2.2 goal) →
      ∀ e ∈ st'.pushLog, e.1 = e.2.1 + Robopath.manhattan e.2.2 goal := by
  induction fuel with
  | zero =>
      intro st r st' h
      exact absurd h (by simp [Robopath.astarLoop])
  | succ n ih =>
      intro st r st' h hlog
      rw [Robopath.astarLoop] at h
      cases hp : Robopath.popMin st.openHeap with
      | none =>
          rw [hp] at h
          cases h
          exact hlog
      | some e =>
          rw [hp] at h
          dsimp only at h
          by_cases hg : e.1.2.2 = goal
          · rw [if_pos hg] at h
            cases hr : Robopath.reconstruct
                (({ st with openHeap := e.2 } : Robopath.AState).gscore.length + 1)
                ({ st with openHeap := e.2 } : Robopath.AState).cameFrom e.1.2.2 with
            | none => rw [hr] at h; cases h
            | some path =>
                rw [hr] at h
                cases h
                exact hlog
          · rw [if_neg hg] at h
            cases hrel : Robopath.relaxNbrs goal blocked e.1.2.2
                (Robopath.neighbors e.1.2.2 width height)
                { st with openHeap := e.2, expanded := st.expanded + 1 } with
            | error err => rw [hrel] at h; cases h
            | ok st2 =>
                rw [hrel] at h
                refine ih st2 r st' h ?_
                exact relaxNbrs_logInv goal blocked e.1.2.2 _ _ st2 hrel hlog

/-- **C3** (amended): the tie-break keys of the two instantiations
differ.  Puzzle: in any terminating `solve` run the second tuple
components of the pushed entries are, in push order, strictly
increasing — a monotonic insertion counter.  Grid: the second tuple
component of every pushed entry is the entry's tentative g-score (its
priority is exactly that g-score plus the heuristic), not an insertion
counter, and by `C3_counterexample` it is not strictly increasing. -/
theorem C3_tiebreak_keys :
    (∀ (sv : Week3.EightPuzzleSolver) (fuel : Nat) r st,
      Week3.solve fuel sv = some (r, st) →
      st.pushLog.Pairwise (fun a b => a.2 < b.2)) ∧
    (∀ (fuel : Nat) (start goal : Robopath.Point) (width height : Int)
        (blocked : List Robopath.Point) r st,
      Robopath.astar fuel start goal width height blocked =
        some (.ok (r, st)) →
      ∀ e ∈ st.pushLog, e.1 = e.2.1 + Robopath.manhattan e.2.2 goal) := by
  constructor
  · intro sv fuel r st h
    rw [Week3.solve] at h
    by_cases hg : sv.initialState.isGoal
    · rw [if_pos hg] at h
      cases h
      exact List.pairwise_singleton _ _
    · rw [if_neg hg] at h
      refine solveLoop_counterInv fuel _ r st h ?_ ?_
      · intro e he
        rcases List.mem_singleton.mp he with rfl
        exact Nat.one_pos
      · exact List.pairwise_singleton _ _
  · intro fuel start goal width height blocked r st h
    refine astarLoop_logInv goal width height blocked fuel _ r st h ?_
    intro e he
    rcases List.mem_singleton.mp he with rfl
    exact (zero_add _).symm

/-- Witness for C3 at concrete runs: the initial frontier state of the
goal-arrangement solver has a strictly increasing counter log, and the
logged entry of the 1×1 grid run satisfies the g-score equation. -/
theorem C3_tiebreak_keys_witness :
    (Week3.solveInit { initialState := .mk Week3.goalTiles 0 none ""
                       goalState := .mk Week3.goalTiles 0 none "" }).pushLog.Pairwise
        (fun a b => a.2 < b.2) ∧
    (0 : Int) = 0 + Robopath.manhattan (0, 0) (0, 0) :=
  ⟨C3_tiebreak_keys.1
     { initialState := .mk Week3.goalTiles 0 none ""
       goalState := .mk Week3.goalTiles 0 none "" } 5 _ _ rfl,
   C3_tiebreak_keys.2 1 (0, 0) (0, 0) 1 1 [] _ _ rfl (0, 0, (0, 0))
     (List.mem_singleton.mpr rfl)⟩

/-- Helper: membership in a conditionally-present singleton. -/
theorem mem_if_singleton {α : Type} (c : Prop) [Decidable c] (u b : α) :
    (b ∈ if c then [u] else []) ↔ c ∧ b = u := by
  split_ifs with h <;> simp [h]

/-- Helper: the grid heuristic is non-negative. -/
theorem manhattan_nonneg (a b : Robopath.Point) : 0 ≤ Robopath.manhattan a b :=
  add_nonneg (abs_nonneg _) (abs_nonneg _)

/-- Helper: the grid heuristic vanishes on equal cells. -/
theorem manhattan_self (a : Robopath.Point) : Robopath.manhattan a a = 0 := by
  simp [Robopath.manhattan]

/-- Helper: triangle inequality for the grid heuristic. -/
theorem manhattan_triangle (a b c : Robopath.Point) :
    Robopath.manhattan a c ≤ Robopath.manhattan a b + Robopath.manhattan b c := by
  have h1 := abs_sub_le a.1 b.1 c.1
  have h2 := abs_sub_le a.2 b.2 c.2
  unfold Robopath.manhattan
  linarith

/-- Helper: a generated neighbour is at Manhattan distance exactly 1. -/
theorem manhattan_neighbor (a b : Robopath.Point) (width height : Int)
    (hb : b ∈ Robopath.neighbors a width height) : Robopath.manhattan a b = 1 := by
  rcases a with ⟨x, y⟩
  simp only [Robopath.neighbors, List.mem_append, mem_if_singleton] at hb
  rcases hb with ((⟨-, rfl⟩ | ⟨-, rfl⟩) | ⟨-, rfl⟩) | ⟨-, rfl⟩ <;>
    simp [Robopath.manhattan, sub_sub_cancel, sub_add_cancel_left]

/-- Helper: along any chain of grid moves ending at `goal`, the
Manhattan heuristic at the chain's head is at most the edge count. -/
theorem manhattan_le_chain (width height : Int) (blocked : List Robopath.Point) :
    ∀ (l : List Robopath.Point) (s goal : Robopath.Point),
      Robopath.GridChain width height blocked s l →
      (s :: l).getLast? = some goal →
      Robopath.manhattan s goal ≤ l.length := by
  intro l
  induction l with
  | nil =>
      intro s goal _ hlast
      have : s = goal := by simpa using hlast
      subst this
      simp [manhattan_self]
  | cons b rest ih =>
      intro s goal hchain hlast
      obtain ⟨hstep, hrest⟩ := hchain
      have hlast' : (b :: rest).getLast? = some goal := by
        simpa [List.getLast?_cons_cons] using hlast
      have hb := ih b goal hrest hlast'
      have h1 := manhattan_neighbor s b width height hstep.1
      have h2 := manhattan_triangle s b goal
      simp only [List.length_cons]
      push_cast
      linarith

/-- Helper: a list of length 9 is a 9-element literal. -/
theorem list_eq_nine {α : Type} (l : List α) (h : l.length = 9) :
    ∃ b0 b1 b2 b3 b4 b5 b6 b7 b8, l = [b0, b1, b2, b3, b4, b5, b6, b7, b8] := by
  rcases l with _ | ⟨b0, l⟩; · exact absurd h (by simp)
  rcases l with _ | ⟨b1, l⟩; · exact absurd h (by simp)
  rcases l with _ | ⟨b2, l⟩; · exact absurd h (by simp)
  rcases l with _ | ⟨b3, l⟩; · exact absurd h (by simp)
  rcases l with _ | ⟨b4, l⟩; · exact absurd h (by simp)
  rcases l with _ | ⟨b5, l⟩; · exact absurd h (by simp)
  rcases l with _ | ⟨b6, l⟩; · exact absurd h (by simp)
  rcases l with _ | ⟨b7, l⟩; · exact absurd h (by simp)
  rcases l with _ | ⟨b8, l⟩; · exact absurd h (by simp)
  rcases l with _ | ⟨b9, l⟩
  · exact ⟨b0, b1, b2, b3, b4, b5, b6, b7, b8, rfl⟩
  · exact absurd h (by simp)

/-- Helper: the element at the index of the first `0` is `0`. -/
theorem getD_indexOf_zero (l : List Int) (h : (0 : Int) ∈ l) :
    l.getD (List.indexOf 0 l) 0 = 0 := by
  induction l with
  | nil => cases h
  | cons a l ih =>
      by_cases ha : a = 0
      · subst ha
        simp
      · rcases List.mem_cons.mp h with h' | h'
        · exact absurd h'.symm ha
        · have hne : a ≠ (0 : Int) := ha
          simp only [List.indexOf_cons_ne _ hne, List.getD_cons_succ]
          exact ih h'

/-- Helper: the puzzle heuristic on an explicit 9-element list is the
sum of the nine per-position terms. -/
theorem heuristicT_explicit (b0 b1 b2 b3 b4 b5 b6 b7 b8 : Int) :
    Week3.heuristicT [b0, b1, b2, b3, b4, b5, b6, b7, b8] =
      0 + Week3.tileTerm b0 0 + Week3.tileTerm b1 1 + Week3.tileTerm b2 2 +
      Week3.tileTerm b3 3 + Week3.tileTerm b4 4 + Week3.tileTerm b5 5 +
      Week3.tileTerm b6 6 + Week3.tileTerm b7 7 + Week3.tileTerm b8 8 := rfl

/-- Helper: the blank contributes nothing to the heuristic. -/
theorem tileTerm_zero (i : Nat) : Week3.tileTerm 0 i = 0 := by
  simp [Week3.tileTerm]

/-- Helper: triangle inequality for the board-position distance. -/
theorem posDist_triangle (i j k : Nat) :
    Week3.posDist i k ≤ Week3.posDist i j + Week3.posDist j k := by
  have h1 := abs_sub_le ((i : Int) / 3) ((j : Int) / 3) ((k : Int) / 3)
  have h2 := abs_sub_le ((i : Int) % 3) ((j : Int) % 3) ((k : Int) % 3)
  unfold Week3.posDist
  linarith

/-- Helper: moving a tile across two positions at distance 1 changes its
heuristic term by at most 1. -/
theorem tileTerm_le_succ (v : Int) (i j : Nat) (h : Week3.posDist i j = 1) :
    Week3.tileTerm v i ≤ Week3.tileTerm v j + 1 := by
  unfold Week3.tileTerm
  by_cases hv : v ≠ 0
  · rw [if_pos hv, if_pos hv]
    have ht := posDist_triangle i j (Week3.goalTiles.indexOf v)
    rw [h] at ht
    linarith
  · rw [if_neg hv, if_neg hv]
    norm_num

/-- Helper: swapping two entries three positions apart is a permutation. -/
theorem perm_swap_gap2 (x m1 m2 y : Int) (l : List Int) :
    List.Perm (x :: m1 :: m2 :: y :: l) (y :: m1 :: m2 :: x :: l) :=
  (List.Perm.swap m1 x (m2 :: y :: l)).trans
    ((List.Perm.cons m1 (List.Perm.swap m2 x (y :: l))).trans
      ((List.Perm.cons m1 (List.Perm.cons m2 (List.Perm.swap y x l))).trans
        ((List.Perm.cons m1 (List.Perm.swap y m2 (x :: l))).trans
          (List.Perm.swap y m1 (m2 :: x :: l)))))

/-- Helper: the successor tile lists when the blank is at position 0. -/
theorem succTiles_blank0 (b1 b2 b3 b4 b5 b6 b7 b8 : Int)
    (h : List.indexOf (0 : Int) [0, b1, b2, b3, b4, b5, b6, b7, b8] = 0) :
    Week3.succTiles [0, b1, b2, b3, b4, b5, b6, b7, b8] =
      [[b3, b1, b2, 0, b4, b5, b6, b7, b8], [b1, 0, b2, b3, b4, b5, b6, b7, b8]] := by
  simp only [Week3.succTiles, Week3.PuzzleState.getMoves, Week3.PuzzleState.tiles,
    Week3.PuzzleState.moves, h]
  rfl

/-- Helper: the successor tile lists when the blank is at position 1. -/
theorem succTiles_blank1 (b0 b2 b3 b4 b5 b6 b7 b8 : Int)
    (h : List.indexOf (0 : Int) [b0, 0, b2, b3, b4, b5, b6, b7, b8] = 1) :
    Week3.succTiles [b0, 0, b2, b3, b4, b5, b6, b7, b8] =
      [[b0, b4, b2, b3, 0, b5, b6, b7, b8], [0, b0, b2, b3, b4, b5, b6, b7, b8], [b0, b2, 0, b3, b4, b5, b6, b7, b8]] := by
  simp only [Week3.succTiles, Week3.PuzzleState.getMoves, Week3.PuzzleState.tiles,
    Week3.PuzzleState.moves, h]
  rfl

/-- Helper: the successor tile lists when the blank is at position 2. -/
theorem succTiles_blank2 (b0 b1 b3 b4 b5 b6 b7 b8 : Int)
    (h : List.indexOf (0 : Int) [b0, b1, 0, b3, b4, b5, b6, b7, b8] = 2) :
    Week3.succTiles [b0, b1, 0, b3, b4, b5, b6, b7, b8] =
      [[b0, b1, b5, b3, b4, 0, b6, b7, b8], [b0, 0, b1, b3, b4, b5, b6, b7, b8]] := by
  simp only [Week3.succTiles, Week3.PuzzleState.getMoves, Week3.PuzzleState.tiles,
    Week3.PuzzleState.moves, h]
  rfl

/-- Helper: the successor tile lists when the blank is at position 3. -/
theorem succTiles_blank3 (b0 b1 b2 b4 b5 b6 b7 b8 : Int)
    (h : List.indexOf (0 : Int) [b0, b1, b2, 0, b4, b5, b6, b7, b8] = 3) :
    Week3.succTiles [b0, b1, b2, 0, b4, b5, b6, b7, b8] =
      [[0, b1, b2, b0, b4, b5, b6, b7, b8], [b0, b1, b2, b6, b4, b5, 0, b7, b8], [b0, b1, b2, b4, 0, b5, b6, b7, b8]] := by
  simp only [Week3.succTiles, Week3.PuzzleState.getMoves, Week3.PuzzleState.tiles,
    Week3.PuzzleState.moves, h]
  rfl

/-- Helper: the successor tile lists when the blank is at position 4. -/
theorem succTiles_blank4 (b0 b1 b2 b3 b5 b6 b7 b8 : Int)
    (h : List.indexOf (0 : Int) [b0, b1, b2, b3, 0, b5, b6, b7, b8] = 4) :
    Week3.succTiles [b0, b1, b2, b3, 0, b5, b6, b7, b8] =
      [[b0, 0, b2, b3, b1, b5, b6, b7, b8], [b0, b1, b2, b3, b7, b5, b6, 0, b8], [b0, b1, b2, 0, b3, b5, b6, b7, b8], [b0, b1, b2, b3, b5, 0, b6, b7, b8]] := by
  simp only [Week3.succTiles, Week3.PuzzleState.getMoves, Week3.PuzzleState.tiles,
    Week3.PuzzleState.moves, h]
  rfl

/-- Helper: the successor tile lists when the blank is at position 5. -/
theorem succTiles_blank5 (b0 b1 b2 b3 b4 b6 b7 b8 : Int)
    (h : List.indexOf (0 : Int) [b0, b1, b2, b3, b4, 0, b6, b7, b8] = 5) :
    Week3.succTiles [b0, b1, b2, b3, b4, 0, b6, b7, b8] =
      [[b0, b1, 0, b3, b4, b2, b6, b7, b8], [b0, b1, b2, b3, b4, b8, b6, b7, 0], [b0, b1, b2, b3, 0, b4, b6, b7, b8]] := by
  simp only [Week3.succTiles, Week3.PuzzleState.getMoves, Week3.PuzzleState.tiles,
    Week3.PuzzleState.moves, h]
  rfl

/-- Helper: the successor tile lists when the blank is at position 6. -/
theorem succTiles_blank6 (b0 b1 b2 b3 b4 b5 b7 b8 : Int)
    (h : List.indexOf (0 : Int) [b0, b1, b2, b3, b4, b5, 0, b7, b8] = 6) :
    Week3.succTiles [b0, b1, b2, b3, b4, b5, 0, b7, b8] =
      [[b0, b1, b2, 0, b4, b5, b3, b7, b8], [b0, b1, b2, b3, b4, b5, b7, 0, b8]] := by
  simp only [Week3.succTiles, Week3.PuzzleState.getMoves, Week3.PuzzleState.tiles,
    Week3.PuzzleState.moves, h]
  rfl

/-- Helper: the successor tile lists when the blank is at position 7. -/
theorem succTiles_blank7 (b0 b1 b2 b3 b4 b5 b6 b8 : Int)
    (h : List.indexOf (0 : Int) [b0, b1, b2, b3, b4, b5, b6, 0, b8] = 7) :
    Week3.succTiles [b0, b1, b2, b3, b4, b5, b6, 0, b8] =
      [[b0, b1, b2, b3, 0, b5, b6, b4, b8], [b0, b1, b2, b3, b4, b5, 0, b6, b8], [b0, b1, b2, b3, b4, b5, b6, b8, 0]] := by
  simp only [Week3.succTiles, Week3.PuzzleState.getMoves, Week3.PuzzleState.tiles,
    Week3.PuzzleState.moves, h]
  rfl

/-- Helper: the successor tile lists when the blank is at position 8. -/
theorem succTiles_blank8 (b0 b1 b2 b3 b4 b5 b6 b7 : Int)
    (h : List.indexOf (0 : Int) [b0, b1, b2, b3, b4, b5, b6, b7, 0] = 8) :
    Week3.succTiles [b0, b1, b2, b3, b4, b5, b6, b7, 0] =
      [[b0, b1, b2, b3, b4, 0, b6, b7, b5], [b0, b1, b2, b3, b4, b5, b6, 0, b7]] := by
  simp only [Week3.succTiles, Week3.PuzzleState.getMoves, Week3.PuzzleState.tiles,
    Week3.PuzzleState.moves, h]
  rfl

/-- Helper: one `get_moves` step lowers the puzzle heuristic by at most
one, keeps the blank present, keeps length 9, and permutes the tiles. -/
theorem succTiles_spec (t tn : List Int) (h0 : (0 : Int) ∈ t)
    (hlen : t.length = 9) (hmem : tn ∈ Week3.succTiles t) :
    Week3.heuristicT t ≤ Week3.heuristicT tn + 1 ∧ (0 : Int) ∈ tn ∧
      tn.length = 9 ∧ tn.Perm t := by
  obtain ⟨b0, b1, b2, b3, b4, b5, b6, b7, b8, rfl⟩ := list_eq_nine _ hlen
  have hget := getD_indexOf_zero _ h0
  have hplt : List.indexOf (0 : Int) [b0, b1, b2, b3, b4, b5, b6, b7, b8] < 9 := by
    have hq := List.indexOf_lt_length.mpr h0
    simpa using hq
  have hcases : List.indexOf (0 : Int) [b0, b1, b2, b3, b4, b5, b6, b7, b8] = 0 ∨ List.indexOf (0 : Int) [b0, b1, b2, b3, b4, b5, b6, b7, b8] = 1 ∨ List.indexOf (0 : Int) [b0, b1, b2, b3, b4, b5, b6, b7, b8] = 2 ∨ List.indexOf (0 : Int) [b0, b1, b2, b3, b4, b5, b6, b7, b8] = 3 ∨ List.indexOf (0 : Int) [b0, b1, b2, b3, b4, b5, b6, b7, b8] = 4 ∨ List.indexOf (0 : Int) [b0, b1, b2, b3, b4, b5, b6, b7, b8] = 5 ∨ List.indexOf (0 : Int) [b0, b1, b2, b3, b4, b5, b6, b7, b8] = 6 ∨ List.indexOf (0 : Int) [b0, b1, b2, b3, b4, b5, b6, b7, b8] = 7 ∨ List.indexOf (0 : Int) [b0, b1, b2, b3, b4, b5, b6, b7, b8] = 8 := by omega
  rcases hcases with h | h | h | h | h | h | h | h | h
  · rw [h] at hget
    have hb : b0 = 0 := hget
    subst hb
    rw [succTiles_blank0 b1 b2 b3 b4 b5 b6 b7 b8 h] at hmem
    simp only [List.mem_cons, List.not_mem_nil, or_false] at hmem
    rcases hmem with rfl | rfl
    · refine ⟨?_, by simp, by simp, ?_⟩
      · rw [heuristicT_explicit, heuristicT_explicit]
        simp only [tileTerm_zero]
        linarith [tileTerm_le_succ b3 3 0 (by decide)]
      · exact perm_swap_gap2 b3 b1 b2 0 [b4, b5, b6, b7, b8]
    · refine ⟨?_, by simp, by simp, ?_⟩
      · rw [heuristicT_explicit, heuristicT_explicit]
        simp only [tileTerm_zero]
        linarith [tileTerm_le_succ b1 1 0 (by decide)]
      · exact List.Perm.swap 0 b1 [b2, b3, b4, b5, b6, b7, b8]
  · rw [h] at hget
    have hb : b1 = 0 := hget
    subst hb
    rw [succTiles_blank1 b0 b2 b3 b4 b5 b6 b7 b8 h] at hmem
    simp only [List.mem_cons, List.not_mem_nil, or_false] at hmem
    rcases hmem with rfl | rfl | rfl
    · refine ⟨?_, by simp, by simp, ?_⟩
      · rw [heuristicT_explicit, heuristicT_explicit]
        simp only [tileTerm_zero]
        linarith [tileTerm_le_succ b4 4 1 (by decide)]
      · exact List.Perm.cons b0 (perm_swap_gap2 b4 b2 b3 0 [b5, b6, b7, b8])
    · refine ⟨?_, by simp, by simp, ?_⟩
      · rw [heuristicT_explicit, heuristicT_explicit]
        simp only [tileTerm_zero]
        linarith [tileTerm_le_succ b0 0 1 (by decide)]
      · exact List.Perm.swap b0 0 [b2, b3, b4, b5, b6, b7, b8]
    · refine ⟨?_, by simp, by simp, ?_⟩
      · rw [heuristicT_explicit, heuristicT_explicit]
        simp only [tileTerm_zero]
        linarith [tileTerm_le_succ b2 2 1 (by decide)]
      · exact List.Perm.cons b0 (List.Perm.swap 0 b2 [b3, b4, b5, b6, b7, b8])
  · rw [h] at hget
    have hb : b2 = 0 := hget
    subst hb
    rw [succTiles_blank2 b0 b1 b3 b4 b5 b6 b7 b8 h] at hmem
    simp only [List.mem_cons, List.not_mem_nil, or_false] at hmem
    rcases hmem with rfl | rfl
    · refine ⟨?_, by simp, by simp, ?_⟩
      · rw [heuristicT_explicit, heuristicT_explicit]
        simp only [tileTerm_zero]
        linarith [tileTerm_le_succ b5 5 2 (by decide)]
      · exact List.Perm.cons b0 (List.Perm.cons b1 (perm_swap_gap2 b5 b3 b4 0 [b6, b7, b8]))
    · refine ⟨?_, by simp, by simp, ?_⟩
      · rw [heuristicT_explicit, heuristicT_explicit]
        simp only [tileTerm_zero]
        linarith [tileTerm_le_succ b1 1 2 (by decide)]
      · exact List.Perm.cons b0 (List.Perm.swap b1 0 [b3, b4, b5, b6, b7, b8])
  · rw [h] at hget
    have hb : b3 = 0 := hget
    subst hb
    rw [succTiles_blank3 b0 b1 b2 b4 b5 b6 b7 b8 h] at hmem
    simp only [List.mem_cons, List.not_mem_nil, or_false] at hmem
    rcases hmem with rfl | rfl | rfl
    · refine ⟨?_, by simp, by simp, ?_⟩
      · rw [heuristicT_explicit, heuristicT_explicit]
        simp only [tileTerm_zero]
        linarith [tileTerm_le_succ b0 0 3 (by decide)]
      · exact perm_swap_gap2 0 b1 b2 b0 [b4, b5, b6, b7, b8]
    · refine ⟨?_, by simp, by simp, ?_⟩
      · rw [heuristicT_explicit, heuristicT_explicit]
        simp only [tileTerm_zero]
        linarith [tileTerm_le_succ b6 6 3 (by decide)]
      · exact List.Perm.cons b0 (List.Perm.cons b1 (List.Perm.cons b2 (perm_swap_gap2 b6 b4 b5 0 [b7, b8])))
    · refine ⟨?_, by simp, by simp, ?_⟩
      · rw [heuristicT_explicit, heuristicT_explicit]
        simp only [tileTerm_zero]
        linarith [tileTerm_le_succ b4 4 3 (by decide)]
      · exact List.Perm.cons b0 (List.Perm.cons b1 (List.Perm.cons b2 (List.Perm.swap 0 b4 [b5, b6, b7, b8])))
  · rw [h] at hget
    have hb : b4 = 0 := hget
    subst hb
    rw [succTiles_blank4 b0 b1 b2 b3 b5 b6 b7 b8 h] at hmem
    simp only [List.mem_cons, List.not_mem_nil, or_false] at hmem
    rcases hmem with rfl | rfl | rfl | rfl
    · refine ⟨?_, by simp, by simp, ?_⟩
      · rw [heuristicT_explicit, heuristicT_explicit]
        simp only [tileTerm_zero]
        linarith [tileTerm_le_succ b1 1 4 (by decide)]
      · exact List.Perm.cons b0 (perm_swap_gap2 0 b2 b3 b1 [b5, b6, b7, b8])
    · refine ⟨?_, by simp, by simp, ?_⟩
      · rw [heuristicT_explicit, heuristicT_explicit]
        simp only [tileTerm_zero]
        linarith [tileTerm_le_succ b7 7 4 (by decide)]
      · exact List.Perm.cons b0 (List.Perm.cons b1 (List.Perm.cons b2 (List.Perm.cons b3 (perm_swap_gap2 b7 b5 b6 0 [b8]))))
    · refine ⟨?_, by simp, by simp, ?_⟩
      · rw [heuristicT_explicit, heuristicT_explicit]
        simp only [tileTerm_zero]
        linarith [tileTerm_le_succ b3 3 4 (by decide)]
      · exact List.Perm.cons b0 (List.Perm.cons b1 (List.Perm.cons b2 (List.Perm.swap b3 0 [b5, b6, b7, b8])))
    · refine ⟨?_, by simp, by simp, ?_⟩
      · rw [heuristicT_explicit, heuristicT_explicit]
        simp only [tileTerm_zero]
        linarith [tileTerm_le_succ b5 5 4 (by decide)]
      · exact List.Perm.cons b0 (List.Perm.cons b1 (List.Perm.cons b2 (List.Perm.cons b3 (List.Perm.swap 0 b5 [b6, b7, b8]))))
  · rw [h] at hget
    have hb : b5 = 0 := hget
    subst hb
    rw [succTiles_blank5 b0 b1 b2 b3 b4 b6 b7 b8 h] at hmem
    simp only [List.mem_cons, List.not_mem_nil, or_false] at hmem
    rcases hmem with rfl | rfl | rfl
    · refine ⟨?_, by simp, by simp, ?_⟩
      · rw [heuristicT_explicit, heuristicT_explicit]
        simp only [tileTerm_zero]
        linarith [tileTerm_le_succ b2 2 5 (by decide)]
      · exact List.Perm.cons b0 (List.Perm.cons b1 (perm_swap_gap2 0 b3 b4 b2 [b6, b7, b8]))
    · refine ⟨?_, by simp, by simp, ?_⟩
      · rw [heuristicT_explicit, heuristicT_explicit]
        simp only [tileTerm_zero]
        linarith [tileTerm_le_succ b8 8 5 (by decide)]
      · exact List.Perm.cons b0 (List.Perm.cons b1 (List.Perm.cons b2 (List.Perm.cons b3 (List.Perm.cons b4 (perm_swap_gap2 b8 b6 b7 0 [])))))
    · refine ⟨?_, by simp, by simp, ?_⟩
      · rw [heuristicT_explicit, heuristicT_explicit]
        simp only [tileTerm_zero]
        linarith [tileTerm_le_succ b4 4 5 (by decide)]
      · exact List.Perm.cons b0 (List.Perm.cons b1 (List.Perm.cons b2 (List.Perm.cons b3 (List.Perm.swap b4 0 [b6, b7, b8]))))
  · rw [h] at hget
    have hb : b6 = 0 := hget
    subst hb
    rw [succTiles_blank6 b0 b1 b2 b3 b4 b5 b7 b8 h] at hmem
    simp only [List.mem_cons, List.not_mem_nil, or_false] at hmem
    rcases hmem with rfl | rfl
    · refine ⟨?_, by simp, by simp, ?_⟩
      · rw [heuristicT_explicit, heuristicT_explicit]
        simp only [tileTerm_zero]
        linarith [tileTerm_le_succ b3 3 6 (by decide)]
      · exact List.Perm.cons b0 (List.Perm.cons b1 (List.Perm.cons b2 (perm_swap_gap2 0 b4 b5 b3 [b7, b8])))
    · refine ⟨?_, by simp, by simp, ?_⟩
      · rw [heuristicT_explicit, heuristicT_explicit]
        simp only [tileTerm_zero]
        linarith [tileTerm_le_succ b7 7 6 (by decide)]
      · exact List.Perm.cons b0 (List.Perm.cons b1 (List.Perm.cons b2 (List.Perm.cons b3 (List.Perm.cons b4 (List.Perm.cons b5 (List.Perm.swap 0 b7 [b8]))))))
  · rw [h] at hget
    have hb : b7 = 0 := hget
    subst hb
    rw [succTiles_blank7 b0 b1 b2 b3 b4 b5 b6 b8 h] at hmem
    simp only [List.mem_cons, List.not_mem_nil, or_false] at hmem
    rcases hmem with rfl | rfl | rfl
    · refine ⟨?_, by simp, by simp, ?_⟩
      · rw [heuristicT_explicit, heuristicT_explicit]
        simp only [tileTerm_zero]
        linarith [tileTerm_le_succ b4 4 7 (by decide)]
      · exact List.Perm.cons b0 (List.Perm.cons b1 (List.Perm.cons b2 (List.Perm.cons b3 (perm_swap_gap2 0 b5 b6 b4 [b8]))))
    · refine ⟨?_, by simp, by simp, ?_⟩
      · rw [heuristicT_explicit, heuristicT_explicit]
        simp only [tileTerm_zero]
        linarith [tileTerm_le_succ b6 6 7 (by decide)]
      · exact List.Perm.cons b0 (List.Perm.cons b1 (List.Perm.cons b2 (List.Perm.cons b3 (List.Perm.cons b4 (List.Perm.cons b5 (List.Perm.swap b6 0 [b8]))))))
    · refine ⟨?_, by simp, by simp, ?_⟩
      · rw [heuristicT_explicit, heuristicT_explicit]
        simp only [tileTerm_zero]
        linarith [tileTerm_le_succ b8 8 7 (by decide)]
      · exact List.Perm.cons b0 (List.Perm.cons b1 (List.Perm.cons b2 (List.Perm.cons b3 (List.Perm.cons b4 (List.Perm.cons b5 (List.Perm.cons b6 (List.Perm.swap 0 b8 [])))))))
  · rw [h] at hget
    have hb : b8 = 0 := hget
    subst hb
    rw [succTiles_blank8 b0 b1 b2 b3 b4 b5 b6 b7 h] at hmem
    simp only [List.mem_cons, List.not_mem_nil, or_false] at hmem
    rcases hmem with rfl | rfl
    · refine ⟨?_, by simp, by simp, ?_⟩
      · rw [heuristicT_explicit, heuristicT_explicit]
        simp only [tileTerm_zero]
        linarith [tileTerm_le_succ b5 5 8 (by decide)]
      · exact List.Perm.cons b0 (List.Perm.cons b1 (List.Perm.cons b2 (List.Perm.cons b3 (List.Perm.cons b4 (perm_swap_gap2 0 b6 b7 b5 [])))))
    · refine ⟨?_, by simp, by simp, ?_⟩
      · rw [heuristicT_explicit, heuristicT_explicit]
        simp only [tileTerm_zero]
        linarith [tileTerm_le_succ b7 7 8 (by decide)]
      · exact List.Perm.cons b0 (List.Perm.cons b1 (List.Perm.cons b2 (List.Perm.cons b3 (List.Perm.cons b4 (List.Perm.cons b5 (List.Perm.cons b6 (List.Perm.swap b7 0 [])))))))

/-- Helper: the board-position distance is non-negative. -/
theorem posDist_nonneg (i gp : Nat) : 0 ≤ Week3.posDist i gp :=
  add_nonneg (abs_nonneg _) (abs_nonneg _)

/-- Helper: each heuristic term is non-negative. -/
theorem tileTerm_nonneg (v : Int) (i : Nat) : 0 ≤ Week3.tileTerm v i := by
  unfold Week3.tileTerm
  split_ifs
  · exact posDist_nonneg _ _
  · exact le_refl 0

/-- Helper: every partial heuristic sum is non-negative. -/
theorem heurAux_nonneg (t : List Int) : ∀ n : Nat, 0 ≤ Week3.heurAux t n
  | 0 => le_refl 0
  | n + 1 => add_nonneg (heurAux_nonneg t n) (tileTerm_nonneg _ _)

/-- Helper: the puzzle heuristic is non-negative. -/
theorem heuristicT_nonneg (t : List Int) : 0 ≤ Week3.heuristicT t :=
  heurAux_nonneg t 9

/-- Helper: along any chain of `get_moves` steps from a 9-tile
arrangement containing the blank to the goal arrangement, the heuristic
at the head is at most the edge count. -/
theorem heuristicT_le_chain :
    ∀ (l : List (List Int)) (t : List Int), (0 : Int) ∈ t → t.length = 9 →
      Week3.MoveChain t l → (t :: l).getLast? = some Week3.goalTiles →
      Week3.heuristicT t ≤ l.length := by
  intro l
  induction l with
  | nil =>
      intro t _ _ _ hlast
      have ht : t = Week3.goalTiles := by simpa using hlast
      subst ht
      simp [show Week3.heuristicT Week3.goalTiles = 0 from rfl]
  | cons b rest ih =>
      intro t h0 hlen hchain hlast
      obtain ⟨hb, hrest⟩ := hchain
      obtain ⟨hstep, h0b, hlenb, -⟩ := succTiles_spec t b h0 hlen hb
      have hlast' : (b :: rest).getLast? = some Week3.goalTiles := by
        simpa [List.getLast?_cons_cons] using hlast
      have hih := ih b h0b hlenb hrest hlast'
      simp only [List.length_cons]
      push_cast
      push_cast at hih
      linarith

/-- **C5** (confirmed): heuristic contract.  Grid: `manhattan` is
non-negative, vanishes on equal cells, and along every chain of legal
grid moves from `s` to the goal its value at `s` is at most the number
of moves, so it never exceeds the true remaining distance.  Puzzle: the
summed tile distance is non-negative, vanishes on the goal arrangement,
and along every `get_moves` chain from an arrangement (length 9,
containing the blank) to the goal it is at most the number of moves. -/
theorem C5_heuristic_admissible :
    (∀ a b : Robopath.Point, 0 ≤ Robopath.manhattan a b) ∧
    (∀ a : Robopath.Point, Robopath.manhattan a a = 0) ∧
    (∀ (width height : Int) (blocked : List Robopath.Point)
        (s goal : Robopath.Point) (l : List Robopath.Point),
      Robopath.GridChain width height blocked s l →
      (s :: l).getLast? = some goal →
      Robopath.manhattan s goal ≤ l.length) ∧
    (∀ t : List Int, 0 ≤ Week3.heuristicT t) ∧
    Week3.heuristicT Week3.goalTiles = 0 ∧
    (∀ (t : List Int) (l : List (List Int)), (0 : Int) ∈ t → t.length = 9 →
      Week3.MoveChain t l → (t :: l).getLast? = some Week3.goalTiles →
      Week3.heuristicT t ≤ l.length) :=
  ⟨manhattan_nonneg, manhattan_self,
   fun w h blocked s goal l hc hl => manhattan_le_chain w h blocked l s goal hc hl,
   heuristicT_nonneg, rfl,
   fun t l h0 hlen hc hl => heuristicT_le_chain l t h0 hlen hc hl⟩

/-- Witness for C5 on concrete chains: a 2-move grid chain from `(0,0)`
to `(1,1)` on the empty 2×2 grid, and the 1-move puzzle chain from
`[1,2,3,4,5,6,7,0,8]` to the goal. -/
theorem C5_heuristic_admissible_witness :
    Robopath.GridChain 2 2 [] (0, 0) [(0, 1), (1, 1)] ∧
    Robopath.manhattan (0, 0) (1, 1) ≤
      ([(0, 1), (1, 1)] : List Robopath.Point).length ∧
    Week3.MoveChain [1, 2, 3, 4, 5, 6, 7, 0, 8] [Week3.goalTiles] ∧
    Week3.heuristicT [1, 2, 3, 4, 5, 6, 7, 0, 8] ≤
      ([Week3.goalTiles] : List (List Int)).length :=
  ⟨by decide,
   C5_heuristic_admissible.2.2.1 2 2 [] (0, 0) (1, 1) [(0, 1), (1, 1)]
     (by decide) (by decide),
   by decide,
   C5_heuristic_admissible.2.2.2.2.2 [1, 2, 3, 4, 5, 6, 7, 0, 8]
     [Week3.goalTiles] (by decide) (by decide) (by decide) (by decide)⟩

/-- Helper: from an in-bounds cell, the generated neighbours are exactly
the in-bounds cells at Manhattan distance 1. -/
theorem mem_neighbors_iff (pt b : Robopath.Point) (width height : Int)
    (hp : Robopath.inBounds width height pt) :
    b ∈ Robopath.neighbors pt width height ↔
      Robopath.manhattan pt b = 1 ∧ Robopath.inBounds width height b := by
  obtain ⟨x, y⟩ := pt
  obtain ⟨u, v⟩ := b
  obtain ⟨hx0, hxw, hy0, hyh⟩ := hp
  constructor
  · intro hb
    refine ⟨manhattan_neighbor _ _ _ _ hb, ?_⟩
    simp only [Robopath.neighbors, List.mem_append, mem_if_singleton,
      Prod.mk.injEq] at hb
    rcases hb with ((⟨hc, rfl, rfl⟩ | ⟨hc, rfl, rfl⟩) | ⟨hc, rfl, rfl⟩) |
      ⟨hc, rfl, rfl⟩ <;>
      exact ⟨by omega, by omega, by omega, by omega⟩
  · rintro ⟨hman, hu0, huw, hv0, hvh⟩
    have habs : (x - u = 1 ∧ y = v) ∨ (x - u = -1 ∧ y = v) ∨
        (y - v = 1 ∧ x = u) ∨ (y - v = -1 ∧ x = u) := by
      unfold Robopath.manhattan at hman
      simp only at hman
      rcases abs_cases (x - u) with ⟨h1, h1'⟩ | ⟨h1, h1'⟩ <;>
        rcases abs_cases (y - v) with ⟨h2, h2'⟩ | ⟨h2, h2'⟩ <;> omega
    simp only [Robopath.neighbors, List.mem_append, mem_if_singleton,
      Prod.mk.injEq]
    rcases habs with ⟨h1, rfl⟩ | ⟨h1, rfl⟩ | ⟨h1, rfl⟩ | ⟨h1, rfl⟩
    · exact Or.inl (Or.inl (Or.inl ⟨by omega, by omega, rfl⟩))
    · exact Or.inl (Or.inl (Or.inr ⟨by omega, by omega, rfl⟩))
    · exact Or.inl (Or.inr ⟨by omega, rfl, by omega⟩)
    · exact Or.inr ⟨by omega, rfl, by omega⟩

/-- Helper: entries surviving a pop were already on the heap. -/
theorem removeEntry_subset (e : Robopath.Entry) :
    ∀ (l : List Robopath.Entry) (x : Robopath.Entry),
      x ∈ Robopath.removeEntry e l → x ∈ l := by
  intro l
  induction l with
  | nil => intro x hx; cases hx
  | cons f rest ih =>
      intro x hx
      rw [Robopath.removeEntry] at hx
      by_cases hf : f = e
      · rw [if_pos hf] at hx
        exact List.mem_cons_of_mem f hx
      · rw [if_neg hf] at hx
        rcases List.mem_cons.mp hx with rfl | hx'
        · exact List.mem_cons_self x rest
        · exact List.mem_cons_of_mem f (ih x hx')

/-- Helper: `heapq.heappop` returns an element and a subset of the heap. -/
theorem popMin_subset (l : List Robopath.Entry) (e : Robopath.Entry)
    (rest : List Robopath.Entry) (h : Robopath.popMin l = some (e, rest)) :
    ∀ x ∈ rest, x ∈ l := by
  cases l with
  | nil => cases h
  | cons f fs =>
      rw [Robopath.popMin] at h
      cases h
      intro x hx
      exact removeEntry_subset _ _ x hx

/-- Helper: relaxation never records, pushes or logs a blocked cell. -/
theorem relaxNbrs_blockedFree (goal : Robopath.Point)
    (blocked : List Robopath.Point) (current : Robopath.Point)
    (l : List Robopath.Point) :
    ∀ st st', Robopath.relaxNbrs goal blocked current l st = .ok st' →
      Robopath.BlockedFree blocked st → Robopath.BlockedFree blocked st' := by
  induction l with
  | nil =>
      intro st st' h hbf
      rw [Robopath.relaxNbrs] at h
      cases h
      exact hbf
  | cons nbr rest ih =>
      intro st st' h hbf
      rw [Robopath.relaxNbrs] at h
      by_cases hb : nbr ∈ blocked
      · rw [if_pos hb] at h
        exact ih st st' h hbf
      · rw [if_neg hb] at h
        cases hcur : st.gscore.lookup current with
        | none => rw [hcur] at h; cases h
        | some gcur =>
            rw [hcur] at h
            dsimp only at h
            obtain ⟨hg, hc, hl, hh⟩ := hbf
            by_cases himp : (match st.gscore.lookup nbr with
              | none => true
              | some gn => decide (gcur + 1 < gn)) = true
            · rw [if_pos himp] at h
              refine ih _ st' h ⟨?_, ?_, ?_, ?_⟩
              · intro p hp
                rcases List.mem_cons.mp hp with rfl | hp'
                · exact hb
                · exact hg p (List.mem_of_mem_filter hp')
              · intro p hp
                rcases List.mem_cons.mp hp with rfl | hp'
                · exact hb
                · exact hc p (List.mem_of_mem_filter hp')
              · intro e he
                rcases List.mem_append.mp he with he' | he'
                · exact hl e he'
                · rcases List.mem_singleton.mp he' with rfl
                  exact hb
              · intro e he
                rcases List.mem_cons.mp he with rfl | he'
                · exact hb
                · exact hh e he'
            · rw [if_neg himp] at h
              exact ih st st' h ⟨hg, hc, hl, hh⟩

/-- Helper: a terminating, non-raising search loop keeps the state free
of blocked cells. -/
theorem astarLoop_blockedFree (goal : Robopath.Point) (width height : Int)
    (blocked : List Robopath.Point) (fuel : Nat) :
    ∀ st r st',
      Robopath.astarLoop goal width height blocked fuel st =
        some (.ok (r, st')) →
      Robopath.BlockedFree blocked st → Robopath.BlockedFree blocked st' := by
  induction fuel with
  | zero =>
      intro st r st' h
      exact absurd h (by simp [Robopath.astarLoop])
  | succ n ih =>
      intro st r st' h hbf
      rw [Robopath.astarLoop] at h
      cases hp : Robopath.popMin st.openHeap with
      | none =>
          rw [hp] at h
          cases h
          exact hbf
      | some e =>
          rw [hp] at h
          dsimp only at h
          obtain ⟨hg, hc, hl, hh⟩ := hbf
          have hrest : ∀ x ∈ e.2, x ∈ st.openHeap :=
            popMin_subset st.openHeap e.1 e.2 (by rw [hp])
          have hbf1 : Robopath.BlockedFree blocked { st with openHeap := e.2 } :=
            ⟨hg, hc, hl, fun x hx => hh x (hrest x hx)⟩
          by_cases hgoal : e.1.2.2 = goal
          · rw [if_pos hgoal] at h
            cases hr : Robopath.reconstruct
                (({ st with openHeap := e.2 } : Robopath.AState).gscore.length + 1)
                ({ st with openHeap := e.2 } : Robopath.AState).cameFrom e.1.2.2 with
            | none => rw [hr] at h; cases h
            | some path =>
                rw [hr] at h
                cases h
                exact hbf1
          · rw [if_neg hgoal] at h
            cases hrel : Robopath.relaxNbrs goal blocked e.1.2.2
                (Robopath.neighbors e.1.2.2 width height)
                { st with openHeap := e.2, expanded := st.expanded + 1 } with
            | error err => rw [hrel] at h; cases h
            | ok st2 =>
                rw [hrel] at h
                refine ih st2 r st' h ?_
                refine relaxNbrs_blockedFree goal blocked e.1.2.2 _ _ st2 hrel
                  ⟨hg, hc, hl, fun x hx => hh x (hrest x hx)⟩

/-- **C8** (confirmed): for an in-bounds cell, the effective successor
set of `astar` — the generated neighbours not in the blocked set — is
exactly the set of in-bounds cells at Manhattan distance 1 that are not
blocked; and when the start itself is unblocked, a terminating
non-raising run never assigns a blocked cell a g-score, a predecessor, a
push-log record, or a frontier entry (`BlockedFree` covers the final
g-score table, predecessor table, the log of every entry ever pushed,
and the remaining frontier). -/
theorem C8_successors_exclude_blocked :
    (∀ (width height : Int) (blocked : List Robopath.Point)
        (pt b : Robopath.Point), Robopath.inBounds width height pt →
      (b ∈ Robopath.neighbors pt width height ∧ b ∉ blocked ↔
        Robopath.manhattan pt b = 1 ∧ Robopath.inBounds width height b ∧
          b ∉ blocked)) ∧
    (∀ (fuel : Nat) (start goal : Robopath.Point) (width height : Int)
        (blocked : List Robopath.Point) (r : Option (List Robopath.Point))
        (st : Robopath.AState),
      start ∉ blocked →
      Robopath.astar fuel start goal width height blocked =
        some (.ok (r, st)) →
      Robopath.BlockedFree blocked st) := by
  constructor
  · intro width height blocked pt b hp
    constructor
    · rintro ⟨hm, hnb⟩
      obtain ⟨h1, h2⟩ := (mem_neighbors_iff pt b width height hp).mp hm
      exact ⟨h1, h2, hnb⟩
    · rintro ⟨h1, h2, hnb⟩
      exact ⟨(mem_neighbors_iff pt b width height hp).mpr ⟨h1, h2⟩, hnb⟩
  · intro fuel start goal width height blocked r st hs hrun
    refine astarLoop_blockedFree goal width height blocked fuel _ r st hrun
      ⟨?_, ?_, ?_, ?_⟩ <;>
      · intro p hp
        rcases List.mem_singleton.mp hp with rfl
        exact hs

/-- Witness for C8: the neighbour `(1,0)` of `(0,0)` on the 2×2 grid
with `(1,0)` blocked, and the final state of the walled-off 3×1 run. -/
theorem C8_successors_exclude_blocked_witness :
    ((1, 0) ∈ Robopath.neighbors (0, 0) 2 2 ∧
        (1, 0) ∉ ([(1, 0)] : List Robopath.Point) ↔
      Robopath.manhattan (0, 0) (1, 0) = 1 ∧ Robopath.inBounds 2 2 (1, 0) ∧
        (1, 0) ∉ ([(1, 0)] : List Robopath.Point)) ∧
    Robopath.BlockedFree [(1, 0)]
      { openHeap := [], cameFrom := [((0, 0), none)],
        gscore := [((0, 0), 0)], pushLog := [(2, 0, (0, 0))], expanded := 1 } :=
  ⟨C8_successors_exclude_blocked.1 2 2 [(1, 0)] (0, 0) (1, 0) (by decide),
   C8_successors_exclude_blocked.2 5 (0, 0) (2, 0) 3 1 [(1, 0)] none _
     (by decide) rfl⟩

/-- Helper: a successful association-list lookup locates a pair. -/
theorem lookup_mem {β : Type} :
    ∀ (l : List (Robopath.Point × β)) (k : Robopath.Point) (v : β),
      List.lookup k l = some v → (k, v) ∈ l := by
  intro l
  induction l with
  | nil => intro k v h; cases h
  | cons p rest ih =>
      intro k v h
      rw [List.lookup] at h
      by_cases hk : (k == p.1) = true
      · rw [hk] at h
        cases h
        have hkp : k = p.1 := by simpa using hk
        subst hkp
        exact List.mem_cons_self _ _
      · have hk' : (k == p.1) = false := by simpa using hk
        rw [hk'] at h
        exact List.mem_cons_of_mem _ (ih k v h)

/-- Helper: the head of an append is the head of a non-empty prefix. -/
theorem head?_append_left {α : Type} (l l' : List α) (a : α)
    (h : l.head? = some a) : (l ++ l').head? = some a := by
  cases l with
  | nil => cases h
  | cons x t =>
      have : x = a := by simpa using h
      subst this
      rfl

/-- Helper: a path reconstructed from a sound predecessor table starts
at `start`, ends at the queried node, and is a chain of grid moves. -/
theorem reconstruct_props (width height : Int) (blocked : List Robopath.Point)
    (start : Robopath.Point)
    (cf : List (Robopath.Point × Option Robopath.Point))
    (hcf : Robopath.CameFromOK width height blocked start cf) :
    ∀ (fuel : Nat) (node : Robopath.Point) (path : List Robopath.Point),
      Robopath.reconstruct fuel cf node = some path →
      path.head? = some start ∧ path.getLast? = some node ∧
        path.Chain' (Robopath.GridStep width height blocked) := by
  intro fuel
  induction fuel with
  | zero => intro node path h; cases h
  | succ n ih =>
      intro node path h
      rw [Robopath.reconstruct] at h
      cases hl : List.lookup node cf with
      | none => rw [hl] at h; cases h
      | some o =>
          rw [hl] at h
          cases o with
          | none =>
              dsimp only at h
              cases h
              have hstart := (hcf (node, none) (lookup_mem cf node none hl)).1 rfl
              dsimp only at hstart
              subst hstart
              exact ⟨rfl, rfl, List.chain'_singleton _⟩
          | some p =>
              dsimp only at h
              cases hrec : Robopath.reconstruct n cf p with
              | none => rw [hrec] at h; cases h
              | some prev =>
                  rw [hrec] at h
                  cases h
                  obtain ⟨hh, hlast, hchain⟩ := ih p prev hrec
                  have hstep := (hcf (node, some p)
                    (lookup_mem cf node (some p) hl)).2 p rfl
                  refine ⟨head?_append_left prev [node] start hh, ?_, ?_⟩
                  · simp
                  · rw [List.chain'_append]
                    refine ⟨hchain, List.chain'_singleton _, ?_⟩
                    intro x hx y hy
                    rw [hlast] at hx
                    rcases Option.mem_some_iff.mp hx with rfl
                    rcases Option.mem_some_iff.mp (by simpa using hy) with rfl
                    exact hstep

/-- Helper: relaxation preserves soundness of the predecessor table. -/
theorem relaxNbrs_cameFromOK (goal : Robopath.Point)
    (blocked : List Robopath.Point) (start current : Robopath.Point)
    (width height : Int) (l : List Robopath.Point)
    (hl : ∀ x ∈ l, x ∈ Robopath.neighbors current width height) :
    ∀ st st', Robopath.relaxNbrs goal blocked current l st = .ok st' →
      Robopath.CameFromOK width height blocked start st.cameFrom →
      Robopath.CameFromOK width height blocked start st'.cameFrom := by
  induction l with
  | nil =>
      intro st st' h hcf
      rw [Robopath.relaxNbrs] at h
      cases h
      exact hcf
  | cons nbr rest ih =>
      intro st st' h hcf
      have hrest : ∀ x ∈ rest, x ∈ Robopath.neighbors current width height :=
        fun x hx => hl x (List.mem_cons_of_mem _ hx)
      rw [Robopath.relaxNbrs] at h
      by_cases hb : nbr ∈ blocked
      · rw [if_pos hb] at h
        exact ih hrest st st' h hcf
      · rw [if_neg hb] at h
        cases hcur : st.gscore.lookup current with
        | none => rw [hcur] at h; cases h
        | some gcur =>
            rw [hcur] at h
            dsimp only at h
            by_cases himp : (match st.gscore.lookup nbr with
              | none => true
              | some gn => decide (gcur + 1 < gn)) = true
            · rw [if_pos himp] at h
              refine ih hrest _ st' h ?_
              intro p hp
              rcases List.mem_cons.mp hp with rfl | hp'
              · constructor
                · intro hx
                  cases hx
                · intro q hq
                  rcases Option.some.inj hq with rfl
                  exact ⟨hl nbr (List.mem_cons_self _ _), hb⟩
              · exact hcf p (List.mem_of_mem_filter hp')
            · rw [if_neg himp] at h
              exact ih hrest st st' h hcf

/-- Helper: a returned grid path starts at `start` (when the table is
sound for `start`), ends at `goal`, and is a chain of grid moves. -/
theorem astarLoop_path_props (goal : Robopath.Point) (width height : Int)
    (blocked : List Robopath.Point) (start : Robopath.Point) (fuel : Nat) :
    ∀ st path st',
      Robopath.astarLoop goal width height blocked fuel st =
        some (.ok (some path, st')) →
      Robopath.CameFromOK width height blocked start st.cameFrom →
      path.head? = some start ∧ path.getLast? = some goal ∧
        path.Chain' (Robopath.GridStep width height blocked) := by
  induction fuel with
  | zero =>
      intro st path st' h
      exact absurd h (by simp [Robopath.astarLoop])
  | succ n ih =>
      intro st path st' h hcf
      rw [Robopath.astarLoop] at h
      cases hp : Robopath.popMin st.openHeap with
      | none =>
          rw [hp] at h
          cases h
      | some e =>
          rw [hp] at h
          dsimp only at h
          by_cases hgoal : e.1.2.2 = goal
          · rw [if_pos hgoal] at h
            cases hr : Robopath.reconstruct
                (({ st with openHeap := e.2 } : Robopath.AState).gscore.length + 1)
                ({ st with openHeap := e.2 } : Robopath.AState).cameFrom e.1.2.2 with
            | none => rw [hr] at h; cases h
            | some rpath =>
                rw [hr] at h
                cases h
                have hprops := reconstruct_props width height blocked start
                  st.cameFrom hcf _ e.1.2.2 path hr
                rw [hgoal] at hprops
                exact hprops
          · rw [if_neg hgoal] at h
            cases hrel : Robopath.relaxNbrs goal blocked e.1.2.2
                (Robopath.neighbors e.1.2.2 width height)
                { st with openHeap := e.2, expanded := st.expanded + 1 } with
            | error err => rw [hrel] at h; cases h
            | ok st2 =>
                rw [hrel] at h
                refine ih st2 path st' h ?_
                exact relaxNbrs_cameFromOK goal blocked start e.1.2.2
                  width height _ (fun x hx => hx) _ st2 hrel hcf

/-- Helper: the selected least puzzle entry is one of the entries. -/
theorem minSEntry_mem (e : Week3.SEntry) :
    ∀ l : List Week3.SEntry, Week3.minSEntry e l ∈ e :: l := by
  intro l
  induction l with
  | nil => exact List.mem_singleton.mpr rfl
  | cons f rest ih =>
      rw [Week3.minSEntry]
      by_cases hlt : Week3.sentryLt f (Week3.minSEntry e rest) = true
      · rw [if_pos hlt]
        exact List.mem_cons_of_mem e (List.mem_cons_self f rest)
      · rw [if_neg hlt]
        rcases List.mem_cons.mp ih with hh | hh
        · exact List.mem_cons.mpr (Or.inl hh)
        · exact List.mem_cons_of_mem e (List.mem_cons_of_mem f hh)

/-- Helper: a popped puzzle entry was on the frontier. -/
theorem popMinS_mem (l : List Week3.SEntry) (e : Week3.SEntry)
    (rest : List Week3.SEntry) (h : Week3.popMinS l = some (e, rest)) :
    e ∈ l := by
  cases l with
  | nil => cases h
  | cons f fs =>
      rw [Week3.popMinS] at h
      cases h
      exact minSEntry_mem f fs

/-- Helper: entries surviving a puzzle pop were on the frontier. -/
theorem removeSEntry_subset (c : Nat) :
    ∀ (l : List Week3.SEntry) (x : Week3.SEntry),
      x ∈ Week3.removeSEntry c l → x ∈ l := by
  intro l
  induction l with
  | nil => intro x hx; cases hx
  | cons f rest ih =>
      intro x hx
      rw [Week3.removeSEntry] at hx
      by_cases hf : f.2.1 = c
      · rw [if_pos hf] at hx
        exact List.mem_cons_of_mem f hx
      · rw [if_neg hf] at hx
        rcases List.mem_cons.mp hx with rfl | hx'
        · exact List.mem_cons_self x rest
        · exact List.mem_cons_of_mem f (ih x hx')

/-- Helper: a popped puzzle frontier leaves a subset of the entries. -/
theorem popMinS_rest_subset (l : List Week3.SEntry) (e : Week3.SEntry)
    (rest : List Week3.SEntry) (h : Week3.popMinS l = some (e, rest)) :
    ∀ x ∈ rest, x ∈ l := by
  cases l with
  | nil => cases h
  | cons f fs =>
      rw [Week3.popMinS] at h
      cases h
      intro x hx
      exact removeSEntry_subset _ _ x hx

/-- Helper: a generated move has the generating state as parent and one
more move. -/
theorem getMoves_shape (s x : Week3.PuzzleState)
    (hx : x ∈ s.getMoves) :
    ∃ tn dn, x = Week3.PuzzleState.mk tn (s.moves + 1) (some s) dn := by
  simp only [Week3.PuzzleState.getMoves, List.mem_filterMap] at hx
  obtain ⟨d, _, hx⟩ := hx
  split at hx
  · cases hx
    exact ⟨_, _, rfl⟩
  · cases hx

/-- Helper: the reconstructed parent path of a well-rooted state starts
at `init`, ends at the state, and is a chain of `get_moves` steps. -/
theorem pathOf_props (init : Week3.PuzzleState) :
    ∀ s : Week3.PuzzleState, Week3.goodChain init s →
      (Week3.pathOf s).head? = some init ∧
      (Week3.pathOf s).getLast? = some s ∧
      (Week3.pathOf s).Chain' (fun a b => b ∈ a.getMoves)
  | .mk t m none d, h => by
      simp only [Week3.goodChain] at h
      rw [Week3.pathOf]
      subst h
      exact ⟨rfl, rfl, List.chain'_singleton _⟩
  | .mk t m (some q) d, h => by
      simp only [Week3.goodChain] at h
      obtain ⟨hmem, hq⟩ := h
      obtain ⟨hh, hl, hc⟩ := pathOf_props init q hq
      rw [Week3.pathOf]
      refine ⟨head?_append_left _ _ _ hh, by simp, ?_⟩
      rw [List.chain'_append]
      refine ⟨hc, List.chain'_singleton _, ?_⟩
      intro x hx y hy
      rw [hl] at hx
      rcases Option.mem_some_iff.mp hx with rfl
      rcases Option.mem_some_iff.mp (by simpa using hy) with rfl
      exact hmem

/-- Helper: the puzzle enqueue loop preserves well-rooted frontiers when
fed the moves of a well-rooted state. -/
theorem enqueueMoves_chainInv (init current : Week3.PuzzleState)
    (hcur : Week3.goodChain init current) :
    ∀ (l : List Week3.PuzzleState), (∀ x ∈ l, x ∈ current.getMoves) →
      ∀ st : Week3.SState, Week3.SChainInv init st →
        Week3.SChainInv init (Week3.enqueueMoves l st) := by
  intro l
  induction l with
  | nil => intro _ st hinv; exact hinv
  | cons nxt rest ih =>
      intro hl st hinv
      have hrest : ∀ x ∈ rest, x ∈ current.getMoves :=
        fun x hx => hl x (List.mem_cons_of_mem _ hx)
      rw [Week3.enqueueMoves]
      by_cases hv : nxt.tiles ∈ st.visited
      · rw [if_pos hv]
        exact ih hrest st hinv
      · rw [if_neg hv]
        refine ih hrest _ ?_
        intro e he
        rcases List.mem_cons.mp he with rfl | he'
        · have hn := hl nxt (List.mem_cons_self _ _)
          obtain ⟨tn, dn, hshape⟩ := getMoves_shape current nxt hn
          rw [hshape]
          simp only [Week3.goodChain]
          rw [hshape] at hn
          exact ⟨hn, hcur⟩
        · exact hinv e he'

/-- Helper: a terminating puzzle search loop over a well-rooted frontier
returns a path that is a chain of `get_moves` steps; a found path runs
from `init` to a goal state and a not-found result carries `[]`. -/
theorem solveLoop_path_props (init : Week3.PuzzleState) (fuel : Nat) :
    ∀ (st : Week3.SState) (b : Bool) (path : List Week3.PuzzleState)
        (n : Nat) (st' : Week3.SState),
      Week3.solveLoop fuel st = some ((b, path, n), st') →
      Week3.SChainInv init st →
      path.Chain' (fun a b => b ∈ a.getMoves) ∧
        (b = true → path.head? = some init ∧
          ∃ last, path.getLast? = some last ∧ last.isGoal = true) ∧
        (b = false → path = []) := by
  induction fuel with
  | zero =>
      intro st b path n st' h
      exact absurd h (by simp [Week3.solveLoop])
  | succ m ih =>
      intro st b path n st' h hinv
      rw [Week3.solveLoop] at h
      cases hp : Week3.popMinS st.openSet with
      | none =>
          rw [hp] at h
          cases h
          refine ⟨List.chain'_nil, ?_, ?_⟩
          · intro hb
            simp at hb
          · intro
            rfl
      | some e =>
          rw [hp] at h
          dsimp only at h
          by_cases hg : e.1.2.2.isGoal = true
          · rw [if_pos hg] at h
            cases h
            have hgood : Week3.goodChain init e.1.2.2 :=
              hinv e.1 (popMinS_mem st.openSet e.1 e.2 (by rw [hp]))
            obtain ⟨hh, hl, hc⟩ := pathOf_props init e.1.2.2 hgood
            exact ⟨hc, fun _ => ⟨hh, e.1.2.2, hl, hg⟩, by intro hb; cases hb⟩
          · rw [if_neg hg] at h
            refine ih _ b path n st' h ?_
            refine enqueueMoves_chainInv init e.1.2.2 ?_ _ (fun x hx => hx) _ ?_
            · exact hinv e.1 (popMinS_mem st.openSet e.1 e.2 (by rw [hp]))
            · intro x hx
              exact hinv x (popMinS_rest_subset st.openSet e.1 e.2 (by rw [hp]) x hx)

/-- **C6** (confirmed): path contiguity.  Grid: every path returned by a
terminating, non-raising `astar` run is a chain in which each next cell
is a generated (in-bounds) neighbour of the previous one and is not
blocked.  Puzzle: every path returned by `solve` on a
constructor-validated solver is a chain in which each next state is one
of the states produced by `get_moves` applied to the previous one. -/
theorem C6_path_contiguity :
    (∀ (fuel : Nat) (start goal : Robopath.Point) (width height : Int)
        (blocked : List Robopath.Point) (path : List Robopath.Point)
        (st : Robopath.AState),
      Robopath.astar fuel start goal width height blocked =
        some (.ok (some path, st)) →
      path.Chain' (Robopath.GridStep width height blocked)) ∧
    (∀ (l : List Int) (sv : Week3.EightPuzzleSolver) (fuel : Nat) (b : Bool)
        (path : List Week3.PuzzleState) (n : Nat) (st : Week3.SState),
      Week3.mkSolver l = some sv →
      Week3.solve fuel sv = some ((b, path, n), st) →
      path.Chain' (fun a x => x ∈ a.getMoves)) := by
  constructor
  · intro fuel start goal width height blocked path st h
    have hcf : Robopath.CameFromOK width height blocked start
        (Robopath.astarInit start goal).cameFrom := by
      intro p hp
      rcases List.mem_singleton.mp hp with rfl
      exact ⟨fun _ => rfl, fun q hq => by cases hq⟩
    exact (astarLoop_path_props goal width height blocked start fuel
      _ path st h hcf).2.2
  · intro l sv fuel b path n st hmk h
    obtain ⟨hinit, -⟩ := mkSolver_eq_some l sv hmk
    rw [Week3.solve] at h
    by_cases hg : sv.initialState.isGoal
    · rw [if_pos hg] at h
      cases h
      exact List.chain'_singleton _
    · rw [if_neg hg] at h
      refine (solveLoop_path_props sv.initialState fuel _ b path n st h ?_).1
      intro e he
      rcases List.mem_singleton.mp he with rfl
      rw [hinit]
      simp only [Week3.goodChain]

/-- Witness for C6 on concrete runs: the 2×1 grid path and the
trivial goal-solver path. -/
theorem C6_path_contiguity_witness :
    List.Chain' (Robopath.GridStep 2 1 []) [(0, 0), (1, 0)] ∧
    List.Chain' (fun a x => x ∈ a.getMoves)
      [Week3.PuzzleState.mk Week3.goalTiles 0 none ""] :=
  ⟨C6_path_contiguity.1 5 (0, 0) (1, 0) 2 1 [] [(0, 0), (1, 0)] _ rfl,
   C6_path_contiguity.2 Week3.goalTiles
     { initialState := .mk Week3.goalTiles 0 none ""
       goalState := .mk Week3.goalTiles 0 none "" } 3 true
     [Week3.PuzzleState.mk Week3.goalTiles 0 none ""] 0 _ rfl rfl⟩

/-- Helper: looking up the freshly written key. -/
theorem lookup_setKey_self {β : Type} (m : List (Robopath.Point × β))
    (k : Robopath.Point) (v : β) :
    List.lookup k (Robopath.setKey m k v) = some v := by
  rw [Robopath.setKey, List.lookup]
  simp

/-- Helper: a lookup survives filtering out a different key. -/
theorem lookup_filter_ne {β : Type} (k j : Robopath.Point) (hjk : j ≠ k) :
    ∀ m : List (Robopath.Point × β),
      List.lookup j (m.filter (fun p => p.1 ≠ k)) = List.lookup j m := by
  intro m
  induction m with
  | nil => rfl
  | cons p rest ih =>
      by_cases hp : p.1 = k
      · rw [List.filter_cons_of_neg (by simpa using hp)]
        rw [ih, List.lookup]
        have hpj : (j == p.1) = false := by
          simp only [beq_eq_false_iff_ne, ne_eq]
          rintro rfl
          exact hjk hp
        rw [hpj]
      · rw [List.filter_cons_of_pos (by simpa using hp)]
        rw [List.lookup, List.lookup]
        cases hj : (j == p.1) with
        | true => rfl
        | false => exact ih

/-- Helper: writing one key leaves other lookups unchanged. -/
theorem lookup_setKey_ne {β : Type} (m : List (Robopath.Point × β))
    (k j : Robopath.Point) (v : β) (hjk : j ≠ k) :
    List.lookup j (Robopath.setKey m k v) = List.lookup j m := by
  rw [Robopath.setKey, List.lookup]
  have hjk' : (j == k) = false := by simpa using hjk
  rw [hjk']
  exact lookup_filter_ne k j hjk m

/-- Helper: a member of an association list with duplicate-free keys is
returned by lookup. -/
theorem lookup_of_mem_nodup {β : Type} :
    ∀ (m : List (Robopath.Point × β)) (p : Robopath.Point × β),
      (m.map Prod.fst).Nodup → p ∈ m → List.lookup p.1 m = some p.2 := by
  intro m
  induction m with
  | nil => intro p _ hp; cases hp
  | cons q rest ih =>
      intro p hnd hp
      rw [List.map_cons] at hnd
      obtain ⟨hq, hnd'⟩ := List.nodup_cons.mp hnd
      rcases List.mem_cons.mp hp with rfl | hp'
      · rw [List.lookup]
        simp
      · rw [List.lookup]
        have hpq : (p.1 == q.1) = false := by
          simp only [beq_eq_false_iff_ne, ne_eq]
          intro he
          exact hq (he ▸ List.mem_map_of_mem Prod.fst hp')
        rw [hpq]
        exact ih p hnd' hp'

/-- Helper: membership in an updated association list. -/
theorem mem_setKey {β : Type} (m : List (Robopath.Point × β))
    (k : Robopath.Point) (v : β) (p : Robopath.Point × β)
    (hp : p ∈ Robopath.setKey m k v) :
    p = (k, v) ∨ (p ∈ m ∧ p.1 ≠ k) := by
  rcases List.mem_cons.mp hp with rfl | hp'
  · exact Or.inl rfl
  · obtain ⟨hm, hk⟩ := List.mem_filter.mp hp'
    exact Or.inr ⟨hm, by simpa using hk⟩

/-- Helper: updating keeps keys duplicate-free. -/
theorem setKey_nodup {β : Type} (m : List (Robopath.Point × β))
    (k : Robopath.Point) (v : β)
    (hnd : (m.map Prod.fst).Nodup) :
    ((Robopath.setKey m k v).map Prod.fst).Nodup := by
  rw [Robopath.setKey]
  rw [List.map_cons, List.nodup_cons]
  constructor
  · intro hk
    obtain ⟨p, hp, hpk⟩ := List.mem_map.mp hk
    obtain ⟨-, hne⟩ := List.mem_filter.mp hp
    have hne' : p.1 ≠ k := by simpa using hne
    exact hne' hpk
  · exact List.Nodup.sublist
      (List.Sublist.map Prod.fst (List.filter_sublist m)) hnd

/-- Helper: an absent key means every stored key differs. -/
theorem lookup_none_iff {β : Type} (k : Robopath.Point) :
    ∀ m : List (Robopath.Point × β),
      List.lookup k m = none ↔ ∀ p ∈ m, p.1 ≠ k := by
  intro m
  induction m with
  | nil => simp
  | cons q rest ih =>
      rw [List.lookup]
      constructor
      · intro h p hp
        cases hq : (k == q.1) with
        | true => rw [hq] at h; cases h
        | false =>
            rw [hq] at h
            rcases List.mem_cons.mp hp with rfl | hp'
            · intro he
              rw [he] at hq
              simp at hq
            · exact (ih.mp h) p hp'
      · intro h
        have hq : (k == q.1) = false := by
          simp only [beq_eq_false_iff_ne, ne_eq]
          intro he
          exact h q (List.mem_cons_self q rest) he.symm
        rw [hq]
        exact ih.mpr (fun p hp => h p (List.mem_cons_of_mem q hp))

/-- Helper: filtering out an absent key changes nothing. -/
theorem filter_of_lookup_none {β : Type} (k : Robopath.Point)
    (m : List (Robopath.Point × β)) (h : List.lookup k m = none) :
    m.filter (fun p => p.1 ≠ k) = m := by
  rw [List.filter_eq_self]
  intro p hp
  simpa using (lookup_none_iff k m).mp h p hp

/-- Helper: with duplicate-free keys, the list is a permutation of the
stored pair for `k` consed onto the list with `k` filtered out. -/
theorem perm_setKey_split {β : Type} (k : Robopath.Point) (v0 : β) :
    ∀ m : List (Robopath.Point × β), (m.map Prod.fst).Nodup →
      List.lookup k m = some v0 →
      m.Perm ((k, v0) :: m.filter (fun p => p.1 ≠ k)) := by
  intro m
  induction m with
  | nil => intro _ h; cases h
  | cons q rest ih =>
      intro hnd h
      rw [List.map_cons] at hnd
      obtain ⟨hq, hnd'⟩ := List.nodup_cons.mp hnd
      rw [List.lookup] at h
      cases hqk : (k == q.1) with
      | true =>
          rw [hqk] at h
          cases h
          have hkq : k = q.1 := by simpa using hqk
          subst hkq
          have hnone : List.lookup q.1 rest = none := by
            rw [lookup_none_iff]
            intro p hp he
            exact hq (he ▸ List.mem_map_of_mem Prod.fst hp)
          have hrr := filter_of_lookup_none q.1 rest hnone
          have hfq : List.filter (fun p => decide (p.1 ≠ q.1)) (q :: rest) = rest := by
            rw [List.filter_cons,
              if_neg (show ¬ (decide (q.1 ≠ q.1) = true) by simp), hrr]
          rw [hfq]
      | false =>
          rw [hqk] at h
          have hqk' : q.1 ≠ k := by
            simp only [beq_eq_false_iff_ne, ne_eq] at hqk
            exact fun he => hqk he.symm
          have hfp : List.filter (fun p => decide (p.1 ≠ k)) (q :: rest) =
              q :: List.filter (fun p => decide (p.1 ≠ k)) rest := by
            rw [List.filter_cons,
              if_pos (show (decide (q.1 ≠ k) = true) by simpa using hqk')]
          rw [hfp]
          exact (List.Perm.cons q (ih hnd' h)).trans (List.Perm.swap _ _ _)

/-- Helper: the selected least grid entry is one of the entries. -/
theorem minEntry_mem (e : Robopath.Entry) :
    ∀ l : List Robopath.Entry, Robopath.minEntry e l ∈ e :: l := by
  intro l
  induction l with
  | nil => exact List.mem_singleton.mpr rfl
  | cons f rest ih =>
      rw [Robopath.minEntry]
      by_cases hlt : Robopath.entryLt f (Robopath.minEntry e rest) = true
      · rw [if_pos hlt]
        exact List.mem_cons_of_mem e (List.mem_cons_self f rest)
      · rw [if_neg hlt]
        rcases List.mem_cons.mp ih with hh | hh
        · exact List.mem_cons.mpr (Or.inl hh)
        · exact List.mem_cons_of_mem e (List.mem_cons_of_mem f hh)

/-- Helper: a popped grid entry was on the heap. -/
theorem popMin_mem (l : List Robopath.Entry) (e : Robopath.Entry)
    (rest : List Robopath.Entry) (h : Robopath.popMin l = some (e, rest)) :
    e ∈ l := by
  cases l with
  | nil => cases h
  | cons f fs =>
      rw [Robopath.popMin] at h
      cases h
      exact minEntry_mem f fs

/-- Helper: removing a present entry shrinks the list by one. -/
theorem removeEntry_length (e : Robopath.Entry) :
    ∀ l : List Robopath.Entry, e ∈ l →
      (Robopath.removeEntry e l).length + 1 = l.length := by
  intro l
  induction l with
  | nil => intro h; cases h
  | cons f rest ih =>
      intro h
      rw [Robopath.removeEntry]
      by_cases hf : f = e
      · rw [if_pos hf]
        rfl
      · rw [if_neg hf]
        rcases List.mem_cons.mp h with rfl | h'
        · exact absurd rfl hf
        · rw [List.length_cons, List.length_cons, ih h']

/-- Helper: a pop shrinks the heap by one. -/
theorem popMin_length (l : List Robopath.Entry) (e : Robopath.Entry)
    (rest : List Robopath.Entry) (h : Robopath.popMin l = some (e, rest)) :
    rest.length + 1 = l.length := by
  cases l with
  | nil => cases h
  | cons f fs =>
      rw [Robopath.popMin] at h
      cases h
      exact removeEntry_length _ _ (minEntry_mem f fs)

/-- Helper: an update to an absent key extends the table by one entry. -/
theorem setKey_length_of_none (m : List (Robopath.Point × Int))
    (k : Robopath.Point) (v : Int) (h : List.lookup k m = none) :
    (Robopath.setKey m k v).length = m.length + 1 := by
  rw [Robopath.setKey, List.length_cons, filter_of_lookup_none k m h]

/-- Helper: an update to a present key keeps the table size. -/
theorem setKey_length_of_some (m : List (Robopath.Point × Int))
    (k : Robopath.Point) (v v0 : Int)
    (hnd : (m.map Prod.fst).Nodup) (h : List.lookup k m = some v0) :
    (Robopath.setKey m k v).length = m.length := by
  have hperm := perm_setKey_split k v0 m hnd h
  have hlen := hperm.length_eq
  rw [List.length_cons] at hlen
  rw [Robopath.setKey, List.length_cons]
  omega

/-- Helper: an update to an absent key adds its value to the sum. -/
theorem setKey_sum_of_none (m : List (Robopath.Point × Int))
    (k : Robopath.Point) (v : Int) (h : List.lookup k m = none) :
    ((Robopath.setKey m k v).map (fun p => p.2)).sum =
      (m.map (fun p => p.2)).sum + v := by
  rw [Robopath.setKey, filter_of_lookup_none k m h, List.map_cons, List.sum_cons]
  ring

/-- Helper: an update to a present key replaces its value in the sum. -/
theorem setKey_sum_of_some (m : List (Robopath.Point × Int))
    (k : Robopath.Point) (v v0 : Int)
    (hnd : (m.map Prod.fst).Nodup) (h : List.lookup k m = some v0) :
    ((Robopath.setKey m k v).map (fun p => p.2)).sum =
      (m.map (fun p => p.2)).sum - v0 + v := by
  have hperm := perm_setKey_split k v0 m hnd h
  have hsum := (hperm.map (fun p => p.2)).sum_eq
  rw [List.map_cons, List.sum_cons] at hsum
  rw [Robopath.setKey, List.map_cons, List.sum_cons]
  omega

/-- Helper: a duplicate-free table of in-bounds cells has at most one
entry per grid cell. -/
theorem keys_length_le (width height : Int)
    (m : List (Robopath.Point × Int))
    (hnd : (m.map Prod.fst).Nodup)
    (hb : ∀ p ∈ m, Robopath.inBounds width height p.1) :
    m.length ≤ Robopath.cellCount width height := by
  have hlen : (m.map Prod.fst).length = m.length := List.length_map m Prod.fst
  have hcard := List.toFinset_card_of_nodup hnd
  have hsub : (m.map Prod.fst).toFinset ⊆
      Finset.Ico (0 : Int) width ×ˢ Finset.Ico (0 : Int) height := by
    intro x hx
    rw [List.mem_toFinset] at hx
    obtain ⟨p, hp, rfl⟩ := List.mem_map.mp hx
    obtain ⟨h1, h2, h3, h4⟩ := hb p hp
    rw [Finset.mem_product, Finset.mem_Ico, Finset.mem_Ico]
    exact ⟨⟨h1, h2⟩, h3, h4⟩
  have hcards := Finset.card_le_card hsub
  rw [Finset.card_product, Int.card_Ico, Int.card_Ico] at hcards
  simp only [sub_zero] at hcards
  rw [hcard, hlen] at hcards
  exact hcards

/-- Helper: the potential is non-negative under the invariants. -/
theorem phi_nonneg (width height : Int) (st : Robopath.AState)
    (hnd : (st.gscore.map Prod.fst).Nodup)
    (hb : ∀ p ∈ st.gscore, Robopath.inBounds width height p.1)
    (hv : ∀ p ∈ st.gscore, 0 ≤ p.2 ∧ p.2 ≤ (st.gscore.length : Int)) :
    0 ≤ Robopath.phi width height st := by
  have h1 : 0 ≤ Robopath.gsum st := by
    refine List.sum_nonneg ?_
    intro x hx
    obtain ⟨p, hp, rfl⟩ := List.mem_map.mp hx
    exact (hv p hp).1
  have h2 : (st.gscore.length : Int) ≤ (Robopath.cellCount width height : Int) := by
    exact_mod_cast keys_length_le width height st.gscore hnd hb
  have h3 : (0 : Int) ≤ ((Robopath.cellCount width height : Int) + 1) *
      ((Robopath.cellCount width height : Int) - st.gscore.length) := by
    apply mul_nonneg
    · positivity
    · omega
  rw [Robopath.phi]
  omega

/-- Helper: a scored cell stays scored across an update. -/
theorem lookup_setKey_isSome {β : Type} (m : List (Robopath.Point × β))
    (k j : Robopath.Point) (v : β)
    (h : (List.lookup j m).isSome = true) :
    (List.lookup j (Robopath.setKey m k v)).isSome = true := by
  by_cases hj : j = k
  · subst hj
    rw [lookup_setKey_self]
    rfl
  · rw [lookup_setKey_ne m k j v hj]
    exact h

/-- Helper: a generated neighbour differs from its generator. -/
theorem neighbors_ne (a b : Robopath.Point) (width height : Int)
    (hb : b ∈ Robopath.neighbors a width height) : b ≠ a := by
  intro he
  subst he
  have h1 := manhattan_neighbor b b width height hb
  rw [manhattan_self] at h1
  cases h1

/-- Helper: the relaxation loop terminates without error from an
invariant-satisfying state with a scored current cell, preserves the
invariants and the scoredness of the current cell, and does not increase
the combined potential-plus-frontier measure. -/
theorem relaxNbrs_term (goal : Robopath.Point) (blocked : List Robopath.Point)
    (width height : Int) (current : Robopath.Point) :
    ∀ l : List Robopath.Point,
      (∀ x ∈ l, x ∈ Robopath.neighbors current width height) →
      ∀ st : Robopath.AState, Robopath.GInv width height st →
        (List.lookup current st.gscore).isSome = true →
        ∃ st2, Robopath.relaxNbrs goal blocked current l st = .ok st2 ∧
          Robopath.GInv width height st2 ∧
          (List.lookup current st2.gscore).isSome = true ∧
          Robopath.phi width height st2 + st2.openHeap.length ≤
            Robopath.phi width height st + st.openHeap.length := by
  intro l
  induction l with
  | nil =>
      intro _ st hGI hcur
      exact ⟨st, by rw [Robopath.relaxNbrs], hGI, hcur, le_refl _⟩
  | cons nbr rest ih =>
      intro hnb st hGI hcur
      have hnbm : nbr ∈ Robopath.neighbors current width height :=
        hnb nbr (List.mem_cons_self _ _)
      have hrest : ∀ x ∈ rest, x ∈ Robopath.neighbors current width height :=
        fun x hx => hnb x (List.mem_cons_of_mem _ hx)
      rw [Robopath.relaxNbrs]
      by_cases hblk : nbr ∈ blocked
      · rw [if_pos hblk]
        exact ih hrest st hGI hcur
      · rw [if_neg hblk]
        obtain ⟨gcur, hgcur⟩ := Option.isSome_iff_exists.mp hcur
        rw [hgcur]
        dsimp only
        obtain ⟨hnd, hIB, hval, hheap, hcf, hcfk⟩ := hGI
        have hcurmem : (current, gcur) ∈ st.gscore :=
          lookup_mem st.gscore current gcur hgcur
        have hcurIB : Robopath.inBounds width height current :=
          hIB (current, gcur) hcurmem
        have hgcurb := hval (current, gcur) hcurmem
        have hnbne : nbr ≠ current := neighbors_ne current nbr width height hnbm
        have hnbIB : Robopath.inBounds width height nbr :=
          ((mem_neighbors_iff current nbr width height hcurIB).mp hnbm).2
        by_cases himp : (match st.gscore.lookup nbr with
          | none => true
          | some gn => decide (gcur + 1 < gn)) = true
        · rw [if_pos himp]
          set tg : Int := gcur + 1 with htg
          set e : Robopath.Entry := (tg + Robopath.manhattan nbr goal, tg, nbr)
            with he
          set st1 : Robopath.AState :=
            { st with
              gscore := Robopath.setKey st.gscore nbr tg
              openHeap := e :: st.openHeap
              pushLog := st.pushLog ++ [e]
              cameFrom := Robopath.setKey st.cameFrom nbr (some current) }
            with hst1
          have hlookc : List.lookup current st1.gscore = some gcur := by
            rw [hst1]
            dsimp only
            rw [lookup_setKey_ne st.gscore nbr current tg
              (fun hh => hnbne hh.symm)]
            exact hgcur
          have hlooknbr : List.lookup nbr st1.gscore = some tg := by
            rw [hst1]
            dsimp only
            exact lookup_setKey_self st.gscore nbr tg
          -- length and sum accounting, split on whether nbr was scored
          have hcase : (List.lookup nbr st.gscore = none ∧
                st1.gscore.length = st.gscore.length + 1 ∧
                Robopath.gsum st1 = Robopath.gsum st + tg) ∨
              (∃ gn, List.lookup nbr st.gscore = some gn ∧ tg < gn ∧
                st1.gscore.length = st.gscore.length ∧
                Robopath.gsum st1 = Robopath.gsum st - gn + tg) := by
            cases hnl : List.lookup nbr st.gscore with
            | none =>
                refine Or.inl ⟨rfl, ?_, ?_⟩
                · rw [hst1]
                  dsimp only
                  exact setKey_length_of_none st.gscore nbr tg hnl
                · rw [hst1, Robopath.gsum, Robopath.gsum]
                  dsimp only
                  exact setKey_sum_of_none st.gscore nbr tg hnl
            | some gn =>
                rw [hnl] at himp
                have hlt : tg < gn := by
                  rw [htg]
                  exact of_decide_eq_true himp
                refine Or.inr ⟨gn, rfl, hlt, ?_, ?_⟩
                · rw [hst1]
                  dsimp only
                  exact setKey_length_of_some st.gscore nbr tg gn hnd hnl
                · rw [hst1, Robopath.gsum, Robopath.gsum]
                  dsimp only
                  exact setKey_sum_of_some st.gscore nbr tg gn hnd hnl
          have hlen_ge : st.gscore.length ≤ st1.gscore.length := by
            rcases hcase with ⟨-, hl, -⟩ | ⟨gn, -, -, hl, -⟩ <;> omega
          have hGI1 : Robopath.GInv width height st1 := by
            refine ⟨?_, ?_, ?_, ?_, ?_, ?_⟩
            · rw [hst1]
              dsimp only
              exact setKey_nodup st.gscore nbr tg hnd
            · intro p hp
              rw [hst1] at hp
              dsimp only at hp
              rcases mem_setKey st.gscore nbr tg p hp with rfl | ⟨hp', -⟩
              · exact hnbIB
              · exact hIB p hp'
            · intro p hp
              rw [hst1] at hp
              dsimp only at hp
              rcases mem_setKey st.gscore nbr tg p hp with rfl | ⟨hp', -⟩
              · dsimp only
                constructor
                · omega
                · rcases hcase with ⟨-, hl, -⟩ | ⟨gn, hnl, hlt, hl, -⟩
                  · rw [hl]
                    push_cast
                    omega
                  · have := hval (nbr, gn) (lookup_mem st.gscore nbr gn hnl)
                    rw [hl]
                    dsimp only at this
                    omega
              · have := hval p hp'
                omega
            · intro e2 he2
              rw [hst1] at he2
              dsimp only at he2
              rcases List.mem_cons.mp he2 with rfl | he2'
              · rw [hlooknbr]
                rfl
              · rw [hst1]
                dsimp only
                exact lookup_setKey_isSome st.gscore nbr e2.2.2 tg
                  (hheap e2 he2')
            · intro p hp q hq
              rw [hst1] at hp
              dsimp only at hp
              rcases mem_setKey st.cameFrom nbr (some current) p hp with
                rfl | ⟨hp', hpne⟩
              · dsimp only at hq
                rcases Option.some.inj hq with rfl
                exact ⟨gcur, tg, hlookc, hlooknbr, by omega⟩
              · obtain ⟨vq, vp, hvq, hvp, hlt⟩ := hcf p hp' q hq
                by_cases hqn : q = nbr
                · rw [hqn] at hvq
                  rcases hcase with ⟨hnl, -, -⟩ | ⟨gn, hnl, hltg, -, -⟩
                  · rw [hnl] at hvq
                    cases hvq
                  · rw [hnl] at hvq
                    rcases Option.some.inj hvq with rfl
                    refine ⟨tg, vp, ?_, ?_, by omega⟩
                    · rw [hqn]
                      exact hlooknbr
                    · rw [hst1]
                      dsimp only
                      rw [lookup_setKey_ne st.gscore nbr p.1 tg hpne]
                      exact hvp
                · refine ⟨vq, vp, ?_, ?_, hlt⟩
                  · rw [hst1]
                    dsimp only
                    rw [lookup_setKey_ne st.gscore nbr q tg hqn]
                    exact hvq
                  · rw [hst1]
                    dsimp only
                    rw [lookup_setKey_ne st.gscore nbr p.1 tg hpne]
                    exact hvp
            · intro k hk
              by_cases hkn : k = nbr
              · subst hkn
                rw [hst1]
                dsimp only
                rw [lookup_setKey_self]
                rfl
              · rw [hst1] at hk
                dsimp only at hk
                rw [lookup_setKey_ne st.gscore nbr k tg hkn] at hk
                rw [hst1]
                dsimp only
                exact lookup_setKey_isSome st.cameFrom nbr k (some current)
                  (hcfk k hk)
          have hmu : Robopath.phi width height st1 + st1.openHeap.length ≤
              Robopath.phi width height st + st.openHeap.length := by
            have hlenheap : st1.openHeap.length = st.openHeap.length + 1 := rfl
            have hM : (st1.gscore.length : Int) ≤
                (Robopath.cellCount width height : Int) := by
              exact_mod_cast keys_length_le width height st1.gscore
                hGI1.1 hGI1.2.1
            rcases hcase with ⟨-, hl, hs⟩ | ⟨gn, -, hltg, hl, hs⟩
            · rw [Robopath.phi, Robopath.phi, hlenheap, hs, hl]
              have htgM : tg ≤ (Robopath.cellCount width height : Int) := by
                have h1 := hgcurb.2
                rw [hl] at hM
                push_cast at hM ⊢
                omega
              push_cast
              nlinarith [htgM]
            · rw [Robopath.phi, Robopath.phi, hlenheap, hs, hl]
              push_cast
              nlinarith [hltg]
          obtain ⟨st2, hrun, hGI2, hcur2, hmu2⟩ := ih hrest st1 hGI1 (by
            rw [hlookc]
            rfl)
          exact ⟨st2, hrun, hGI2, hcur2, le_trans hmu2 hmu⟩
        · rw [if_neg himp]
          exact ih hrest st ⟨hnd, hIB, hval, hheap, hcf, hcfk⟩ hcur

/-- Helper: path reconstruction succeeds whenever the predecessor table
links strictly decreasing non-negative g-scores and the queried node is
scored below the fuel. -/
theorem reconstruct_isSome
    (gs : List (Robopath.Point × Int))
    (cf : List (Robopath.Point × Option Robopath.Point))
    (hval : ∀ p ∈ gs, 0 ≤ p.2)
    (hcf : ∀ p ∈ cf, ∀ q, p.2 = some q →
      ∃ vq vp, List.lookup q gs = some vq ∧
        List.lookup p.1 gs = some vp ∧ vq < vp)
    (hcfk : ∀ k : Robopath.Point, (List.lookup k gs).isSome = true →
      (List.lookup k cf).isSome = true) :
    ∀ (fuel : Nat) (node : Robopath.Point) (v : Int),
      List.lookup node gs = some v → v < (fuel : Int) →
      (Robopath.reconstruct fuel cf node).isSome = true := by
  intro fuel
  induction fuel with
  | zero =>
      intro node v hv hlt
      have hnn := hval (node, v) (lookup_mem gs node v hv)
      dsimp only at hnn
      push_cast at hlt
      omega
  | succ n ih =>
      intro node v hv hlt
      rw [Robopath.reconstruct]
      have hnode := hcfk node (by rw [hv]; rfl)
      obtain ⟨o, ho⟩ := Option.isSome_iff_exists.mp hnode
      rw [ho]
      cases o with
      | none => rfl
      | some p =>
          dsimp only
          obtain ⟨vq, vp, hvq, hvp, hord⟩ :=
            hcf (node, some p) (lookup_mem cf node (some p) ho) p rfl
          have hpv : vp = v := by
            rw [hvp] at hv
            exact Option.some.inj hv
          have hrec := ih p vq hvq (by push_cast at hlt ⊢; omega)
          obtain ⟨pp, hpp⟩ := Option.isSome_iff_exists.mp hrec
          rw [hpp]
          rfl

/-- Helper: from any invariant-satisfying state, the grid search loop
with fuel above the measure terminates with a non-error result. -/
theorem astarLoop_term (goal : Robopath.Point) (width height : Int)
    (blocked : List Robopath.Point) :
    ∀ (fuel : Nat) (st : Robopath.AState), Robopath.GInv width height st →
      Robopath.mu width height st < (fuel : Int) →
      ∃ r, Robopath.astarLoop goal width height blocked fuel st =
        some (.ok r) := by
  intro fuel
  induction fuel with
  | zero =>
      intro st hGI hmu
      obtain ⟨hnd, hIB, hval, hheap, hcf, hcfk⟩ := hGI
      have hphi := phi_nonneg width height st hnd hIB hval
      rw [Robopath.mu] at hmu
      have hlen : (0 : Int) ≤ (st.openHeap.length : Int) := by positivity
      push_cast at hmu
      omega
  | succ n ih =>
      intro st hGI hmu
      rw [Robopath.astarLoop]
      cases hp : Robopath.popMin st.openHeap with
      | none =>
          exact ⟨(none, st), rfl⟩
      | some pr =>
          dsimp only
          obtain ⟨hnd, hIB, hval, hheap, hcf, hcfk⟩ := hGI
          have hem : pr.1 ∈ st.openHeap :=
            popMin_mem st.openHeap pr.1 pr.2 (by rw [hp])
          have hcure : (List.lookup pr.1.2.2 st.gscore).isSome = true :=
            hheap pr.1 hem
          by_cases hgoal : pr.1.2.2 = goal
          · rw [if_pos hgoal]
            obtain ⟨v, hv⟩ := Option.isSome_iff_exists.mp hcure
            have hvb := hval _ (lookup_mem _ _ _ hv)
            have hrec := reconstruct_isSome st.gscore st.cameFrom
              (fun p hp2 => (hval p hp2).1) hcf hcfk
              (st.gscore.length + 1) pr.1.2.2 v hv
              (by dsimp only at hvb; push_cast; omega)
            obtain ⟨path, hpath⟩ := Option.isSome_iff_exists.mp hrec
            rw [hpath]
            exact ⟨(some path, { st with openHeap := pr.2 }), rfl⟩
          · rw [if_neg hgoal]
            have hGI1 : Robopath.GInv width height
                { st with openHeap := pr.2, expanded := st.expanded + 1 } := by
              refine ⟨hnd, hIB, hval, ?_, hcf, hcfk⟩
              intro e2 he2
              exact hheap e2 (popMin_subset st.openHeap pr.1 pr.2 (by rw [hp]) e2 he2)
            obtain ⟨st2, hrun, hGI2, hcur2, hmu2⟩ :=
              relaxNbrs_term goal blocked width height pr.1.2.2
                (Robopath.neighbors pr.1.2.2 width height) (fun x hx => hx)
                { st with openHeap := pr.2, expanded := st.expanded + 1 }
                hGI1 hcure
            rw [hrun]
            refine ih st2 hGI2 ?_
            have hlen1 : pr.2.length + 1 = st.openHeap.length :=
              popMin_length st.openHeap pr.1 pr.2 (by rw [hp])
            have hphi1 : Robopath.phi width height
                { st with openHeap := pr.2, expanded := st.expanded + 1 } =
                Robopath.phi width height st := rfl
            rw [Robopath.mu] at hmu ⊢
            rw [hphi1] at hmu2
            dsimp only at hmu2
            push_cast at hmu hmu2 ⊢
            omega

/-- Helper: from an in-bounds start the whole search terminates without
raising, for any goal, bounds and blocked set. -/
theorem astar_terminates (start goal : Robopath.Point) (width height : Int)
    (blocked : List Robopath.Point)
    (hs : Robopath.inBounds width height start) :
    ∃ (fuel : Nat) (r : Robopath.AResult),
      Robopath.astar fuel start goal width height blocked = some (.ok r) := by
  have hGI : Robopath.GInv width height (Robopath.astarInit start goal) := by
    refine ⟨?_, ?_, ?_, ?_, ?_, ?_⟩
    · simp [Robopath.astarInit]
    · intro p hp
      rcases List.mem_singleton.mp hp with rfl
      exact hs
    · intro p hp
      rcases List.mem_singleton.mp hp with rfl
      constructor
      · exact le_refl 0
      · simp [Robopath.astarInit]
    · intro e he
      rcases List.mem_singleton.mp he with rfl
      simp [Robopath.astarInit, List.lookup]
    · intro p hp q hq
      rcases List.mem_singleton.mp hp with rfl
      cases hq
    · intro k hk
      simp only [Robopath.astarInit, List.lookup] at hk ⊢
      cases hks : (k == start) with
      | true => rfl
      | false => rw [hks] at hk; cases hk
  obtain ⟨r, hr⟩ := astarLoop_term goal width height blocked
    ((Robopath.mu width height (Robopath.astarInit start goal)).toNat + 1)
    (Robopath.astarInit start goal) hGI (by
      have hle := Int.self_le_toNat
        (Robopath.mu width height (Robopath.astarInit start goal))
      push_cast
      omega)
  exact ⟨_, r, hr⟩

/-- Helper: a chain-shaped list is a `GridChain` from its head. -/
theorem chain_to_gridChain (width height : Int) (blocked : List Robopath.Point) :
    ∀ (t : List Robopath.Point) (s : Robopath.Point),
      (s :: t).Chain' (Robopath.GridStep width height blocked) →
      Robopath.GridChain width height blocked s t := by
  intro t
  induction t with
  | nil => intro s _; trivial
  | cons b rest ih =>
      intro s hc
      rw [List.chain'_cons] at hc
      exact ⟨hc.1, ih b hc.2⟩

/-- Helper: a chain with a non-trivial tail ends with a step into its
last element. -/
theorem chain_last_step {α : Type} (R : α → α → Prop) :
    ∀ (t : List α) (s g : α), t ≠ [] → (s :: t).Chain' R →
      (s :: t).getLast? = some g → ∃ x, R x g := by
  intro t
  induction t with
  | nil =>
      intro s g hne _ _
      exact absurd rfl hne
  | cons b rest ih =>
      intro s g _ hc hlast
      rw [List.chain'_cons] at hc
      cases rest with
      | nil =>
          have hbg : b = g := by simpa using hlast
          exact ⟨s, hbg ▸ hc.1⟩
      | cons c t2 =>
          exact ih b g (by simp) hc.2
            (by simpa [List.getLast?_cons_cons] using hlast)

/-- Helper: removing a present counter shrinks the frontier by one. -/
theorem removeSEntry_length (c : Nat) :
    ∀ l : List Week3.SEntry, (∃ x ∈ l, x.2.1 = c) →
      (Week3.removeSEntry c l).length + 1 = l.length := by
  intro l
  induction l with
  | nil => rintro ⟨x, hx, -⟩; cases hx
  | cons f rest ih =>
      rintro ⟨x, hx, hxc⟩
      rw [Week3.removeSEntry]
      by_cases hf : f.2.1 = c
      · rw [if_pos hf]
        rfl
      · rw [if_neg hf]
        rcases List.mem_cons.mp hx with rfl | hx'
        · exact absurd hxc hf
        · rw [List.length_cons, List.length_cons, ih ⟨x, hx', hxc⟩]

/-- Helper: a puzzle pop shrinks the frontier by one. -/
theorem popMinS_length (l : List Week3.SEntry) (e : Week3.SEntry)
    (rest : List Week3.SEntry) (h : Week3.popMinS l = some (e, rest)) :
    rest.length + 1 = l.length := by
  cases l with
  | nil => cases h
  | cons f fs =>
      rw [Week3.popMinS] at h
      cases h
      exact removeSEntry_length _ _ ⟨_, minSEntry_mem f fs, rfl⟩

/-- Helper: the tiles of the generated moves are exactly the generated
successors of the generating state's tiles. -/
theorem getMoves_map_tiles (s : Week3.PuzzleState) :
    s.getMoves.map Week3.PuzzleState.tiles = Week3.succTiles s.tiles := by
  cases s with
  | mk t m p dd =>
      simp only [Week3.PuzzleState.getMoves, Week3.succTiles,
        Week3.PuzzleState.tiles, Week3.PuzzleState.moves, List.map_filterMap]
      congr 1
      funext d
      split <;> rfl

/-- Helper: the tiles of a generated move are a generated successor of
the generating state's tiles. -/
theorem tiles_mem_succTiles (s x : Week3.PuzzleState) (hx : x ∈ s.getMoves) :
    x.tiles ∈ Week3.succTiles s.tiles := by
  rw [← getMoves_map_tiles]
  exact List.mem_map_of_mem _ hx

/-- Helper: distinct permutations of one list are no more numerous than
its permutations. -/
theorem visited_le_perms (l : List Int) (vis : List (List Int))
    (hnd : vis.Nodup) (hperm : ∀ t ∈ vis, t.Perm l) :
    vis.length ≤ l.permutations.length := by
  have hcard := List.toFinset_card_of_nodup hnd
  have hsub : vis.toFinset ⊆ l.permutations.toFinset := by
    intro x hx
    rw [List.mem_toFinset] at hx ⊢
    exact List.mem_permutations.mpr (hperm x hx)
  have h1 := Finset.card_le_card hsub
  have h2 := List.toFinset_card_le (l := l.permutations)
  omega

/-- Helper: the enqueue loop preserves the puzzle invariants and does
not increase the measure. -/
theorem enqueueMoves_inv (l : List Int) (hl0 : (0 : Int) ∈ l)
    (hlen : l.length = 9) (current : Week3.PuzzleState)
    (hcp : current.tiles.Perm l) :
    ∀ ms : List Week3.PuzzleState, (∀ x ∈ ms, x ∈ current.getMoves) →
      ∀ st : Week3.SState, Week3.PInv l st →
        Week3.PInv l (Week3.enqueueMoves ms st) ∧
          Week3.nuP l (Week3.enqueueMoves ms st) ≤ Week3.nuP l st := by
  intro ms
  induction ms with
  | nil => intro _ st hinv; exact ⟨hinv, le_refl _⟩
  | cons nxt rest ih =>
      intro hms st hinv
      have hrest : ∀ x ∈ rest, x ∈ current.getMoves :=
        fun x hx => hms x (List.mem_cons_of_mem _ hx)
      rw [Week3.enqueueMoves]
      by_cases hv : nxt.tiles ∈ st.visited
      · rw [if_pos hv]
        exact ih hrest st hinv
      · rw [if_neg hv]
        obtain ⟨hnd, hvp, hop⟩ := hinv
        have hnt : nxt.tiles ∈ Week3.succTiles current.tiles :=
          tiles_mem_succTiles current nxt (hms nxt (List.mem_cons_self _ _))
        have h0c : (0 : Int) ∈ current.tiles := (hcp.mem_iff).mpr hl0
        have hlc : current.tiles.length = 9 := hcp.length_eq.trans hlen
        have hntp : nxt.tiles.Perm l :=
          ((succTiles_spec current.tiles nxt.tiles h0c hlc hnt).2.2.2).trans hcp
        have hinv1 : Week3.PInv l
            { st with
              visited := nxt.tiles :: st.visited
              openSet := ((nxt.moves : Int) + nxt.heuristic, st.counter, nxt) ::
                st.openSet
              counter := st.counter + 1
              pushLog := st.pushLog ++ [((nxt.moves : Int) + nxt.heuristic,
                st.counter)] } := by
          refine ⟨List.nodup_cons.mpr ⟨hv, hnd⟩, ?_, ?_⟩
          · intro t ht
            rcases List.mem_cons.mp ht with rfl | ht'
            · exact hntp
            · exact hvp t ht'
          · intro e he
            rcases List.mem_cons.mp he with rfl | he'
            · exact hntp
            · exact hop e he'
        obtain ⟨hinv2, hnu2⟩ := ih hrest _ hinv1
        refine ⟨hinv2, le_trans hnu2 ?_⟩
        rw [Week3.nuP, Week3.nuP]
        dsimp only
        simp only [List.length_cons]
        push_cast
        omega

/-- Helper: the puzzle loop terminates when the fuel exceeds the
measure. -/
theorem solveLoop_term (l : List Int) :
    ∀ (fuel : Nat) (st : Week3.SState),
      (0 : Int) ∈ l → l.length = 9 →
      Week3.PInv l st → Week3.nuP l st < (fuel : Int) →
      (Week3.solveLoop fuel st).isSome = true := by
  intro fuel
  induction fuel with
  | zero =>
      intro st hl0 hlen hinv hnu
      obtain ⟨hnd, hvp, hop⟩ := hinv
      have hle := visited_le_perms l st.visited hnd hvp
      rw [Week3.nuP] at hnu
      have hos : (0 : Int) ≤ (st.openSet.length : Int) := by positivity
      push_cast at hnu
      omega
  | succ n ih =>
      intro st hl0 hlen hinv hnu
      rw [Week3.solveLoop]
      cases hp : Week3.popMinS st.openSet with
      | none => rfl
      | some pr =>
          dsimp only
          by_cases hg : pr.1.2.2.isGoal = true
          · rw [if_pos hg]
            rfl
          · rw [if_neg hg]
            obtain ⟨hnd, hvp, hop⟩ := hinv
            have hcurp : pr.1.2.2.tiles.Perm l :=
              hop pr.1 (popMinS_mem _ _ _ (by rw [hp]))
            obtain ⟨hinv1, hnu1⟩ := enqueueMoves_inv l hl0 hlen pr.1.2.2 hcurp
              pr.1.2.2.getMoves (fun x hx => hx)
              { st with openSet := pr.2,
                        nodesExpanded := st.nodesExpanded + 1 }
              ⟨hnd, hvp, fun e he =>
                hop e (popMinS_rest_subset _ _ _ (by rw [hp]) e he)⟩
            refine ih _ hl0 hlen hinv1 ?_
            have hlen1 : pr.2.length + 1 = st.openSet.length :=
              popMinS_length _ _ _ (by rw [hp])
            have hnust1 : Week3.nuP l
                { st with openSet := pr.2,
                          nodesExpanded := st.nodesExpanded + 1 } + 1 =
                Week3.nuP l st := by
              rw [Week3.nuP, Week3.nuP]
              dsimp only
              push_cast
              omega
            push_cast at hnu ⊢
            omega

/-- Helper: on a constructor-validated solver the whole search
terminates. -/
theorem solve_terminates (lst : List Int) (sv : Week3.EightPuzzleSolver)
    (hmk : Week3.mkSolver lst = some sv) :
    ∃ (fuel : Nat) (r : Week3.SResult × Week3.SState),
      Week3.solve fuel sv = some r := by
  have hperm : lst.Perm [0, 1, 2, 3, 4, 5, 6, 7, 8] := by
    have hiff := mkSolver_isSome_iff lst
    rw [hmk] at hiff
    exact hiff.mp rfl
  have hl0 : (0 : Int) ∈ lst := hperm.mem_iff.mpr (by decide)
  have hlen : lst.length = 9 := hperm.length_eq.trans (by decide)
  obtain ⟨hinit, -⟩ := mkSolver_eq_some lst sv hmk
  refine ⟨(Week3.nuP lst (Week3.solveInit sv)).toNat + 1, ?_⟩
  rw [Week3.solve]
  by_cases hg : sv.initialState.isGoal = true
  · rw [if_pos hg]
    exact ⟨_, rfl⟩
  · rw [if_neg hg]
    have hinv : Week3.PInv lst (Week3.solveInit sv) := by
      refine ⟨List.nodup_singleton _, ?_, ?_⟩
      · intro t ht
        rcases List.mem_singleton.mp ht with rfl
        rw [hinit]
        exact List.Perm.refl _
      · intro e he
        rcases List.mem_singleton.mp he with rfl
        rw [hinit]
        exact List.Perm.refl _
    have hlt : Week3.nuP lst (Week3.solveInit sv) <
        (((Week3.nuP lst (Week3.solveInit sv)).toNat + 1 : Nat) : Int) := by
      have hle := Int.self_le_toNat (Week3.nuP lst (Week3.solveInit sv))
      push_cast
      omega
    have hsome := solveLoop_term lst _ (Week3.solveInit sv) hl0 hlen hinv hlt
    obtain ⟨r, hr⟩ := Option.isSome_iff_exists.mp hsome
    exact ⟨r, hr⟩

/-- Helper: the element at the index of a present value is that value. -/
theorem getD_indexOf_mem (l : List Int) (v : Int) (h : v ∈ l) :
    l.getD (List.indexOf v l) 0 = v := by
  induction l with
  | nil => cases h
  | cons a rest ih =>
      by_cases ha : a = v
      · subst ha
        simp
      · rcases List.mem_cons.mp h with h' | h'
        · exact absurd h'.symm ha
        · have hne : a ≠ v := ha
          simp only [List.indexOf_cons_ne _ hne, List.getD_cons_succ]
          exact ih h'

/-- Helper: `getD` at an in-range index is the indexed element. -/
theorem getD_eq_elem (l : List Int) (i : Nat) (hil : i < l.length) :
    l.getD i 0 = l[i] := by
  rw [List.getD_eq_getElem?_getD, List.getElem?_eq_getElem hil]
  rfl

/-- Helper: in a duplicate-free list a zero at one position rules out a
zero anywhere else. -/
theorem nodup_getD_ne (l : List Int) (hnd : l.Nodup) (p i : Nat)
    (hpl : p < l.length) (hil : i < l.length) (hip : i ≠ p)
    (h0 : l.getD p 0 = 0) : l.getD i 0 ≠ 0 := by
  intro hi0
  rw [getD_eq_elem l p hpl] at h0
  rw [getD_eq_elem l i hil] at hi0
  have heq : l[i] = l[p] := by rw [hi0, h0]
  exact hip ((List.Nodup.getElem_inj_iff hnd).mp heq)

/-- Helper: a heuristic value of zero on a permutation of the goal
arrangement forces the goal arrangement itself. -/
theorem heuristicT_zero_goal (t : List Int) (hp : t.Perm Week3.goalTiles)
    (h : Week3.heuristicT t = 0) : t = Week3.goalTiles := by
  have hlen : t.length = 9 := hp.length_eq.trans (by decide)
  obtain ⟨b0, b1, b2, b3, b4, b5, b6, b7, b8, rfl⟩ := list_eq_nine t hlen
  rw [heuristicT_explicit] at h
  have hn0 := tileTerm_nonneg b0 0
  have hn1 := tileTerm_nonneg b1 1
  have hn2 := tileTerm_nonneg b2 2
  have hn3 := tileTerm_nonneg b3 3
  have hn4 := tileTerm_nonneg b4 4
  have hn5 := tileTerm_nonneg b5 5
  have hn6 := tileTerm_nonneg b6 6
  have hn7 := tileTerm_nonneg b7 7
  have hn8 := tileTerm_nonneg b8 8
  have key : ∀ (i : Nat) (bi : Int), Week3.tileTerm bi i = 0 → bi ≠ 0 →
      bi ∈ Week3.goalTiles → Week3.goalTiles.getD i 0 = bi := by
    intro i bi hterm hne hmem
    rw [Week3.tileTerm, if_pos hne] at hterm
    have hidx : Week3.goalTiles.indexOf bi = i := by
      rw [Week3.posDist] at hterm
      have ha1 := abs_nonneg (((i : Int)) / 3 -
        ((Week3.goalTiles.indexOf bi : Int)) / 3)
      have ha2 := abs_nonneg (((i : Int)) % 3 -
        ((Week3.goalTiles.indexOf bi : Int)) % 3)
      have hz1 : |((i : Int)) / 3 -
          ((Week3.goalTiles.indexOf bi : Int)) / 3| = 0 := by omega
      have hz2 : |((i : Int)) % 3 -
          ((Week3.goalTiles.indexOf bi : Int)) % 3| = 0 := by omega
      rw [abs_eq_zero] at hz1 hz2
      omega
    have hgd := getD_indexOf_mem Week3.goalTiles bi hmem
    rw [hidx] at hgd
    exact hgd
  have hb8 : b8 = 0 := by
    by_cases h8 : b8 = 0
    · exact h8
    · have ht8 : Week3.tileTerm b8 8 = 0 := by linarith
      have hgd := key 8 b8 ht8 h8 (hp.subset (by simp))
      exact absurd hgd.symm h8
  subst hb8
  have hnd : List.Nodup [b0, b1, b2, b3, b4, b5, b6, b7, 0] :=
    (hp.nodup_iff).mpr (by decide)
  have hmm : ∀ i : Nat, i < 9 →
      [b0, b1, b2, b3, b4, b5, b6, b7, (0 : Int)].getD i 0 ∈ Week3.goalTiles := by
    intro i hi
    refine hp.subset ?_
    rw [getD_eq_elem _ i (by simpa using hi)]
    exact List.getElem_mem _
  have hne0 : b0 ≠ 0 := nodup_getD_ne _ hnd 8 0 (by simp) (by simp) (by omega) rfl
  have hne1 : b1 ≠ 0 := nodup_getD_ne _ hnd 8 1 (by simp) (by simp) (by omega) rfl
  have hne2 : b2 ≠ 0 := nodup_getD_ne _ hnd 8 2 (by simp) (by simp) (by omega) rfl
  have hne3 : b3 ≠ 0 := nodup_getD_ne _ hnd 8 3 (by simp) (by simp) (by omega) rfl
  have hne4 : b4 ≠ 0 := nodup_getD_ne _ hnd 8 4 (by simp) (by simp) (by omega) rfl
  have hne5 : b5 ≠ 0 := nodup_getD_ne _ hnd 8 5 (by simp) (by simp) (by omega) rfl
  have hne6 : b6 ≠ 0 := nodup_getD_ne _ hnd 8 6 (by simp) (by simp) (by omega) rfl
  have hne7 : b7 ≠ 0 := nodup_getD_ne _ hnd 8 7 (by simp) (by simp) (by omega) rfl
  have hb0 : b0 = 1 := (key 0 b0 (by linarith) hne0 (hmm 0 (by omega))).symm
  have hb1 : b1 = 2 := (key 1 b1 (by linarith) hne1 (hmm 1 (by omega))).symm
  have hb2 : b2 = 3 := (key 2 b2 (by linarith) hne2 (hmm 2 (by omega))).symm
  have hb3 : b3 = 4 := (key 3 b3 (by linarith) hne3 (hmm 3 (by omega))).symm
  have hb4 : b4 = 5 := (key 4 b4 (by linarith) hne4 (hmm 4 (by omega))).symm
  have hb5 : b5 = 6 := (key 5 b5 (by linarith) hne5 (hmm 5 (by omega))).symm
  have hb6 : b6 = 7 := (key 6 b6 (by linarith) hne6 (hmm 6 (by omega))).symm
  have hb7 : b7 = 8 := (key 7 b7 (by linarith) hne7 (hmm 7 (by omega))).symm
  rw [hb0, hb1, hb2, hb3, hb4, hb5, hb6, hb7]
  rfl

/-- Helper: a state-level chain of moves maps to a tile-level chain. -/
theorem chain_to_moveChain :
    ∀ (tail : List Week3.PuzzleState) (s : Week3.PuzzleState),
      (s :: tail).Chain' (fun a x => x ∈ a.getMoves) →
      Week3.MoveChain s.tiles (tail.map Week3.PuzzleState.tiles) := by
  intro tail
  induction tail with
  | nil => intro s _; trivial
  | cons b rest ih =>
      intro s hc
      rw [List.chain'_cons] at hc
      exact ⟨tiles_mem_succTiles s b hc.1, ih b hc.2⟩

/-- Helper: the endpoint of a tile-level chain from a valid arrangement
is a permutation of that arrangement. -/
theorem moveChain_last_perm :
    ∀ (c : List (List Int)) (t x : List Int), (0 : Int) ∈ t → t.length = 9 →
      Week3.MoveChain t c → (t :: c).getLast? = some x → x.Perm t := by
  intro c
  induction c with
  | nil =>
      intro t x _ _ _ hlast
      have : t = x := by simpa using hlast
      subst this
      exact List.Perm.refl _
  | cons b rest ih =>
      intro t x h0 hlen hchain hlast
      obtain ⟨hb, hrest⟩ := hchain
      obtain ⟨-, h0b, hlenb, hperm⟩ := succTiles_spec t b h0 hlen hb
      have hlast' : (b :: rest).getLast? = some x := by
        simpa [List.getLast?_cons_cons] using hlast
      exact (ih b x h0b hlenb hrest hlast').trans hperm

/-- Helper: an inversion indicator against a trailing blank is zero. -/
theorem invPair_zero_right (x : Int) (hx : x ≤ 8) : Week3.invPair x 0 = 0 := by
  simp only [Week3.invPair, Week3.keyV]
  split_ifs <;> omega

/-- Helper: an inversion indicator of a leading blank against a tile is one. -/
theorem invPair_zero_left (y : Int) (hy0 : y ≠ 0) (hy8 : y ≤ 8) :
    Week3.invPair 0 y = 1 := by
  simp only [Week3.invPair, Week3.keyV]
  split_ifs <;> omega

/-- Helper: the two inversion indicators of a distinct in-range pair sum
to one. -/
theorem invPair_antisymm (x y : Int) (hxy : x ≠ y) (hx : 0 ≤ x ∧ x ≤ 8)
    (hy : 0 ≤ y ∧ y ≤ 8) : Week3.invPair x y + Week3.invPair y x = 1 := by
  simp only [Week3.invPair, Week3.keyV]
  split_ifs <;> omega

/-- Helper: distinct positions of a duplicate-free list hold distinct
values, phrased through `getD`. -/
theorem nodup_getD_pair_ne (l : List Int) (hnd : l.Nodup) (i j : Nat)
    (hil : i < l.length) (hjl : j < l.length) (hij : i ≠ j) :
    l.getD i 0 ≠ l.getD j 0 := by
  intro he
  rw [getD_eq_elem l i hil, getD_eq_elem l j hjl] at he
  exact hij ((List.Nodup.getElem_inj_iff hnd).mp he)

/-- Helper: in a duplicate-free list the index of the blank is the unique
position holding it. -/
theorem nodup_indexOf_zero (l : List Int) (hnd : l.Nodup) (p : Nat)
    (hpl : p < l.length) (h0 : l.getD p 0 = 0) : List.indexOf 0 l = p := by
  have hmem : (0 : Int) ∈ l := by
    rw [getD_eq_elem l p hpl] at h0
    exact h0 ▸ List.getElem_mem _
  have hidx : List.indexOf 0 l < l.length := List.indexOf_lt_length.mpr hmem
  have hg : l.getD (List.indexOf 0 l) 0 = 0 := getD_indexOf_mem l 0 hmem
  rw [getD_eq_elem _ _ hidx] at hg
  rw [getD_eq_elem _ _ hpl] at h0
  exact (List.Nodup.getElem_inj_iff hnd).mp (hg.trans h0.symm)
set_option maxHeartbeats 2000000 in
/-- Helper: every legal move preserves the solvability parity. -/
theorem parity_succ (t tn : List Int) (hperm : t.Perm Week3.goalTiles)
    (hmem : tn ∈ Week3.succTiles t) : Week3.parity tn = Week3.parity t := by
  have h0 : (0 : Int) ∈ t := hperm.mem_iff.mpr (by decide)
  have hlen : t.length = 9 := hperm.length_eq.trans (by decide)
  obtain ⟨-, -, -, hpermn⟩ := succTiles_spec t tn h0 hlen hmem
  have hnd : t.Nodup := (hperm.nodup_iff).mpr (by decide)
  have hndn : tn.Nodup := (hpermn.nodup_iff).mpr hnd
  have hrange : ∀ v ∈ Week3.goalTiles, 0 ≤ v ∧ v ≤ 8 := by decide
  obtain ⟨b0, b1, b2, b3, b4, b5, b6, b7, b8, rfl⟩ := list_eq_nine _ hlen
  have hget := getD_indexOf_zero _ h0
  have hplt : List.indexOf (0 : Int) [b0, b1, b2, b3, b4, b5, b6, b7, b8] < 9 := by
    have hq := List.indexOf_lt_length.mpr h0
    simpa using hq
  have hcases : List.indexOf (0 : Int) [b0, b1, b2, b3, b4, b5, b6, b7, b8] = 0 ∨ List.indexOf (0 : Int) [b0, b1, b2, b3, b4, b5, b6, b7, b8] = 1 ∨ List.indexOf (0 : Int) [b0, b1, b2, b3, b4, b5, b6, b7, b8] = 2 ∨ List.indexOf (0 : Int) [b0, b1, b2, b3, b4, b5, b6, b7, b8] = 3 ∨ List.indexOf (0 : Int) [b0, b1, b2, b3, b4, b5, b6, b7, b8] = 4 ∨ List.indexOf (0 : Int) [b0, b1, b2, b3, b4, b5, b6, b7, b8] = 5 ∨ List.indexOf (0 : Int) [b0, b1, b2, b3, b4, b5, b6, b7, b8] = 6 ∨ List.indexOf (0 : Int) [b0, b1, b2, b3, b4, b5, b6, b7, b8] = 7 ∨ List.indexOf (0 : Int) [b0, b1, b2, b3, b4, b5, b6, b7, b8] = 8 := by omega
  rcases hcases with h | h | h | h | h | h | h | h | h
  · rw [h] at hget
    have hb : b0 = 0 := hget
    subst hb
    rw [succTiles_blank0 b1 b2 b3 b4 b5 b6 b7 b8 h] at hmem
    simp only [List.mem_cons, List.not_mem_nil, or_false] at hmem
    have hr1 : 0 ≤ b1 ∧ b1 ≤ 8 := hrange b1 (hperm.subset (by simp))
    have hr2 : 0 ≤ b2 ∧ b2 ≤ 8 := hrange b2 (hperm.subset (by simp))
    have hr3 : 0 ≤ b3 ∧ b3 ≤ 8 := hrange b3 (hperm.subset (by simp))
    have hr4 : 0 ≤ b4 ∧ b4 ≤ 8 := hrange b4 (hperm.subset (by simp))
    have hr5 : 0 ≤ b5 ∧ b5 ≤ 8 := hrange b5 (hperm.subset (by simp))
    have hr6 : 0 ≤ b6 ∧ b6 ≤ 8 := hrange b6 (hperm.subset (by simp))
    have hr7 : 0 ≤ b7 ∧ b7 ≤ 8 := hrange b7 (hperm.subset (by simp))
    have hr8 : 0 ≤ b8 ∧ b8 ≤ 8 := hrange b8 (hperm.subset (by simp))
    have hnz1 : b1 ≠ 0 := nodup_getD_ne _ hnd 0 1 (by simp) (by simp) (by decide) rfl
    have hnz2 : b2 ≠ 0 := nodup_getD_ne _ hnd 0 2 (by simp) (by simp) (by decide) rfl
    have hnz3 : b3 ≠ 0 := nodup_getD_ne _ hnd 0 3 (by simp) (by simp) (by decide) rfl
    have hnz4 : b4 ≠ 0 := nodup_getD_ne _ hnd 0 4 (by simp) (by simp) (by decide) rfl
    have hnz5 : b5 ≠ 0 := nodup_getD_ne _ hnd 0 5 (by simp) (by simp) (by decide) rfl
    have hnz6 : b6 ≠ 0 := nodup_getD_ne _ hnd 0 6 (by simp) (by simp) (by decide) rfl
    have hnz7 : b7 ≠ 0 := nodup_getD_ne _ hnd 0 7 (by simp) (by simp) (by decide) rfl
    have hnz8 : b8 ≠ 0 := nodup_getD_ne _ hnd 0 8 (by simp) (by simp) (by decide) rfl
    have ez1l : Week3.invPair 0 b1 = 1 := invPair_zero_left b1 hnz1 hr1.2
    have ez2l : Week3.invPair 0 b2 = 1 := invPair_zero_left b2 hnz2 hr2.2
    have ez3l : Week3.invPair 0 b3 = 1 := invPair_zero_left b3 hnz3 hr3.2
    have ez4l : Week3.invPair 0 b4 = 1 := invPair_zero_left b4 hnz4 hr4.2
    have ez5l : Week3.invPair 0 b5 = 1 := invPair_zero_left b5 hnz5 hr5.2
    have ez6l : Week3.invPair 0 b6 = 1 := invPair_zero_left b6 hnz6 hr6.2
    have ez7l : Week3.invPair 0 b7 = 1 := invPair_zero_left b7 hnz7 hr7.2
    have ez8l : Week3.invPair 0 b8 = 1 := invPair_zero_left b8 hnz8 hr8.2
    have ez1r : Week3.invPair b1 0 = 0 := invPair_zero_right b1 hr1.2
    have ez2r : Week3.invPair b2 0 = 0 := invPair_zero_right b2 hr2.2
    have ez3r : Week3.invPair b3 0 = 0 := invPair_zero_right b3 hr3.2
    have ez4r : Week3.invPair b4 0 = 0 := invPair_zero_right b4 hr4.2
    have ez5r : Week3.invPair b5 0 = 0 := invPair_zero_right b5 hr5.2
    have ez6r : Week3.invPair b6 0 = 0 := invPair_zero_right b6 hr6.2
    have ez7r : Week3.invPair b7 0 = 0 := invPair_zero_right b7 hr7.2
    have ez8r : Week3.invPair b8 0 = 0 := invPair_zero_right b8 hr8.2
    have hidxt : List.indexOf (0 : Int) [0, b1, b2, b3, b4, b5, b6, b7, b8] = 0 :=
      nodup_indexOf_zero _ hnd 0 (by simp) rfl
    rcases hmem with rfl | rfl
    · have hidxn : List.indexOf (0 : Int) [b3, b1, b2, 0, b4, b5, b6, b7, b8] = 3 :=
        nodup_indexOf_zero _ hndn 3 (by simp) rfl
      have ha1 : Week3.invPair b3 b1 + Week3.invPair b1 b3 = 1 :=
        invPair_antisymm b3 b1
          (nodup_getD_pair_ne _ hnd 3 1 (by simp) (by simp) (by decide)) hr3 hr1
      have ha2 : Week3.invPair b3 b2 + Week3.invPair b2 b3 = 1 :=
        invPair_antisymm b3 b2
          (nodup_getD_pair_ne _ hnd 3 2 (by simp) (by simp) (by decide)) hr3 hr2
      simp only [Week3.parity, hidxt, hidxn, Week3.inv9, List.map_cons,
        List.map_nil, List.sum_cons, List.sum_nil, ez1l, ez2l, ez3l, ez4l, ez5l, ez6l, ez7l, ez8l, ez1r, ez2r, ez3r, ez4r, ez5r, ez6r, ez7r, ez8r]
      omega
    · have hidxn : List.indexOf (0 : Int) [b1, 0, b2, b3, b4, b5, b6, b7, b8] = 1 :=
        nodup_indexOf_zero _ hndn 1 (by simp) rfl
      simp only [Week3.parity, hidxt, hidxn, Week3.inv9, List.map_cons,
        List.map_nil, List.sum_cons, List.sum_nil, ez1l, ez2l, ez3l, ez4l, ez5l, ez6l, ez7l, ez8l, ez1r, ez2r, ez3r, ez4r, ez5r, ez6r, ez7r, ez8r]
      omega
  · rw [h] at hget
    have hb : b1 = 0 := hget
    subst hb
    rw [succTiles_blank1 b0 b2 b3 b4 b5 b6 b7 b8 h] at hmem
    simp only [List.mem_cons, List.not_mem_nil, or_false] at hmem
    have hr0 : 0 ≤ b0 ∧ b0 ≤ 8 := hrange b0 (hperm.subset (by simp))
    have hr2 : 0 ≤ b2 ∧ b2 ≤ 8 := hrange b2 (hperm.subset (by simp))
    have hr3 : 0 ≤ b3 ∧ b3 ≤ 8 := hrange b3 (hperm.subset (by simp))
    have hr4 : 0 ≤ b4 ∧ b4 ≤ 8 := hrange b4 (hperm.subset (by simp))
    have hr5 : 0 ≤ b5 ∧ b5 ≤ 8 := hrange b5 (hperm.subset (by simp))
    have hr6 : 0 ≤ b6 ∧ b6 ≤ 8 := hrange b6 (hperm.subset (by simp))
    have hr7 : 0 ≤ b7 ∧ b7 ≤ 8 := hrange b7 (hperm.subset (by simp))
    have hr8 : 0 ≤ b8 ∧ b8 ≤ 8 := hrange b8 (hperm.subset (by simp))
    have hnz0 : b0 ≠ 0 := nodup_getD_ne _ hnd 1 0 (by simp) (by simp) (by decide) rfl
    have hnz2 : b2 ≠ 0 := nodup_getD_ne _ hnd 1 2 (by simp) (by simp) (by decide) rfl
    have hnz3 : b3 ≠ 0 := nodup_getD_ne _ hnd 1 3 (by simp) (by simp) (by decide) rfl
    have hnz4 : b4 ≠ 0 := nodup_getD_ne _ hnd 1 4 (by simp) (by simp) (by decide) rfl
    have hnz5 : b5 ≠ 0 := nodup_getD_ne _ hnd 1 5 (by simp) (by simp) (by decide) rfl
    have hnz6 : b6 ≠ 0 := nodup_getD_ne _ hnd 1 6 (by simp) (by simp) (by decide) rfl
    have hnz7 : b7 ≠ 0 := nodup_getD_ne _ hnd 1 7 (by simp) (by simp) (by decide) rfl
    have hnz8 : b8 ≠ 0 := nodup_getD_ne _ hnd 1 8 (by simp) (by simp) (by decide) rfl
    have ez0l : Week3.invPair 0 b0 = 1 := invPair_zero_left b0 hnz0 hr0.2
    have ez2l : Week3.invPair 0 b2 = 1 := invPair_zero_left b2 hnz2 hr2.2
    have ez3l : Week3.invPair 0 b3 = 1 := invPair_zero_left b3 hnz3 hr3.2
    have ez4l : Week3.invPair 0 b4 = 1 := invPair_zero_left b4 hnz4 hr4.2
    have ez5l : Week3.invPair 0 b5 = 1 := invPair_zero_left b5 hnz5 hr5.2
    have ez6l : Week3.invPair 0 b6 = 1 := invPair_zero_left b6 hnz6 hr6.2
    have ez7l : Week3.invPair 0 b7 = 1 := invPair_zero_left b7 hnz7 hr7.2
    have ez8l : Week3.invPair 0 b8 = 1 := invPair_zero_left b8 hnz8 hr8.2
    have ez0r : Week3.invPair b0 0 = 0 := invPair_zero_right b0 hr0.2
    have ez2r : Week3.invPair b2 0 = 0 := invPair_zero_right b2 hr2.2
    have ez3r : Week3.invPair b3 0 = 0 := invPair_zero_right b3 hr3.2
    have ez4r : Week3.invPair b4 0 = 0 := invPair_zero_right b4 hr4.2
    have ez5r : Week3.invPair b5 0 = 0 := invPair_zero_right b5 hr5.2
    have ez6r : Week3.invPair b6 0 = 0 := invPair_zero_right b6 hr6.2
    have ez7r : Week3.invPair b7 0 = 0 := invPair_zero_right b7 hr7.2
    have ez8r : Week3.invPair b8 0 = 0 := invPair_zero_right b8 hr8.2
    have hidxt : List.indexOf (0 : Int) [b0, 0, b2, b3, b4, b5, b6, b7, b8] = 1 :=
      nodup_indexOf_zero _ hnd 1 (by simp) rfl
    rcases hmem with rfl | rfl | rfl
    · have hidxn : List.indexOf (0 : Int) [b0, b4, b2, b3, 0, b5, b6, b7, b8] = 4 :=
        nodup_indexOf_zero _ hndn 4 (by simp) rfl
      have ha1 : Week3.invPair b4 b2 + Week3.invPair b2 b4 = 1 :=
        invPair_antisymm b4 b2
          (nodup_getD_pair_ne _ hnd 4 2 (by simp) (by simp) (by decide)) hr4 hr2
      have ha2 : Week3.invPair b4 b3 + Week3.invPair b3 b4 = 1 :=
        invPair_antisymm b4 b3
          (nodup_getD_pair_ne _ hnd 4 3 (by simp) (by simp) (by decide)) hr4 hr3
      simp only [Week3.parity, hidxt, hidxn, Week3.inv9, List.map_cons,
        List.map_nil, List.sum_cons, List.sum_nil, ez0l, ez2l, ez3l, ez4l, ez5l, ez6l, ez7l, ez8l, ez0r, ez2r, ez3r, ez4r, ez5r, ez6r, ez7r, ez8r]
      omega
    · have hidxn : List.indexOf (0 : Int) [0, b0, b2, b3, b4, b5, b6, b7, b8] = 0 :=
        nodup_indexOf_zero _ hndn 0 (by simp) rfl
      simp only [Week3.parity, hidxt, hidxn, Week3.inv9, List.map_cons,
        List.map_nil, List.sum_cons, List.sum_nil, ez0l, ez2l, ez3l, ez4l, ez5l, ez6l, ez7l, ez8l, ez0r, ez2r, ez3r, ez4r, ez5r, ez6r, ez7r, ez8r]
      omega
    · have hidxn : List.indexOf (0 : Int) [b0, b2, 0, b3, b4, b5, b6, b7, b8] = 2 :=
        nodup_indexOf_zero _ hndn 2 (by simp) rfl
      simp only [Week3.parity, hidxt, hidxn, Week3.inv9, List.map_cons,
        List.map_nil, List.sum_cons, List.sum_nil, ez0l, ez2l, ez3l, ez4l, ez5l, ez6l, ez7l, ez8l, ez0r, ez2r, ez3r, ez4r, ez5r, ez6r, ez7r, ez8r]
      omega
  · rw [h] at hget
    have hb : b2 = 0 := hget
    subst hb
    rw [succTiles_blank2 b0 b1 b3 b4 b5 b6 b7 b8 h] at hmem
    simp only [List.mem_cons, List.not_mem_nil, or_false] at hmem
    have hr0 : 0 ≤ b0 ∧ b0 ≤ 8 := hrange b0 (hperm.subset (by simp))
    have hr1 : 0 ≤ b1 ∧ b1 ≤ 8 := hrange b1 (hperm.subset (by simp))
    have hr3 : 0 ≤ b3 ∧ b3 ≤ 8 := hrange b3 (hperm.subset (by simp))
    have hr4 : 0 ≤ b4 ∧ b4 ≤ 8 := hrange b4 (hperm.subset (by simp))
    have hr5 : 0 ≤ b5 ∧ b5 ≤ 8 := hrange b5 (hperm.subset (by simp))
    have hr6 : 0 ≤ b6 ∧ b6 ≤ 8 := hrange b6 (hperm.subset (by simp))
    have hr7 : 0 ≤ b7 ∧ b7 ≤ 8 := hrange b7 (hperm.subset (by simp))
    have hr8 : 0 ≤ b8 ∧ b8 ≤ 8 := hrange b8 (hperm.subset (by simp))
    have hnz0 : b0 ≠ 0 := nodup_getD_ne _ hnd 2 0 (by simp) (by simp) (by decide) rfl
    have hnz1 : b1 ≠ 0 := nodup_getD_ne _ hnd 2 1 (by simp) (by simp) (by decide) rfl
    have hnz3 : b3 ≠ 0 := nodup_getD_ne _ hnd 2 3 (by simp) (by simp) (by decide) rfl
    have hnz4 : b4 ≠ 0 := nodup_getD_ne _ hnd 2 4 (by simp) (by simp) (by decide) rfl
    have hnz5 : b5 ≠ 0 := nodup_getD_ne _ hnd 2 5 (by simp) (by simp) (by decide) rfl
    have hnz6 : b6 ≠ 0 := nodup_getD_ne _ hnd 2 6 (by simp) (by simp) (by decide) rfl
    have hnz7 : b7 ≠ 0 := nodup_getD_ne _ hnd 2 7 (by simp) (by simp) (by decide) rfl
    have hnz8 : b8 ≠ 0 := nodup_getD_ne _ hnd 2 8 (by simp) (by simp) (by decide) rfl
    have ez0l : Week3.invPair 0 b0 = 1 := invPair_zero_left b0 hnz0 hr0.2
    have ez1l : Week3.invPair 0 b1 = 1 := invPair_zero_left b1 hnz1 hr1.2
    have ez3l : Week3.invPair 0 b3 = 1 := invPair_zero_left b3 hnz3 hr3.2
    have ez4l : Week3.invPair 0 b4 = 1 := invPair_zero_left b4 hnz4 hr4.2
    have ez5l : Week3.invPair 0 b5 = 1 := invPair_zero_left b5 hnz5 hr5.2
    have ez6l : Week3.invPair 0 b6 = 1 := invPair_zero_left b6 hnz6 hr6.2
    have ez7l : Week3.invPair 0 b7 = 1 := invPair_zero_left b7 hnz7 hr7.2
    have ez8l : Week3.invPair 0 b8 = 1 := invPair_zero_left b8 hnz8 hr8.2
    have ez0r : Week3.invPair b0 0 = 0 := invPair_zero_right b0 hr0.2
    have ez1r : Week3.invPair b1 0 = 0 := invPair_zero_right b1 hr1.2
    have ez3r : Week3.invPair b3 0 = 0 := invPair_zero_right b3 hr3.2
    have ez4r : Week3.invPair b4 0 = 0 := invPair_zero_right b4 hr4.2
    have ez5r : Week3.invPair b5 0 = 0 := invPair_zero_right b5 hr5.2
    have ez6r : Week3.invPair b6 0 = 0 := invPair_zero_right b6 hr6.2
    have ez7r : Week3.invPair b7 0 = 0 := invPair_zero_right b7 hr7.2
    have ez8r : Week3.invPair b8 0 = 0 := invPair_zero_right b8 hr8.2
    have hidxt : List.indexOf (0 : Int) [b0, b1, 0, b3, b4, b5, b6, b7, b8] = 2 :=
      nodup_indexOf_zero _ hnd 2 (by simp) rfl
    rcases hmem with rfl | rfl
    · have hidxn : List.indexOf (0 : Int) [b0, b1, b5, b3, b4, 0, b6, b7, b8] = 5 :=
        nodup_indexOf_zero _ hndn 5 (by simp) rfl
      have ha1 : Week3.invPair b5 b3 + Week3.invPair b3 b5 = 1 :=
        invPair_antisymm b5 b3
          (nodup_getD_pair_ne _ hnd 5 3 (by simp) (by simp) (by decide)) hr5 hr3
      have ha2 : Week3.invPair b5 b4 + Week3.invPair b4 b5 = 1 :=
        invPair_antisymm b5 b4
          (nodup_getD_pair_ne _ hnd 5 4 (by simp) (by simp) (by decide)) hr5 hr4
      simp only [Week3.parity, hidxt, hidxn, Week3.inv9, List.map_cons,
        List.map_nil, List.sum_cons, List.sum_nil, ez0l, ez1l, ez3l, ez4l, ez5l, ez6l, ez7l, ez8l, ez0r, ez1r, ez3r, ez4r, ez5r, ez6r, ez7r, ez8r]
      omega
    · have hidxn : List.indexOf (0 : Int) [b0, 0, b1, b3, b4, b5, b6, b7, b8] = 1 :=
        nodup_indexOf_zero _ hndn 1 (by simp) rfl
      simp only [Week3.parity, hidxt, hidxn, Week3.inv9, List.map_cons,
        List.map_nil, List.sum_cons, List.sum_nil, ez0l, ez1l, ez3l, ez4l, ez5l, ez6l, ez7l, ez8l, ez0r, ez1r, ez3r, ez4r, ez5r, ez6r, ez7r, ez8r]
      omega
  · rw [h] at hget
    have hb : b3 = 0 := hget
    subst hb
    rw [succTiles_blank3 b0 b1 b2 b4 b5 b6 b7 b8 h] at hmem
    simp only [List.mem_cons, List.not_mem_nil, or_false] at hmem
    have hr0 : 0 ≤ b0 ∧ b0 ≤ 8 := hrange b0 (hperm.subset (by simp))
    have hr1 : 0 ≤ b1 ∧ b1 ≤ 8 := hrange b1 (hperm.subset (by simp))
    have hr2 : 0 ≤ b2 ∧ b2 ≤ 8 := hrange b2 (hperm.subset (by simp))
    have hr4 : 0 ≤ b4 ∧ b4 ≤ 8 := hrange b4 (hperm.subset (by simp))
    have hr5 : 0 ≤ b5 ∧ b5 ≤ 8 := hrange b5 (hperm.subset (by simp))
    have hr6 : 0 ≤ b6 ∧ b6 ≤ 8 := hrange b6 (hperm.subset (by simp))
    have hr7 : 0 ≤ b7 ∧ b7 ≤ 8 := hrange b7 (hperm.subset (by simp))
    have hr8 : 0 ≤ b8 ∧ b8 ≤ 8 := hrange b8 (hperm.subset (by simp))
    have hnz0 : b0 ≠ 0 := nodup_getD_ne _ hnd 3 0 (by simp) (by simp) (by decide) rfl
    have hnz1 : b1 ≠ 0 := nodup_getD_ne _ hnd 3 1 (by simp) (by simp) (by decide) rfl
    have hnz2 : b2 ≠ 0 := nodup_getD_ne _ hnd 3 2 (by simp) (by simp) (by decide) rfl
    have hnz4 : b4 ≠ 0 := nodup_getD_ne _ hnd 3 4 (by simp) (by simp) (by decide) rfl
    have hnz5 : b5 ≠ 0 := nodup_getD_ne _ hnd 3 5 (by simp) (by simp) (by decide) rfl
    have hnz6 : b6 ≠ 0 := nodup_getD_ne _ hnd 3 6 (by simp) (by simp) (by decide) rfl
    have hnz7 : b7 ≠ 0 := nodup_getD_ne _ hnd 3 7 (by simp) (by simp) (by decide) rfl
    have hnz8 : b8 ≠ 0 := nodup_getD_ne _ hnd 3 8 (by simp) (by simp) (by decide) rfl
    have ez0l : Week3.invPair 0 b0 = 1 := invPair_zero_left b0 hnz0 hr0.2
    have ez1l : Week3.invPair 0 b1 = 1 := invPair_zero_left b1 hnz1 hr1.2
    have ez2l : Week3.invPair 0 b2 = 1 := invPair_zero_left b2 hnz2 hr2.2
    have ez4l : Week3.invPair 0 b4 = 1 := invPair_zero_left b4 hnz4 hr4.2
    have ez5l : Week3.invPair 0 b5 = 1 := invPair_zero_left b5 hnz5 hr5.2
    have ez6l : Week3.invPair 0 b6 = 1 := invPair_zero_left b6 hnz6 hr6.2
    have ez7l : Week3.invPair 0 b7 = 1 := invPair_zero_left b7 hnz7 hr7.2
    have ez8l : Week3.invPair 0 b8 = 1 := invPair_zero_left b8 hnz8 hr8.2
    have ez0r : Week3.invPair b0 0 = 0 := invPair_zero_right b0 hr0.2
    have ez1r : Week3.invPair b1 0 = 0 := invPair_zero_right b1 hr1.2
    have ez2r : Week3.invPair b2 0 = 0 := invPair_zero_right b2 hr2.2
    have ez4r : Week3.invPair b4 0 = 0 := invPair_zero_right b4 hr4.2
    have ez5r : Week3.invPair b5 0 = 0 := invPair_zero_right b5 hr5.2
    have ez6r : Week3.invPair b6 0 = 0 := invPair_zero_right b6 hr6.2
    have ez7r : Week3.invPair b7 0 = 0 := invPair_zero_right b7 hr7.2
    have ez8r : Week3.invPair b8 0 = 0 := invPair_zero_right b8 hr8.2
    have hidxt : List.indexOf (0 : Int) [b0, b1, b2, 0, b4, b5, b6, b7, b8] = 3 :=
      nodup_indexOf_zero _ hnd 3 (by simp) rfl
    rcases hmem with rfl | rfl | rfl
    · have hidxn : List.indexOf (0 : Int) [0, b1, b2, b0, b4, b5, b6, b7, b8] = 0 :=
        nodup_indexOf_zero _ hndn 0 (by simp) rfl
      have ha1 : Week3.invPair b0 b1 + Week3.invPair b1 b0 = 1 :=
        invPair_antisymm b0 b1
          (nodup_getD_pair_ne _ hnd 0 1 (by simp) (by simp) (by decide)) hr0 hr1
      have ha2 : Week3.invPair b0 b2 + Week3.invPair b2 b0 = 1 :=
        invPair_antisymm b0 b2
          (nodup_getD_pair_ne _ hnd 0 2 (by simp) (by simp) (by decide)) hr0 hr2
      simp only [Week3.parity, hidxt, hidxn, Week3.inv9, List.map_cons,
        List.map_nil, List.sum_cons, List.sum_nil, ez0l, ez1l, ez2l, ez4l, ez5l, ez6l, ez7l, ez8l, ez0r, ez1r, ez2r, ez4r, ez5r, ez6r, ez7r, ez8r]
      omega
    · have hidxn : List.indexOf (0 : Int) [b0, b1, b2, b6, b4, b5, 0, b7, b8] = 6 :=
        nodup_indexOf_zero _ hndn 6 (by simp) rfl
      have ha1 : Week3.invPair b6 b4 + Week3.invPair b4 b6 = 1 :=
        invPair_antisymm b6 b4
          (nodup_getD_pair_ne _ hnd 6 4 (by simp) (by simp) (by decide)) hr6 hr4
      have ha2 : Week3.invPair b6 b5 + Week3.invPair b5 b6 = 1 :=
        invPair_antisymm b6 b5
          (nodup_getD_pair_ne _ hnd 6 5 (by simp) (by simp) (by decide)) hr6 hr5
      simp only [Week3.parity, hidxt, hidxn, Week3.inv9, List.map_cons,
        List.map_nil, List.sum_cons, List.sum_nil, ez0l, ez1l, ez2l, ez4l, ez5l, ez6l, ez7l, ez8l, ez0r, ez1r, ez2r, ez4r, ez5r, ez6r, ez7r, ez8r]
      omega
    · have hidxn : List.indexOf (0 : Int) [b0, b1, b2, b4, 0, b5, b6, b7, b8] = 4 :=
        nodup_indexOf_zero _ hndn 4 (by simp) rfl
      simp only [Week3.parity, hidxt, hidxn, Week3.inv9, List.map_cons,
        List.map_nil, List.sum_cons, List.sum_nil, ez0l, ez1l, ez2l, ez4l, ez5l, ez6l, ez7l, ez8l, ez0r, ez1r, ez2r, ez4r, ez5r, ez6r, ez7r, ez8r]
      omega
  · rw [h] at hget
    have hb : b4 = 0 := hget
    subst hb
    rw [succTiles_blank4 b0 b1 b2 b3 b5 b6 b7 b8 h] at hmem
    simp only [List.mem_cons, List.not_mem_nil, or_false] at hmem
    have hr0 : 0 ≤ b0 ∧ b0 ≤ 8 := hrange b0 (hperm.subset (by simp))
    have hr1 : 0 ≤ b1 ∧ b1 ≤ 8 := hrange b1 (hperm.subset (by simp))
    have hr2 : 0 ≤ b2 ∧ b2 ≤ 8 := hrange b2 (hperm.subset (by simp))
    have hr3 : 0 ≤ b3 ∧ b3 ≤ 8 := hrange b3 (hperm.subset (by simp))
    have hr5 : 0 ≤ b5 ∧ b5 ≤ 8 := hrange b5 (hperm.subset (by simp))
    have hr6 : 0 ≤ b6 ∧ b6 ≤ 8 := hrange b6 (hperm.subset (by simp))
    have hr7 : 0 ≤ b7 ∧ b7 ≤ 8 := hrange b7 (hperm.subset (by simp))
    have hr8 : 0 ≤ b8 ∧ b8 ≤ 8 := hrange b8 (hperm.subset (by simp))
    have hnz0 : b0 ≠ 0 := nodup_getD_ne _ hnd 4 0 (by simp) (by simp) (by decide) rfl
    have hnz1 : b1 ≠ 0 := nodup_getD_ne _ hnd 4 1 (by simp) (by simp) (by decide) rfl
    have hnz2 : b2 ≠ 0 := nodup_getD_ne _ hnd 4 2 (by simp) (by simp) (by decide) rfl
    have hnz3 : b3 ≠ 0 := nodup_getD_ne _ hnd 4 3 (by simp) (by simp) (by decide) rfl
    have hnz5 : b5 ≠ 0 := nodup_getD_ne _ hnd 4 5 (by simp) (by simp) (by decide) rfl
    have hnz6 : b6 ≠ 0 := nodup_getD_ne _ hnd 4 6 (by simp) (by simp) (by decide) rfl
    have hnz7 : b7 ≠ 0 := nodup_getD_ne _ hnd 4 7 (by simp) (by simp) (by decide) rfl
    have hnz8 : b8 ≠ 0 := nodup_getD_ne _ hnd 4 8 (by simp) (by simp) (by decide) rfl
    have ez0l : Week3.invPair 0 b0 = 1 := invPair_zero_left b0 hnz0 hr0.2
    have ez1l : Week3.invPair 0 b1 = 1 := invPair_zero_left b1 hnz1 hr1.2
    have ez2l : Week3.invPair 0 b2 = 1 := invPair_zero_left b2 hnz2 hr2.2
    have ez3l : Week3.invPair 0 b3 = 1 := invPair_zero_left b3 hnz3 hr3.2
    have ez5l : Week3.invPair 0 b5 = 1 := invPair_zero_left b5 hnz5 hr5.2
    have ez6l : Week3.invPair 0 b6 = 1 := invPair_zero_left b6 hnz6 hr6.2
    have ez7l : Week3.invPair 0 b7 = 1 := invPair_zero_left b7 hnz7 hr7.2
    have ez8l : Week3.invPair 0 b8 = 1 := invPair_zero_left b8 hnz8 hr8.2
    have ez0r : Week3.invPair b0 0 = 0 := invPair_zero_right b0 hr0.2
    have ez1r : Week3.invPair b1 0 = 0 := invPair_zero_right b1 hr1.2
    have ez2r : Week3.invPair b2 0 = 0 := invPair_zero_right b2 hr2.2
    have ez3r : Week3.invPair b3 0 = 0 := invPair_zero_right b3 hr3.2
    have ez5r : Week3.invPair b5 0 = 0 := invPair_zero_right b5 hr5.2
    have ez6r : Week3.invPair b6 0 = 0 := invPair_zero_right b6 hr6.2
    have ez7r : Week3.invPair b7 0 = 0 := invPair_zero_right b7 hr7.2
    have ez8r : Week3.invPair b8 0 = 0 := invPair_zero_right b8 hr8.2
    have hidxt : List.indexOf (0 : Int) [b0, b1, b2, b3, 0, b5, b6, b7, b8] = 4 :=
      nodup_indexOf_zero _ hnd 4 (by simp) rfl
    rcases hmem with rfl | rfl | rfl | rfl
    · have hidxn : List.indexOf (0 : Int) [b0, 0, b2, b3, b1, b5, b6, b7, b8] = 1 :=
        nodup_indexOf_zero _ hndn 1 (by simp) rfl
      have ha1 : Week3.invPair b1 b2 + Week3.invPair b2 b1 = 1 :=
        invPair_antisymm b1 b2
          (nodup_getD_pair_ne _ hnd 1 2 (by simp) (by simp) (by decide)) hr1 hr2
      have ha2 : Week3.invPair b1 b3 + Week3.invPair b3 b1 = 1 :=
        invPair_antisymm b1 b3
          (nodup_getD_pair_ne _ hnd 1 3 (by simp) (by simp) (by decide)) hr1 hr3
      simp only [Week3.parity, hidxt, hidxn, Week3.inv9, List.map_cons,
        List.map_nil, List.sum_cons, List.sum_nil, ez0l, ez1l, ez2l, ez3l, ez5l, ez6l, ez7l, ez8l, ez0r, ez1r, ez2r, ez3r, ez5r, ez6r, ez7r, ez8r]
      omega
    · have hidxn : List.indexOf (0 : Int) [b0, b1, b2, b3, b7, b5, b6, 0, b8] = 7 :=
        nodup_indexOf_zero _ hndn 7 (by simp) rfl
      have ha1 : Week3.invPair b7 b5 + Week3.invPair b5 b7 = 1 :=
        invPair_antisymm b7 b5
          (nodup_getD_pair_ne _ hnd 7 5 (by simp) (by simp) (by decide)) hr7 hr5
      have ha2 : Week3.invPair b7 b6 + Week3.invPair b6 b7 = 1 :=
        invPair_antisymm b7 b6
          (nodup_getD_pair_ne _ hnd 7 6 (by simp) (by simp) (by decide)) hr7 hr6
      simp only [Week3.parity, hidxt, hidxn, Week3.inv9, List.map_cons,
        List.map_nil, List.sum_cons, List.sum_nil, ez0l, ez1l, ez2l, ez3l, ez5l, ez6l, ez7l, ez8l, ez0r, ez1r, ez2r, ez3r, ez5r, ez6r, ez7r, ez8r]
      omega
    · have hidxn : List.indexOf (0 : Int) [b0, b1, b2, 0, b3, b5, b6, b7, b8] = 3 :=
        nodup_indexOf_zero _ hndn 3 (by simp) rfl
      simp only [Week3.parity, hidxt, hidxn, Week3.inv9, List.map_cons,
        List.map_nil, List.sum_cons, List.sum_nil, ez0l, ez1l, ez2l, ez3l, ez5l, ez6l, ez7l, ez8l, ez0r, ez1r, ez2r, ez3r, ez5r, ez6r, ez7r, ez8r]
      omega
    · have hidxn : List.indexOf (0 : Int) [b0, b1, b2, b3, b5, 0, b6, b7, b8] = 5 :=
        nodup_indexOf_zero _ hndn 5 (by simp) rfl
      simp only [Week3.parity, hidxt, hidxn, Week3.inv9, List.map_cons,
        List.map_nil, List.sum_cons, List.sum_nil, ez0l, ez1l, ez2l, ez3l, ez5l, ez6l, ez7l, ez8l, ez0r, ez1r, ez2r, ez3r, ez5r, ez6r, ez7r, ez8r]
      omega
  · rw [h] at hget
    have hb : b5 = 0 := hget
    subst hb
    rw [succTiles_blank5 b0 b1 b2 b3 b4 b6 b7 b8 h] at hmem
    simp only [List.mem_cons, List.not_mem_nil, or_false] at hmem
    have hr0 : 0 ≤ b0 ∧ b0 ≤ 8 := hrange b0 (hperm.subset (by simp))
    have hr1 : 0 ≤ b1 ∧ b1 ≤ 8 := hrange b1 (hperm.subset (by simp))
    have hr2 : 0 ≤ b2 ∧ b2 ≤ 8 := hrange b2 (hperm.subset (by simp))
    have hr3 : 0 ≤ b3 ∧ b3 ≤ 8 := hrange b3 (hperm.subset (by simp))
    have hr4 : 0 ≤ b4 ∧ b4 ≤ 8 := hrange b4 (hperm.subset (by simp))
    have hr6 : 0 ≤ b6 ∧ b6 ≤ 8 := hrange b6 (hperm.subset (by simp))
    have hr7 : 0 ≤ b7 ∧ b7 ≤ 8 := hrange b7 (hperm.subset (by simp))
    have hr8 : 0 ≤ b8 ∧ b8 ≤ 8 := hrange b8 (hperm.subset (by simp))
    have hnz0 : b0 ≠ 0 := nodup_getD_ne _ hnd 5 0 (by simp) (by simp) (by decide) rfl
    have hnz1 : b1 ≠ 0 := nodup_getD_ne _ hnd 5 1 (by simp) (by simp) (by decide) rfl
    have hnz2 : b2 ≠ 0 := nodup_getD_ne _ hnd 5 2 (by simp) (by simp) (by decide) rfl
    have hnz3 : b3 ≠ 0 := nodup_getD_ne _ hnd 5 3 (by simp) (by simp) (by decide) rfl
    have hnz4 : b4 ≠ 0 := nodup_getD_ne _ hnd 5 4 (by simp) (by simp) (by decide) rfl
    have hnz6 : b6 ≠ 0 := nodup_getD_ne _ hnd 5 6 (by simp) (by simp) (by decide) rfl
    have hnz7 : b7 ≠ 0 := nodup_getD_ne _ hnd 5 7 (by simp) (by simp) (by decide) rfl
    have hnz8 : b8 ≠ 0 := nodup_getD_ne _ hnd 5 8 (by simp) (by simp) (by decide) rfl
    have ez0l : Week3.invPair 0 b0 = 1 := invPair_zero_left b0 hnz0 hr0.2
    have ez1l : Week3.invPair 0 b1 = 1 := invPair_zero_left b1 hnz1 hr1.2
    have ez2l : Week3.invPair 0 b2 = 1 := invPair_zero_left b2 hnz2 hr2.2
    have ez3l : Week3.invPair 0 b3 = 1 := invPair_zero_left b3 hnz3 hr3.2
    have ez4l : Week3.invPair 0 b4 = 1 := invPair_zero_left b4 hnz4 hr4.2
    have ez6l : Week3.invPair 0 b6 = 1 := invPair_zero_left b6 hnz6 hr6.2
    have ez7l : Week3.invPair 0 b7 = 1 := invPair_zero_left b7 hnz7 hr7.2
    have ez8l : Week3.invPair 0 b8 = 1 := invPair_zero_left b8 hnz8 hr8.2
    have ez0r : Week3.invPair b0 0 = 0 := invPair_zero_right b0 hr0.2
    have ez1r : Week3.invPair b1 0 = 0 := invPair_zero_right b1 hr1.2
    have ez2r : Week3.invPair b2 0 = 0 := invPair_zero_right b2 hr2.2
    have ez3r : Week3.invPair b3 0 = 0 := invPair_zero_right b3 hr3.2
    have ez4r : Week3.invPair b4 0 = 0 := invPair_zero_right b4 hr4.2
    have ez6r : Week3.invPair b6 0 = 0 := invPair_zero_right b6 hr6.2
    have ez7r : Week3.invPair b7 0 = 0 := invPair_zero_right b7 hr7.2
    have ez8r : Week3.invPair b8 0 = 0 := invPair_zero_right b8 hr8.2
    have hidxt : List.indexOf (0 : Int) [b0, b1, b2, b3, b4, 0, b6, b7, b8] = 5 :=
      nodup_indexOf_zero _ hnd 5 (by simp) rfl
    rcases hmem with rfl | rfl | rfl
    · have hidxn : List.indexOf (0 : Int) [b0, b1, 0, b3, b4, b2, b6, b7, b8] = 2 :=
        nodup_indexOf_zero _ hndn 2 (by simp) rfl
      have ha1 : Week3.invPair b2 b3 + Week3.invPair b3 b2 = 1 :=
        invPair_antisymm b2 b3
          (nodup_getD_pair_ne _ hnd 2 3 (by simp) (by simp) (by decide)) hr2 hr3
      have ha2 : Week3.invPair b2 b4 + Week3.invPair b4 b2 = 1 :=
        invPair_antisymm b2 b4
          (nodup_getD_pair_ne _ hnd 2 4 (by simp) (by simp) (by decide)) hr2 hr4
      simp only [Week3.parity, hidxt, hidxn, Week3.inv9, List.map_cons,
        List.map_nil, List.sum_cons, List.sum_nil, ez0l, ez1l, ez2l, ez3l, ez4l, ez6l, ez7l, ez8l, ez0r, ez1r, ez2r, ez3r, ez4r, ez6r, ez7r, ez8r]
      omega
    · have hidxn : List.indexOf (0 : Int) [b0, b1, b2, b3, b4, b8, b6, b7, 0] = 8 :=
        nodup_indexOf_zero _ hndn 8 (by simp) rfl
      have ha1 : Week3.invPair b8 b6 + Week3.invPair b6 b8 = 1 :=
        invPair_antisymm b8 b6
          (nodup_getD_pair_ne _ hnd 8 6 (by simp) (by simp) (by decide)) hr8 hr6
      have ha2 : Week3.invPair b8 b7 + Week3.invPair b7 b8 = 1 :=
        invPair_antisymm b8 b7
          (nodup_getD_pair_ne _ hnd 8 7 (by simp) (by simp) (by decide)) hr8 hr7
      simp only [Week3.parity, hidxt, hidxn, Week3.inv9, List.map_cons,
        List.map_nil, List.sum_cons, List.sum_nil, ez0l, ez1l, ez2l, ez3l, ez4l, ez6l, ez7l, ez8l, ez0r, ez1r, ez2r, ez3r, ez4r, ez6r, ez7r, ez8r]
      omega
    · have hidxn : List.indexOf (0 : Int) [b0, b1, b2, b3, 0, b4, b6, b7, b8] = 4 :=
        nodup_indexOf_zero _ hndn 4 (by simp) rfl
      simp only [Week3.parity, hidxt, hidxn, Week3.inv9, List.map_cons,
        List.map_nil, List.sum_cons, List.sum_nil, ez0l, ez1l, ez2l, ez3l, ez4l, ez6l, ez7l, ez8l, ez0r, ez1r, ez2r, ez3r, ez4r, ez6r, ez7r, ez8r]
      omega
  · rw [h] at hget
    have hb : b6 = 0 := hget
    subst hb
    rw [succTiles_blank6 b0 b1 b2 b3 b4 b5 b7 b8 h] at hmem
    simp only [List.mem_cons, List.not_mem_nil, or_false] at hmem
    have hr0 : 0 ≤ b0 ∧ b0 ≤ 8 := hrange b0 (hperm.subset (by simp))
    have hr1 : 0 ≤ b1 ∧ b1 ≤ 8 := hrange b1 (hperm.subset (by simp))
    have hr2 : 0 ≤ b2 ∧ b2 ≤ 8 := hrange b2 (hperm.subset (by simp))
    have hr3 : 0 ≤ b3 ∧ b3 ≤ 8 := hrange b3 (hperm.subset (by simp))
    have hr4 : 0 ≤ b4 ∧ b4 ≤ 8 := hrange b4 (hperm.subset (by simp))
    have hr5 : 0 ≤ b5 ∧ b5 ≤ 8 := hrange b5 (hperm.subset (by simp))
    have hr7 : 0 ≤ b7 ∧ b7 ≤ 8 := hrange b7 (hperm.subset (by simp))
    have hr8 : 0 ≤ b8 ∧ b8 ≤ 8 := hrange b8 (hperm.subset (by simp))
    have hnz0 : b0 ≠ 0 := nodup_getD_ne _ hnd 6 0 (by simp) (by simp) (by decide) rfl
    have hnz1 : b1 ≠ 0 := nodup_getD_ne _ hnd 6 1 (by simp) (by simp) (by decide) rfl
    have hnz2 : b2 ≠ 0 := nodup_getD_ne _ hnd 6 2 (by simp) (by simp) (by decide) rfl
    have hnz3 : b3 ≠ 0 := nodup_getD_ne _ hnd 6 3 (by simp) (by simp) (by decide) rfl
    have hnz4 : b4 ≠ 0 := nodup_getD_ne _ hnd 6 4 (by simp) (by simp) (by decide) rfl
    have hnz5 : b5 ≠ 0 := nodup_getD_ne _ hnd 6 5 (by simp) (by simp) (by decide) rfl
    have hnz7 : b7 ≠ 0 := nodup_getD_ne _ hnd 6 7 (by simp) (by simp) (by decide) rfl
    have hnz8 : b8 ≠ 0 := nodup_getD_ne _ hnd 6 8 (by simp) (by simp) (by decide) rfl
    have ez0l : Week3.invPair 0 b0 = 1 := invPair_zero_left b0 hnz0 hr0.2
    have ez1l : Week3.invPair 0 b1 = 1 := invPair_zero_left b1 hnz1 hr1.2
    have ez2l : Week3.invPair 0 b2 = 1 := invPair_zero_left b2 hnz2 hr2.2
    have ez3l : Week3.invPair 0 b3 = 1 := invPair_zero_left b3 hnz3 hr3.2
    have ez4l : Week3.invPair 0 b4 = 1 := invPair_zero_left b4 hnz4 hr4.2
    have ez5l : Week3.invPair 0 b5 = 1 := invPair_zero_left b5 hnz5 hr5.2
    have ez7l : Week3.invPair 0 b7 = 1 := invPair_zero_left b7 hnz7 hr7.2
    have ez8l : Week3.invPair 0 b8 = 1 := invPair_zero_left b8 hnz8 hr8.2
    have ez0r : Week3.invPair b0 0 = 0 := invPair_zero_right b0 hr0.2
    have ez1r : Week3.invPair b1 0 = 0 := invPair_zero_right b1 hr1.2
    have ez2r : Week3.invPair b2 0 = 0 := invPair_zero_right b2 hr2.2
    have ez3r : Week3.invPair b3 0 = 0 := invPair_zero_right b3 hr3.2
    have ez4r : Week3.invPair b4 0 = 0 := invPair_zero_right b4 hr4.2
    have ez5r : Week3.invPair b5 0 = 0 := invPair_zero_right b5 hr5.2
    have ez7r : Week3.invPair b7 0 = 0 := invPair_zero_right b7 hr7.2
    have ez8r : Week3.invPair b8 0 = 0 := invPair_zero_right b8 hr8.2
    have hidxt : List.indexOf (0 : Int) [b0, b1, b2, b3, b4, b5, 0, b7, b8] = 6 :=
      nodup_indexOf_zero _ hnd 6 (by simp) rfl
    rcases hmem with rfl | rfl
    · have hidxn : List.indexOf (0 : Int) [b0, b1, b2, 0, b4, b5, b3, b7, b8] = 3 :=
        nodup_indexOf_zero _ hndn 3 (by simp) rfl
      have ha1 : Week3.invPair b3 b4 + Week3.invPair b4 b3 = 1 :=
        invPair_antisymm b3 b4
          (nodup_getD_pair_ne _ hnd 3 4 (by simp) (by simp) (by decide)) hr3 hr4
      have ha2 : Week3.invPair b3 b5 + Week3.invPair b5 b3 = 1 :=
        invPair_antisymm b3 b5
          (nodup_getD_pair_ne _ hnd 3 5 (by simp) (by simp) (by decide)) hr3 hr5
      simp only [Week3.parity, hidxt, hidxn, Week3.inv9, List.map_cons,
        List.map_nil, List.sum_cons, List.sum_nil, ez0l, ez1l, ez2l, ez3l, ez4l, ez5l, ez7l, ez8l, ez0r, ez1r, ez2r, ez3r, ez4r, ez5r, ez7r, ez8r]
      omega
    · have hidxn : List.indexOf (0 : Int) [b0, b1, b2, b3, b4, b5, b7, 0, b8] = 7 :=
        nodup_indexOf_zero _ hndn 7 (by simp) rfl
      simp only [Week3.parity, hidxt, hidxn, Week3.inv9, List.map_cons,
        List.map_nil, List.sum_cons, List.sum_nil, ez0l, ez1l, ez2l, ez3l, ez4l, ez5l, ez7l, ez8l, ez0r, ez1r, ez2r, ez3r, ez4r, ez5r, ez7r, ez8r]
      omega
  · rw [h] at hget
    have hb : b7 = 0 := hget
    subst hb
    rw [succTiles_blank7 b0 b1 b2 b3 b4 b5 b6 b8 h] at hmem
    simp only [List.mem_cons, List.not_mem_nil, or_false] at hmem
    have hr0 : 0 ≤ b0 ∧ b0 ≤ 8 := hrange b0 (hperm.subset (by simp))
    have hr1 : 0 ≤ b1 ∧ b1 ≤ 8 := hrange b1 (hperm.subset (by simp))
    have hr2 : 0 ≤ b2 ∧ b2 ≤ 8 := hrange b2 (hperm.subset (by simp))
    have hr3 : 0 ≤ b3 ∧ b3 ≤ 8 := hrange b3 (hperm.subset (by simp))
    have hr4 : 0 ≤ b4 ∧ b4 ≤ 8 := hrange b4 (hperm.subset (by simp))
    have hr5 : 0 ≤ b5 ∧ b5 ≤ 8 := hrange b5 (hperm.subset (by simp))
    have hr6 : 0 ≤ b6 ∧ b6 ≤ 8 := hrange b6 (hperm.subset (by simp))
    have hr8 : 0 ≤ b8 ∧ b8 ≤ 8 := hrange b8 (hperm.subset (by simp))
    have hnz0 : b0 ≠ 0 := nodup_getD_ne _ hnd 7 0 (by simp) (by simp) (by decide) rfl
    have hnz1 : b1 ≠ 0 := nodup_getD_ne _ hnd 7 1 (by simp) (by simp) (by decide) rfl
    have hnz2 : b2 ≠ 0 := nodup_getD_ne _ hnd 7 2 (by simp) (by simp) (by decide) rfl
    have hnz3 : b3 ≠ 0 := nodup_getD_ne _ hnd 7 3 (by simp) (by simp) (by decide) rfl
    have hnz4 : b4 ≠ 0 := nodup_getD_ne _ hnd 7 4 (by simp) (by simp) (by decide) rfl
    have hnz5 : b5 ≠ 0 := nodup_getD_ne _ hnd 7 5 (by simp) (by simp) (by decide) rfl
    have hnz6 : b6 ≠ 0 := nodup_getD_ne _ hnd 7 6 (by simp) (by simp) (by decide) rfl
    have hnz8 : b8 ≠ 0 := nodup_getD_ne _ hnd 7 8 (by simp) (by simp) (by decide) rfl
    have ez0l : Week3.invPair 0 b0 = 1 := invPair_zero_left b0 hnz0 hr0.2
    have ez1l : Week3.invPair 0 b1 = 1 := invPair_zero_left b1 hnz1 hr1.2
    have ez2l : Week3.invPair 0 b2 = 1 := invPair_zero_left b2 hnz2 hr2.2
    have ez3l : Week3.invPair 0 b3 = 1 := invPair_zero_left b3 hnz3 hr3.2
    have ez4l : Week3.invPair 0 b4 = 1 := invPair_zero_left b4 hnz4 hr4.2
    have ez5l : Week3.invPair 0 b5 = 1 := invPair_zero_left b5 hnz5 hr5.2
    have ez6l : Week3.invPair 0 b6 = 1 := invPair_zero_left b6 hnz6 hr6.2
    have ez8l : Week3.invPair 0 b8 = 1 := invPair_zero_left b8 hnz8 hr8.2
    have ez0r : Week3.invPair b0 0 = 0 := invPair_zero_right b0 hr0.2
    have ez1r : Week3.invPair b1 0 = 0 := invPair_zero_right b1 hr1.2
    have ez2r : Week3.invPair b2 0 = 0 := invPair_zero_right b2 hr2.2
    have ez3r : Week3.invPair b3 0 = 0 := invPair_zero_right b3 hr3.2
    have ez4r : Week3.invPair b4 0 = 0 := invPair_zero_right b4 hr4.2
    have ez5r : Week3.invPair b5 0 = 0 := invPair_zero_right b5 hr5.2
    have ez6r : Week3.invPair b6 0 = 0 := invPair_zero_right b6 hr6.2
    have ez8r : Week3.invPair b8 0 = 0 := invPair_zero_right b8 hr8.2
    have hidxt : List.indexOf (0 : Int) [b0, b1, b2, b3, b4, b5, b6, 0, b8] = 7 :=
      nodup_indexOf_zero _ hnd 7 (by simp) rfl
    rcases hmem with rfl | rfl | rfl
    · have hidxn : List.indexOf (0 : Int) [b0, b1, b2, b3, 0, b5, b6, b4, b8] = 4 :=
        nodup_indexOf_zero _ hndn 4 (by simp) rfl
      have ha1 : Week3.invPair b4 b5 + Week3.invPair b5 b4 = 1 :=
        invPair_antisymm b4 b5
          (nodup_getD_pair_ne _ hnd 4 5 (by simp) (by simp) (by decide)) hr4 hr5
      have ha2 : Week3.invPair b4 b6 + Week3.invPair b6 b4 = 1 :=
        invPair_antisymm b4 b6
          (nodup_getD_pair_ne _ hnd 4 6 (by simp) (by simp) (by decide)) hr4 hr6
      simp only [Week3.parity, hidxt, hidxn, Week3.inv9, List.map_cons,
        List.map_nil, List.sum_cons, List.sum_nil, ez0l, ez1l, ez2l, ez3l, ez4l, ez5l, ez6l, ez8l, ez0r, ez1r, ez2r, ez3r, ez4r, ez5r, ez6r, ez8r]
      omega
    · have hidxn : List.indexOf (0 : Int) [b0, b1, b2, b3, b4, b5, 0, b6, b8] = 6 :=
        nodup_indexOf_zero _ hndn 6 (by simp) rfl
      simp only [Week3.parity, hidxt, hidxn, Week3.inv9, List.map_cons,
        List.map_nil, List.sum_cons, List.sum_nil, ez0l, ez1l, ez2l, ez3l, ez4l, ez5l, ez6l, ez8l, ez0r, ez1r, ez2r, ez3r, ez4r, ez5r, ez6r, ez8r]
      omega
    · have hidxn : List.indexOf (0 : Int) [b0, b1, b2, b3, b4, b5, b6, b8, 0] = 8 :=
        nodup_indexOf_zero _ hndn 8 (by simp) rfl
      simp only [Week3.parity, hidxt, hidxn, Week3.inv9, List.map_cons,
        List.map_nil, List.sum_cons, List.sum_nil, ez0l, ez1l, ez2l, ez3l, ez4l, ez5l, ez6l, ez8l, ez0r, ez1r, ez2r, ez3r, ez4r, ez5r, ez6r, ez8r]
      omega
  · rw [h] at hget
    have hb : b8 = 0 := hget
    subst hb
    rw [succTiles_blank8 b0 b1 b2 b3 b4 b5 b6 b7 h] at hmem
    simp only [List.mem_cons, List.not_mem_nil, or_false] at hmem
    have hr0 : 0 ≤ b0 ∧ b0 ≤ 8 := hrange b0 (hperm.subset (by simp))
    have hr1 : 0 ≤ b1 ∧ b1 ≤ 8 := hrange b1 (hperm.subset (by simp))
    have hr2 : 0 ≤ b2 ∧ b2 ≤ 8 := hrange b2 (hperm.subset (by simp))
    have hr3 : 0 ≤ b3 ∧ b3 ≤ 8 := hrange b3 (hperm.subset (by simp))
    have hr4 : 0 ≤ b4 ∧ b4 ≤ 8 := hrange b4 (hperm.subset (by simp))
    have hr5 : 0 ≤ b5 ∧ b5 ≤ 8 := hrange b5 (hperm.subset (by simp))
    have hr6 : 0 ≤ b6 ∧ b6 ≤ 8 := hrange b6 (hperm.subset (by simp))
    have hr7 : 0 ≤ b7 ∧ b7 ≤ 8 := hrange b7 (hperm.subset (by simp))
    have hnz0 : b0 ≠ 0 := nodup_getD_ne _ hnd 8 0 (by simp) (by simp) (by decide) rfl
    have hnz1 : b1 ≠ 0 := nodup_getD_ne _ hnd 8 1 (by simp) (by simp) (by decide) rfl
    have hnz2 : b2 ≠ 0 := nodup_getD_ne _ hnd 8 2 (by simp) (by simp) (by decide) rfl
    have hnz3 : b3 ≠ 0 := nodup_getD_ne _ hnd 8 3 (by simp) (by simp) (by decide) rfl
    have hnz4 : b4 ≠ 0 := nodup_getD_ne _ hnd 8 4 (by simp) (by simp) (by decide) rfl
    have hnz5 : b5 ≠ 0 := nodup_getD_ne _ hnd 8 5 (by simp) (by simp) (by decide) rfl
    have hnz6 : b6 ≠ 0 := nodup_getD_ne _ hnd 8 6 (by simp) (by simp) (by decide) rfl
    have hnz7 : b7 ≠ 0 := nodup_getD_ne _ hnd 8 7 (by simp) (by simp) (by decide) rfl
    have ez0l : Week3.invPair 0 b0 = 1 := invPair_zero_left b0 hnz0 hr0.2
    have ez1l : Week3.invPair 0 b1 = 1 := invPair_zero_left b1 hnz1 hr1.2
    have ez2l : Week3.invPair 0 b2 = 1 := invPair_zero_left b2 hnz2 hr2.2
    have ez3l : Week3.invPair 0 b3 = 1 := invPair_zero_left b3 hnz3 hr3.2
    have ez4l : Week3.invPair 0 b4 = 1 := invPair_zero_left b4 hnz4 hr4.2
    have ez5l : Week3.invPair 0 b5 = 1 := invPair_zero_left b5 hnz5 hr5.2
    have ez6l : Week3.invPair 0 b6 = 1 := invPair_zero_left b6 hnz6 hr6.2
    have ez7l : Week3.invPair 0 b7 = 1 := invPair_zero_left b7 hnz7 hr7.2
    have ez0r : Week3.invPair b0 0 = 0 := invPair_zero_right b0 hr0.2
    have ez1r : Week3.invPair b1 0 = 0 := invPair_zero_right b1 hr1.2
    have ez2r : Week3.invPair b2 0 = 0 := invPair_zero_right b2 hr2.2
    have ez3r : Week3.invPair b3 0 = 0 := invPair_zero_right b3 hr3.2
    have ez4r : Week3.invPair b4 0 = 0 := invPair_zero_right b4 hr4.2
    have ez5r : Week3.invPair b5 0 = 0 := invPair_zero_right b5 hr5.2
    have ez6r : Week3.invPair b6 0 = 0 := invPair_zero_right b6 hr6.2
    have ez7r : Week3.invPair b7 0 = 0 := invPair_zero_right b7 hr7.2
    have hidxt : List.indexOf (0 : Int) [b0, b1, b2, b3, b4, b5, b6, b7, 0] = 8 :=
      nodup_indexOf_zero _ hnd 8 (by simp) rfl
    rcases hmem with rfl | rfl
    · have hidxn : List.indexOf (0 : Int) [b0, b1, b2, b3, b4, 0, b6, b7, b5] = 5 :=
        nodup_indexOf_zero _ hndn 5 (by simp) rfl
      have ha1 : Week3.invPair b5 b6 + Week3.invPair b6 b5 = 1 :=
        invPair_antisymm b5 b6
          (nodup_getD_pair_ne _ hnd 5 6 (by simp) (by simp) (by decide)) hr5 hr6
      have ha2 : Week3.invPair b5 b7 + Week3.invPair b7 b5 = 1 :=
        invPair_antisymm b5 b7
          (nodup_getD_pair_ne _ hnd 5 7 (by simp) (by simp) (by decide)) hr5 hr7
      simp only [Week3.parity, hidxt, hidxn, Week3.inv9, List.map_cons,
        List.map_nil, List.sum_cons, List.sum_nil, ez0l, ez1l, ez2l, ez3l, ez4l, ez5l, ez6l, ez7l, ez0r, ez1r, ez2r, ez3r, ez4r, ez5r, ez6r, ez7r]
      omega
    · have hidxn : List.indexOf (0 : Int) [b0, b1, b2, b3, b4, b5, b6, 0, b7] = 7 :=
        nodup_indexOf_zero _ hndn 7 (by simp) rfl
      simp only [Week3.parity, hidxt, hidxn, Week3.inv9, List.map_cons,
        List.map_nil, List.sum_cons, List.sum_nil, ez0l, ez1l, ez2l, ez3l, ez4l, ez5l, ez6l, ez7l, ez0r, ez1r, ez2r, ez3r, ez4r, ez5r, ez6r, ez7r]
      omega

/-- Helper: parity is constant along a chain of moves. -/
theorem parity_moveChain :
    ∀ (c : List (List Int)) (t x : List Int), t.Perm Week3.goalTiles →
      Week3.MoveChain t c → (t :: c).getLast? = some x →
      Week3.parity x = Week3.parity t := by
  intro c
  induction c with
  | nil =>
      intro t x _ _ hlast
      have ht : t = x := by simpa using hlast
      subst ht
      rfl
  | cons b rest ih =>
      intro t x hperm hchain hlast
      obtain ⟨hb, hrest⟩ := hchain
      have h0 : (0 : Int) ∈ t := hperm.mem_iff.mpr (by decide)
      have hlen : t.length = 9 := hperm.length_eq.trans (by decide)
      obtain ⟨-, -, -, hpermn⟩ := succTiles_spec t b h0 hlen hb
      have hpb : b.Perm Week3.goalTiles := hpermn.trans hperm
      have hlast' : (b :: rest).getLast? = some x := by
        simpa [List.getLast?_cons_cons] using hlast
      rw [ih b x hpb hrest hlast']
      exact parity_succ t b hperm hb

/-- Helper: a tile list whose parity differs from the goal arrangement
never reaches it by any chain of moves. -/
theorem parity_unreachable (t : List Int) (hperm : t.Perm Week3.goalTiles)
    (hpar : Week3.parity t ≠ Week3.parity Week3.goalTiles) :
    ∀ c, Week3.MoveChain t c →
      (t :: c).getLast? ≠ some Week3.goalTiles := by
  intro c hc hlast
  exact hpar (parity_moveChain c t Week3.goalTiles hperm hc hlast).symm

/-- **C7**: on well-formed inputs whose goal is unreachable from the start,
both searches terminate by exhausting the frontier and return the non-found
result with an empty path — the grid search ends in a `.ok` outcome carrying
`none` as its path (never the exception layer), and the puzzle search
returns `(false, [], _)`. -/
theorem C7_unreachable_exhausts :
    (∀ (start goal : Robopath.Point) (width height : Int)
        (blocked : List Robopath.Point),
      Robopath.inBounds width height start →
      (∀ tail, Robopath.GridChain width height blocked start tail →
        (start :: tail).getLast? ≠ some goal) →
      ∃ (fuel : Nat) (st : Robopath.AState),
        Robopath.astar fuel start goal width height blocked =
          some (.ok (none, st))) ∧
    (∀ (lst : List Int) (sv : Week3.EightPuzzleSolver),
      Week3.mkSolver lst = some sv →
      (∀ c, Week3.MoveChain lst c →
        (lst :: c).getLast? ≠ some Week3.goalTiles) →
      ∃ (fuel n : Nat) (st : Week3.SState),
        Week3.solve fuel sv = some ((false, [], n), st)) := by
  constructor
  · intro start goal width height blocked hs hunreach
    obtain ⟨fuel, r, hr⟩ := astar_terminates start goal width height blocked hs
    obtain ⟨ropt, st⟩ := r
    cases ropt with
    | none => exact ⟨fuel, st, hr⟩
    | some path =>
        exfalso
        have hcf : Robopath.CameFromOK width height blocked start
            (Robopath.astarInit start goal).cameFrom := by
          intro p hp
          rcases List.mem_singleton.mp hp with rfl
          exact ⟨fun _ => rfl, fun q hq => by cases hq⟩
        obtain ⟨hhead, hlast, hchain⟩ :=
          astarLoop_path_props goal width height blocked start fuel _ path st
            hr hcf
        cases path with
        | nil => simp at hhead
        | cons a tail =>
            have ha : a = start := by simpa using hhead
            rw [ha] at hchain hlast
            exact absurd hlast (hunreach tail
              (chain_to_gridChain width height blocked tail start hchain))
  · intro lst sv hmk hunreach
    have hperm9 : lst.Perm [0, 1, 2, 3, 4, 5, 6, 7, 8] := by
      have hiff := mkSolver_isSome_iff lst
      rw [hmk] at hiff
      exact hiff.mp rfl
    have hpermg : lst.Perm Week3.goalTiles := hperm9.trans (by decide)
    have h0l : (0 : Int) ∈ lst := hpermg.mem_iff.mpr (by decide)
    have hlen : lst.length = 9 := hpermg.length_eq.trans (by decide)
    obtain ⟨hinit, -⟩ := mkSolver_eq_some lst sv hmk
    have htiles : sv.initialState.tiles = lst := by rw [hinit]; rfl
    obtain ⟨fuel, ⟨⟨b, path, n⟩, st⟩, hr⟩ := solve_terminates lst sv hmk
    rw [Week3.solve] at hr
    by_cases hg : sv.initialState.isGoal = true
    · exfalso
      have h0 : Week3.heuristicT lst = 0 := by
        have hg' := hg
        rw [hinit] at hg'
        simpa [Week3.PuzzleState.isGoal, Week3.PuzzleState.heuristic,
          Week3.PuzzleState.tiles] using hg'
      have hgoal : lst = Week3.goalTiles := heuristicT_zero_goal lst hpermg h0
      exact hunreach [] trivial (by rw [hgoal]; simp)
    · rw [if_neg hg] at hr
      have hSCI : Week3.SChainInv sv.initialState (Week3.solveInit sv) := by
        intro e he
        rcases List.mem_singleton.mp he with rfl
        rw [hinit]
        simp only [Week3.goodChain]
      obtain ⟨hchain, htrue, hfalse⟩ :=
        solveLoop_path_props sv.initialState fuel _ b path n st hr hSCI
      cases b with
      | false =>
          have hpe : path = [] := hfalse rfl
          subst hpe
          refine ⟨fuel, n, st, ?_⟩
          rw [Week3.solve, if_neg hg]
          exact hr
      | true =>
          exfalso
          obtain ⟨hhead, last, hlastp, hlg⟩ := htrue rfl
          cases path with
          | nil => simp at hhead
          | cons a tail =>
              have ha : a = sv.initialState := by simpa using hhead
              subst ha
              have hmc : Week3.MoveChain sv.initialState.tiles
                  (tail.map Week3.PuzzleState.tiles) :=
                chain_to_moveChain tail sv.initialState hchain
              rw [htiles] at hmc
              have hltiles : (lst :: tail.map Week3.PuzzleState.tiles).getLast? =
                  some last.tiles := by
                rw [show lst :: tail.map Week3.PuzzleState.tiles =
                    (sv.initialState :: tail).map Week3.PuzzleState.tiles by
                  rw [List.map_cons, htiles]]
                rw [List.getLast?_map, hlastp]
                rfl
              have h0t : Week3.heuristicT last.tiles = 0 := by
                simpa [Week3.PuzzleState.isGoal, Week3.PuzzleState.heuristic]
                  using hlg
              have hpl : last.tiles.Perm lst :=
                moveChain_last_perm (tail.map Week3.PuzzleState.tiles) lst
                  last.tiles h0l hlen hmc hltiles
              have hgoal : last.tiles = Week3.goalTiles :=
                heuristicT_zero_goal last.tiles (hpl.trans hpermg) h0t
              exact hunreach (tail.map Week3.PuzzleState.tiles) hmc
                (by rw [hltiles, hgoal])

/-- Witness for C7: a 3-by-1 grid whose middle cell is blocked walls the
goal off from the start, and the unsolvable tile arrangement
`[2, 1, 3, 4, 5, 6, 7, 8, 0]` has the wrong parity. -/
theorem C7_unreachable_exhausts_witness :
    (∃ (fuel : Nat) (st : Robopath.AState),
      Robopath.astar fuel (0, 0) (2, 0) 3 1 [(1, 0)] =
        some (.ok (none, st))) ∧
    (∃ (fuel n : Nat) (st : Week3.SState),
      Week3.solve fuel
          { initialState := .mk [2, 1, 3, 4, 5, 6, 7, 8, 0] 0 none ""
            goalState := .mk Week3.goalTiles 0 none "" } =
        some ((false, [], n), st)) := by
  constructor
  · refine C7_unreachable_exhausts.1 (0, 0) (2, 0) 3 1 [(1, 0)] (by decide) ?_
    intro tail hg hlast
    cases tail with
    | nil => exact absurd hlast (by decide)
    | cons b rest =>
        obtain ⟨⟨hmem, hnb⟩, -⟩ := hg
        norm_num [Robopath.neighbors] at hmem
        subst hmem
        exact hnb (by simp)
  · exact C7_unreachable_exhausts.2 [2, 1, 3, 4, 5, 6, 7, 8, 0]
      { initialState := .mk [2, 1, 3, 4, 5, 6, 7, 8, 0] 0 none ""
        goalState := .mk Week3.goalTiles 0 none "" } rfl
      (parity_unreachable [2, 1, 3, 4, 5, 6, 7, 8, 0] (by decide) (by decide))

/-- **C10**: the grid search never tests whether the start or goal cell is
blocked: with start equal to goal it returns the singleton path `[start]`
even when that cell is in the blocked set, and with a blocked goal distinct
from an in-bounds start it terminates with its no-path result, because
blocked cells are filtered only where they appear as successors. -/
theorem C10_blocked_endpoints :
    (∀ (s : Robopath.Point) (width height : Int)
        (blocked : List Robopath.Point) (fuel : Nat),
      0 < fuel → s ∈ blocked →
      Robopath.astar fuel s s width height blocked =
        some (.ok (some [s],
          { openHeap := [], cameFrom := [(s, none)], gscore := [(s, 0)],
            pushLog := [(0, 0, s)], expanded := 0 }))) ∧
    (∀ (start goal : Robopath.Point) (width height : Int)
        (blocked : List Robopath.Point),
      Robopath.inBounds width height start → goal ∈ blocked → start ≠ goal →
      ∃ (fuel : Nat) (st : Robopath.AState),
        Robopath.astar fuel start goal width height blocked =
          some (.ok (none, st))) := by
  constructor
  · intro s width height blocked fuel hf hsb
    obtain ⟨m, rfl⟩ : ∃ m, fuel = m + 1 := ⟨fuel - 1, by omega⟩
    have hm : Robopath.manhattan s s = 0 := by
      simp [Robopath.manhattan]
    simp [Robopath.astar, Robopath.astarLoop, Robopath.astarInit, hm,
      Robopath.popMin, Robopath.minEntry, Robopath.removeEntry,
      Robopath.reconstruct, List.lookup]
  · intro start goal width height blocked hs hbl hne
    obtain ⟨fuel, r, hr⟩ := astar_terminates start goal width height blocked hs
    obtain ⟨ropt, st⟩ := r
    cases ropt with
    | none => exact ⟨fuel, st, hr⟩
    | some path =>
        exfalso
        have hcf : Robopath.CameFromOK width height blocked start
            (Robopath.astarInit start goal).cameFrom := by
          intro p hp
          rcases List.mem_singleton.mp hp with rfl
          exact ⟨fun _ => rfl, fun q hq => by cases hq⟩
        obtain ⟨hhead, hlast, hchain⟩ :=
          astarLoop_path_props goal width height blocked start fuel _ path st
            hr hcf
        cases path with
        | nil => simp at hhead
        | cons a tail =>
            have ha : a = start := by simpa using hhead
            rw [ha] at hchain hlast
            cases tail with
            | nil =>
                have heq : start = goal := by simpa using hlast
                exact hne heq
            | cons c rest =>
                obtain ⟨x, hx⟩ := chain_last_step
                  (Robopath.GridStep width height blocked) (c :: rest) start
                  goal (by simp) hchain hlast
                exact hx.2 hbl

/-- Witness for C10: a single blocked cell that is both start and goal, and
a two-cell grid whose goal cell is blocked. -/
theorem C10_blocked_endpoints_witness :
    Robopath.astar 1 (0, 0) (0, 0) 1 1 [(0, 0)] =
      some (.ok (some [(0, 0)],
        { openHeap := [], cameFrom := [((0, 0), none)],
          gscore := [((0, 0), 0)], pushLog := [(0, 0, (0, 0))],
          expanded := 0 })) ∧
    (∃ (fuel : Nat) (st : Robopath.AState),
      Robopath.astar fuel (0, 0) (1, 0) 2 1 [(1, 0)] =
        some (.ok (none, st))) := by
  exact ⟨C10_blocked_endpoints.1 (0, 0) 1 1 [(0, 0)] 1 (by decide) (by decide),
    C10_blocked_endpoints.2 (0, 0) (1, 0) 2 1 [(1, 0)] (by decide) (by decide)
      (by decide)⟩
